import Mathlib

/-!
Minion neighbourhood search: hill-climber, meta-search, search statistics and
the wrapper `AnyVarRef`.

A shallow embedding of `minion/search/SearchStrategies.h`,
`minion/search/neighbourhoodSearchStats.h` and `minion/variables/AnyVarRef.h`.

Conventions of the embedding.

* The `double` members of `ExponentialIncrementer` are values of the IEEE 754
  binary64 format (`Double`: sign, biased exponent, fraction), and `*=`, `+=`
  on them are the operations of that format: the exact product or sum rounded
  to the nearest value, halfway cases to the even significand, with the
  infinities, the NaN and the signed zeros.  Each statement stores a binary64
  value; no product and sum are fused.
* The local-maximum probability of the hill-climber and the draw
  `rand() / RAND_MAX` are kept as the rational numbers the source expressions
  denote.
* `int` and `DomainInt` values are mathematical integers; the range of `int`
  is modelled where a `double` is converted to it, in
  `ExponentialIncrementer::getValue`, whose result is `none` when the value is
  not finite or its rounding is not an `int` (the conversion is undefined
  there).  A value stored in a `u_int64_t` is reduced modulo `2 ^ 64`.
* A `std::vector` is a `List`; an access outside the vector, like the use of a
  null pointer, is undefined behaviour and makes the enclosing operation
  return `none`.
* Calls that leave these headers (the selection strategy, the inner search
  `searchNeighbourhoods`, `std::rand`, `std::random_shuffle`, the wrapped
  search strategy of `MetaSearch`, the clock) are answered by explicit inputs:
  event records, one per loop iteration, and the sequence of clock readings.
  A loop consumes a list of events; when the list is used up before the loop
  has returned the result says so.
-/

namespace Minion

/-! ## Definitions -/

/-- Smallest value of the C++ type `int` (32 bit). -/
def INT_MIN : Int := -2147483648

/-- Largest value of the C++ type `int` (32 bit). -/
def INT_MAX : Int := 2147483647

/-- The function `std::round`: the nearest integer, halfway cases rounded away
from zero. -/
def cppRound (v : ℚ) : Int :=
  if 0 ≤ v then ⌊v + 1 / 2⌋ else ⌈v - 1 / 2⌉

/-! ### The type `double` -/

/-- A value of the C++ type `double` in the IEEE 754 binary64 format: the sign
bit, the 11 bits of the biased exponent and the 52 bits of the fraction. -/
structure Double where
  sign : Bool
  exponent : Fin 2048
  fraction : Fin (2 ^ 52)
  deriving DecidableEq

namespace Double

/-- The zero of the given sign. -/
def zero (sign : Bool) : Double := ⟨sign, ⟨0, by decide⟩, ⟨0, by decide⟩⟩

/-- The infinity of the given sign: exponent field 2047, fraction 0. -/
def infinity (sign : Bool) : Double := ⟨sign, ⟨2047, by decide⟩, ⟨0, by decide⟩⟩

/-- The quiet NaN that an invalid operation returns. -/
def nan : Double := ⟨false, ⟨2047, by decide⟩, ⟨2 ^ 51, by decide⟩⟩

/-- The value is a NaN: exponent field 2047 and a fraction other than 0. -/
def isNaN (d : Double) : Bool := d.exponent.val == 2047 && d.fraction.val != 0

/-- The value is an infinity. -/
def isInfinite (d : Double) : Bool := d.exponent.val == 2047 && d.fraction.val == 0

/-- The value is a zero, of either sign. -/
def isZero (d : Double) : Bool := d.exponent.val == 0 && d.fraction.val == 0

/-- The integer significand of a finite value: the fraction, with the hidden
bit unless the exponent field is 0 (a zero or a subnormal value). -/
def significand (d : Double) : Nat :=
  if d.exponent.val = 0 then d.fraction.val else 2 ^ 52 + d.fraction.val

/-- The exponent of the last place of a finite value, which is
`± significand * 2 ^ quantum`. -/
def quantum (d : Double) : Int :=
  if d.exponent.val = 0 then -1074 else (d.exponent.val : Int) - 1075

/-- The significand with the sign of the value. -/
def signedSignificand (d : Double) : Int :=
  if d.sign then -(d.significand : Int) else (d.significand : Int)

/-- The real number a finite value stands for; `none` for an infinity or a
NaN. -/
def toRat? (d : Double) : Option ℚ :=
  if d.exponent.val = 2047 then none
  else some ((d.signedSignificand : ℚ) * (2 : ℚ) ^ d.quantum)

/-- The value `± m * 2 ^ q`, for `m ≤ 2 ^ 53` and `q ≥ -1074` with `m < 2 ^ 52`
only when `q = -1074`: a zero or a subnormal value when `m < 2 ^ 52`, an
infinity when the exponent is beyond the largest finite one. -/
def pack (sign : Bool) (m : Nat) (q : Int) : Double :=
  if h0 : m < 2 ^ 52 then ⟨sign, ⟨0, by decide⟩, ⟨m, h0⟩⟩
  else
    let m1 : Nat := if m = 2 ^ 53 then 2 ^ 52 else m
    let q1 : Int := if m = 2 ^ 53 then q + 1 else q
    if h1 : (q1 + 1075).toNat < 2047 ∧ m1 - 2 ^ 52 < 2 ^ 52 then
      ⟨sign, ⟨(q1 + 1075).toNat, Nat.lt_succ_of_lt h1.1⟩, ⟨m1 - 2 ^ 52, h1.2⟩⟩
    else infinity sign

/-- Number of binary digits of `n`, by halving; the first argument bounds the
number of steps. -/
def bitLengthAux : Nat → Nat → Nat
  | 0, _ => 0
  | fuel + 1, n => if n = 0 then 0 else bitLengthAux fuel (n / 2) + 1

/-- Number of binary digits of `n`. -/
def bitLength (n : Nat) : Nat := bitLengthAux n n

/-- The `double` nearest to `± num / den` (for `den > 0`), a halfway case
going to the even significand: the rounding of the arithmetic operations and
of the conversions in the default rounding mode.  `p` is the exponent of the
leading binary digit of `num / den`, `q` the exponent of the last place kept,
`m0` and `r` the quotient and the remainder of `num / den` by `2 ^ q`. -/
def ofRatio (sign : Bool) (num den : Nat) : Double :=
  if num = 0 then zero sign
  else
    let p0 : Int := (bitLength num : Int) - (bitLength den : Int)
    let p : Int := if den * 2 ^ p0.toNat ≤ num * 2 ^ (-p0).toNat then p0 else p0 - 1
    let q : Int := max (p - 52) (-1074)
    let n := num * 2 ^ (-q).toNat
    let d := den * 2 ^ q.toNat
    let m0 := n / d
    let r := n % d
    let m := if d < 2 * r ∨ (2 * r = d ∧ m0 % 2 = 1) then m0 + 1 else m0
    pack sign m q

/-- The `double` nearest to `± m * 2 ^ e`. -/
def ofScaled (sign : Bool) (m : Nat) (e : Int) : Double :=
  ofRatio sign (m * 2 ^ e.toNat) (2 ^ (-e).toNat)

/-- Conversion of an integer to `double`. -/
def ofInt (z : Int) : Double := ofRatio (decide (z < 0)) z.natAbs 1

/-- The product `a * b` of two values of type `double`: the exact product of
two finite values, rounded. -/
def mul (a b : Double) : Double :=
  if a.isNaN || b.isNaN then nan
  else if a.isInfinite || b.isInfinite then
    if a.isZero || b.isZero then nan else infinity (xor a.sign b.sign)
  else ofScaled (xor a.sign b.sign) (a.significand * b.significand) (a.quantum + b.quantum)

/-- The sum `a + b` of two values of type `double`: the exact sum of two
finite values, rounded; an exact sum 0 is negative only when both operands
are. -/
def add (a b : Double) : Double :=
  if a.isNaN || b.isNaN then nan
  else if a.isInfinite then
    if b.isInfinite && (a.sign != b.sign) then nan else a
  else if b.isInfinite then b
  else
    let e : Int := min a.quantum b.quantum
    let sum : Int := a.signedSignificand * 2 ^ (a.quantum - e).toNat +
      b.signedSignificand * 2 ^ (b.quantum - e).toNat
    if sum = 0 then zero (a.sign && b.sign)
    else ofScaled (decide (sum < 0)) sum.natAbs e

end Double

/-- Class `ExponentialIncrementer<int>`: the three `double` members. -/
structure ExponentialIncrementer where
  value : Double
  multiplier : Double
  increment : Double
  deriving DecidableEq

namespace ExponentialIncrementer

/-- Member `increase()`: `value *= multiplier; value += increment;`. -/
def increase (e : ExponentialIncrementer) : ExponentialIncrementer :=
  { e with value := (e.value.mul e.multiplier).add e.increment }

/-- Member `getValue()`: `return std::round(value);` converted to `int`.
`std::round` of a finite value is the integer `cppRound` of it, which is a
`double`; the conversion of a `double` that is not finite or is outside the
range of `int` is undefined. -/
def getValue (e : ExponentialIncrementer) : Option Int :=
  match e.value.toRat? with
  | none => none
  | some v =>
    if INT_MIN ≤ cppRound v ∧ cppRound v ≤ INT_MAX then some (cppRound v) else none

/-- The incrementer after `k` calls of `increase()`. -/
def increaseTimes (e : ExponentialIncrementer) : Nat → ExponentialIncrementer
  | 0 => e
  | k + 1 => (increaseTimes e k).increase

end ExponentialIncrementer

/-- Struct `NeighbourhoodStats` of `neighbourhoodSearchStats.h`. -/
structure NeighbourhoodStats where
  newMinValue : Int
  timeTaken : Nat
  solutionFound : Bool
  timeoutReached : Bool
  highestNeighbourhoodSize : Int
  deriving DecidableEq

/-- Modelled from the spec: the configuration record `nhConfig` (declared in
`search/nhConfig.h`), restricted to the tunables read by the search
strategies. -/
structure NhConfig where
  iterationSearchTime : Int
  initialBacktrackLimit : Double
  backtrackLimitMultiplier : Double
  backtrackLimitIncrement : Double
  holePuncherInitialBacktrackLimit : Double
  holePuncherBacktrackLimitMultiplier : Double
  backtrackInsteadOfTimeLimit : Bool
  hillClimberInitialLocalMaxProbability : ℚ
  hillClimberProbabilityIncrementMultiplier : ℚ
  hillClimberMinIterationsToSpendAtPeak : Int
  increaseBacktrackOnlyOnFailure : Bool

/-- Modelled from the spec: the bundle built by
`SearchParams::neighbourhoodSearch` (declared in `neighbourhood-search.h`),
kept as the record of the arguments of that call, in their order. -/
structure SearchParams where
  combinationToActivate : Nat
  flag3 : Bool
  flag4 : Bool
  flag5 : Bool
  iterationSearchTime : Int
  backtrackLimit : Int
  backtrackInsteadOfTimeLimit : Bool
  initialNeighbourhoodSize : Int
  deriving DecidableEq

/-- Modelled from the spec: `checked_cast<size_t>` applied to a `DomainInt`
(declared outside this header): the conversion to the unsigned 64 bit type,
defined for the values that type holds. -/
def checked_cast_size_t (x : Int) : Option Nat :=
  if 0 ≤ x ∧ x < 2 ^ 64 then some x.toNat else none

/-- Member `assign(n, x)` of `std::vector`: the content is replaced by `n`
copies of `x`. -/
def vectorAssign {α : Type} (_old : List α) (n : Nat) (x : α) : List α :=
  List.replicate n x

/-- The variables of `HillClimbingSearch::run` that live across iterations:
the locals of `run`, the two public members of the class, and
`nhState.solution`. -/
structure HillClimbingState where
  iterationsSpentAtPeak : Int
  localMaxProbability : ℚ
  backtrackLimit : ExponentialIncrementer
  highestNeighbourhoodSizes : List Nat
  bestSolutionValue : Int
  bestSolution : List Int
  solution : List Int
  deriving DecidableEq

/-- What the environment answers during one iteration of the loop in
`HillClimbingSearch::run`. -/
structure HillClimbingEvent where
  /-- Result of `selectionStrategy.getCombinationsToActivate(nhState)`. -/
  combinationToActivate : Nat
  /-- Result of `nhState.searchNeighbourhoods(params)`. -/
  stats : NeighbourhoodStats
  /-- Content of `nhState.solution` when that search has returned. -/
  solution : List Int
  /-- Result of `std::rand()`, if it is called in this iteration. -/
  randValue : Nat

namespace HillClimbingSearch

/-- Method `runNeighbourhood`, up to the call of the inner search: the
parameters handed to `nhState.searchNeighbourhoods`.  `backtrackLimit` is
taken by value and only read. -/
def runNeighbourhood (cfg : NhConfig) (combinationToActivate : Nat)
    (backtrackLimit : ExponentialIncrementer)
    (highestNeighbourhoodSizes : List Nat) : Option SearchParams :=
  match backtrackLimit.getValue, highestNeighbourhoodSizes[combinationToActivate]? with
  | some limit, some size =>
    some { combinationToActivate := combinationToActivate
           flag3 := true
           flag4 := true
           flag5 := false
           iterationSearchTime := cfg.iterationSearchTime
           backtrackLimit := limit
           backtrackInsteadOfTimeLimit := cfg.backtrackInsteadOfTimeLimit
           initialNeighbourhoodSize := (size : Int) }
  | _, _ => none

/-- Method `handleBetterSolution`.  The counter and the probability are
reference parameters and are written through; `highestNeighbourhoodSizes` is
a value parameter, so the `assign` acts on the copy owned by the call.  The
result is the state seen by the caller together with the final content of
that copy.  The last three statements (`copyOverIncumbent`, `setMin` on the
optimise variable, `propagate`) act on the solver only; what the solver does
afterwards is in the events. -/
def handleBetterSolution (cfg : NhConfig) (numberOfCombinations : Nat)
    (s : HillClimbingState) (stats : NeighbourhoodStats)
    (highestNeighbourhoodSizes : List Nat) : HillClimbingState × List Nat :=
  let copyAfterAssign := vectorAssign highestNeighbourhoodSizes numberOfCombinations 1
  ({ s with
      iterationsSpentAtPeak := 0
      localMaxProbability := cfg.hillClimberInitialLocalMaxProbability
      bestSolutionValue := stats.newMinValue
      bestSolution := s.solution
      solution := [] },
   copyAfterAssign)

/-- Outcome of one iteration of the loop of `run`. -/
structure Iteration where
  /-- Parameters passed to the inner search in this iteration. -/
  params : SearchParams
  /-- State at the end of the iteration. -/
  state : HillClimbingState
  /-- Whether the iteration ended with `return`. -/
  returned : Bool

/-- One iteration of the `while(true)` loop of `run`.  `RAND_MAX` is the
constant of the C library.  In `run` the vector `highestNeighbourhoodSizes`
has `numberOfCombinations` entries, so an iteration that is defined divides
by a positive number of combinations. -/
def iteration (cfg : NhConfig) (numberOfCombinations : Nat) (RAND_MAX : Nat)
    (s : HillClimbingState) (ev : HillClimbingEvent) : Option Iteration :=
  match runNeighbourhood cfg ev.combinationToActivate s.backtrackLimit
      s.highestNeighbourhoodSizes with
  | none => none
  | some params =>
    let s1 : HillClimbingState := { s with solution := ev.solution }
    let s2 : HillClimbingState :=
      if !cfg.increaseBacktrackOnlyOnFailure || !ev.stats.solutionFound then
        { s1 with backtrackLimit := s1.backtrackLimit.increase }
      else s1
    if ev.stats.solutionFound then
      some { params := params
             state := (handleBetterSolution cfg numberOfCombinations s2 ev.stats
                        s2.highestNeighbourhoodSizes).1
             returned := false }
    else
      match checked_cast_size_t ev.stats.highestNeighbourhoodSize with
      | none => none
      | some size =>
        let s3 : HillClimbingState :=
          { s2 with
              highestNeighbourhoodSizes :=
                s2.highestNeighbourhoodSizes.set ev.combinationToActivate size
              localMaxProbability :=
                s2.localMaxProbability +
                  (1 / (numberOfCombinations : ℚ)) *
                    cfg.hillClimberProbabilityIncrementMultiplier
              iterationsSpentAtPeak := s2.iterationsSpentAtPeak + 1 }
        some { params := params
               state := s3
               returned :=
                 decide (s3.iterationsSpentAtPeak > cfg.hillClimberMinIterationsToSpendAtPeak) &&
                 decide ((ev.randValue : ℚ) / (RAND_MAX : ℚ) < s3.localMaxProbability) }

/-- The state of `run` when the loop is entered.  The three calls before the
loop (`copyOverIncumbent`, `setMin`, `propagate`) act on the solver only. -/
def initialState (cfg : NhConfig) (numberOfCombinations : Nat)
    (nhStateSolution : List Int) (initSolutionValue : Int) (initSolution : List Int) :
    HillClimbingState :=
  { iterationsSpentAtPeak := 0
    localMaxProbability := cfg.hillClimberInitialLocalMaxProbability
    backtrackLimit :=
      { value := cfg.initialBacktrackLimit
        multiplier := cfg.backtrackLimitMultiplier
        increment := cfg.backtrackLimitIncrement }
    highestNeighbourhoodSizes := List.replicate numberOfCombinations 1
    bestSolutionValue := initSolutionValue
    bestSolution := initSolution
    solution := nhStateSolution }

/-- How far the loop of `run` got on a list of events. -/
inductive RunResult where
  /-- An iteration had undefined behaviour. -/
  | undefined
  /-- The events are used up and the loop has not returned. -/
  | running (s : HillClimbingState)
  /-- The loop has returned; `rest` are the events not consumed. -/
  | returned (s : HillClimbingState) (rest : List HillClimbingEvent)

/-- The state a result carries, if any. -/
def RunResult.state? : RunResult → Option HillClimbingState
  | RunResult.undefined => none
  | RunResult.running s => some s
  | RunResult.returned s _ => some s

/-- The `while(true)` loop of `run`. -/
def loop (cfg : NhConfig) (numberOfCombinations : Nat) (RAND_MAX : Nat) :
    HillClimbingState → List HillClimbingEvent → RunResult
  | s, [] => RunResult.running s
  | s, ev :: rest =>
    match iteration cfg numberOfCombinations RAND_MAX s ev with
    | none => RunResult.undefined
    | some it =>
      if it.returned then RunResult.returned it.state rest
      else loop cfg numberOfCombinations RAND_MAX it.state rest

/-- Method `run`. -/
def run (cfg : NhConfig) (numberOfCombinations : Nat) (RAND_MAX : Nat)
    (nhStateSolution : List Int) (initSolutionValue : Int) (initSolution : List Int)
    (events : List HillClimbingEvent) : RunResult :=
  loop cfg numberOfCombinations RAND_MAX
    (initialState cfg numberOfCombinations nhStateSolution initSolutionValue initSolution)
    events

end HillClimbingSearch

/-! ### Meta-search -/

/-- Modelled from the spec: the deviation variable of a neighbourhood (a
variable handle declared with the variables), reduced to the one query the
meta-search makes. -/
structure DeviationVar where
  inDomain : Int → Bool

/-- Modelled from the spec: a neighbourhood (declared in
`neighbourhood-def.h`), reduced to its deviation variable. -/
structure Neighbourhood where
  deviation : DeviationVar

/-- Modelled from the spec: the `NeighbourhoodContainer` (declared in
`neighbourhood-def.h`): the neighbourhoods, the combinations (each a vector of
indices into `neighbourhoods`), and the results of its two methods
`isCombinationEnabled` and `getMaxNeighbourhoodSize`. -/
structure NeighbourhoodContainer where
  neighbourhoods : List Neighbourhood
  neighbourhoodCombinations : List (List Nat)
  isCombinationEnabled : Nat → Bool
  getMaxNeighbourhoodSize : Int

/-- The members of `MetaSearch`, the two public members of its
`searchStrategy`, and `nhState.solution`. -/
structure MetaSearchState where
  minNeighbourhoodSize : Int
  neighbourhoodSizeOffset : Int
  backtrackLimit : ExponentialIncrementer
  bestSolution : List Int
  bestSolutionValue : Int
  searchStrategyBestSolution : List Int
  searchStrategyBestSolutionValue : Int
  solution : List Int
  deriving DecidableEq

/-- What a completed call `searchStrategy.run(nhState, v, sol)` leaves behind:
the public members of the strategy and `nhState.solution`. -/
structure ClimbResult where
  bestSolutionValue : Int
  bestSolution : List Int
  solution : List Int
  deriving DecidableEq

/-- The arguments of one call of `searchStrategy.run`. -/
structure ClimbCall where
  initSolutionValue : Int
  initSolution : List Int
  deriving DecidableEq

/-- What the environment answers during one iteration of the `for` loop of
`MetaSearch::run`. -/
structure ExploreEvent where
  /-- Result of `nhState.searchNeighbourhoods(params)`. -/
  stats : NeighbourhoodStats
  /-- Content of `nhState.solution` when that search has returned. -/
  solution : List Int
  /-- Effect of `searchStrategy.run`, as a function of its two value
  arguments. -/
  climb : Int → List Int → ClimbResult

/-- What the environment answers to one call of
`findRandomSolutionUsingNormalSearch`. -/
structure RandomSearchEvent where
  stats : NeighbourhoodStats
  solution : List Int

/-- What the environment answers during one iteration of the outer loop of
`MetaSearch::run`. -/
structure RoundEvent where
  /-- Effect of `std::random_shuffle` on the vector it is given. -/
  random_shuffle : List Nat → List Nat
  /-- Answers to the iterations of the `for` loop, in order. -/
  explorations : List ExploreEvent
  /-- Answers to the searches of `randomClimbUntilBetter`, in order. -/
  randomSearches : List RandomSearchEvent

/-- How far a piece of code got: it had undefined behaviour, it is still
running when the events are used up, or it has finished. -/
inductive Outcome (σ : Type) where
  | undefined
  | running (s : σ)
  | finished (s : σ)

namespace MetaSearch

/-- Method `resetNeighbourhoodSize`. -/
def resetNeighbourhoodSize (s : MetaSearchState) : MetaSearchState :=
  { s with minNeighbourhoodSize := 1, neighbourhoodSizeOffset := 0 }

/-- Method `currentNeighbourhoodSize`. -/
def currentNeighbourhoodSize (s : MetaSearchState) : Int :=
  s.minNeighbourhoodSize + s.neighbourhoodSizeOffset

/-- The expression
`nhc.neighbourhoods[nhc.neighbourhoodCombinations[i][0]].deviation.inDomain(size)`. -/
def deviationInDomain (nhc : NeighbourhoodContainer) (i : Nat) (size : Int) : Option Bool :=
  match nhc.neighbourhoodCombinations[i]? with
  | none => none
  | some combination =>
    match combination[0]? with
    | none => none
    | some first =>
      match nhc.neighbourhoods[first]? with
      | none => none
      | some nh => some (nh.deviation.inDomain size)

/-- The `for` loop of `findNextNeighbourhoodSizeWithActiveCombinations` over
the indices still to visit; `activeCombinations` is the vector built so
far. -/
def scanCombinations (nhc : NeighbourhoodContainer) (size : Int) :
    List Nat → List Nat → Option (List Nat)
  | [], activeCombinations => some activeCombinations
  | i :: more, activeCombinations =>
    if nhc.isCombinationEnabled i then
      match deviationInDomain nhc i size with
      | none => none
      | some true => scanCombinations nhc size more (activeCombinations ++ [i])
      | some false => scanCombinations nhc size more activeCombinations
    else scanCombinations nhc size more activeCombinations

/-- The `while` loop of `findNextNeighbourhoodSizeWithActiveCombinations`;
the first argument bounds the number of iterations. -/
def findLoop (nhc : NeighbourhoodContainer) :
    Nat → MetaSearchState → Option (List Nat × MetaSearchState)
  | 0, s => some ([], s)
  | fuel + 1, s =>
    if currentNeighbourhoodSize s ≤ nhc.getMaxNeighbourhoodSize then
      match scanCombinations nhc (currentNeighbourhoodSize s)
          (List.range nhc.neighbourhoodCombinations.length) [] with
      | none => none
      | some activeCombinations =>
        if !activeCombinations.isEmpty then some (activeCombinations, s)
        else findLoop nhc fuel
          { s with neighbourhoodSizeOffset := s.neighbourhoodSizeOffset + 1 }
    else some ([], s)

/-- Method `findNextNeighbourhoodSizeWithActiveCombinations`.  The `while`
loop runs at most `maxNHSize + 1 - currentNeighbourhoodSize()` times, since
every iteration that does not leave the loop adds one to the offset. -/
def findNextNeighbourhoodSizeWithActiveCombinations (nhc : NeighbourhoodContainer)
    (random_shuffle : List Nat → List Nat) (s : MetaSearchState) :
    Option (List Nat × MetaSearchState) :=
  match findLoop nhc
      (nhc.getMaxNeighbourhoodSize + 1 - currentNeighbourhoodSize s).toNat s with
  | none => none
  | some (activeCombinations, s1) =>
    if !activeCombinations.isEmpty then some (random_shuffle activeCombinations, s1)
    else some (activeCombinations, s1)

/-- Method `runNeighbourhood`: the parameters handed to the inner search and
the state once the answer `stats`, `solution` has come back. -/
def runNeighbourhood (cfg : NhConfig) (s : MetaSearchState) (nhIndex : Nat)
    (stats : NeighbourhoodStats) (solution : List Int) :
    Option (SearchParams × MetaSearchState) :=
  match s.backtrackLimit.getValue with
  | none => none
  | some limit =>
    let params : SearchParams :=
      { combinationToActivate := nhIndex
        flag3 := true
        flag4 := false
        flag5 := true
        iterationSearchTime := cfg.iterationSearchTime
        backtrackLimit := limit
        backtrackInsteadOfTimeLimit := cfg.backtrackInsteadOfTimeLimit
        initialNeighbourhoodSize := currentNeighbourhoodSize s }
    let s1 : MetaSearchState := { s with solution := solution }
    if !stats.solutionFound then
      some (params, { s1 with backtrackLimit := s1.backtrackLimit.increase })
    else some (params, s1)

/-- Outcome of one iteration of the `for` loop of `run`. -/
structure Exploration where
  /-- Parameters passed to the exploratory search. -/
  params : SearchParams
  /-- The calls of `searchStrategy.run` made in the iteration, in order. -/
  climbCalls : List ClimbCall
  /-- State at the end of the iteration. -/
  state : MetaSearchState
  /-- The local `success` at the end of the iteration. -/
  success : Bool

/-- One iteration of the `for` loop of `run`. -/
def exploreStep (cfg : NhConfig) (s : MetaSearchState) (nhIndex : Nat)
    (ev : ExploreEvent) : Option Exploration :=
  match runNeighbourhood cfg s nhIndex ev.stats ev.solution with
  | none => none
  | some (params, s1) =>
    let call : ClimbCall :=
      { initSolutionValue := ev.stats.newMinValue, initSolution := s1.solution }
    let climbed := ev.climb call.initSolutionValue call.initSolution
    let s2 : MetaSearchState :=
      { s1 with
          searchStrategyBestSolutionValue := climbed.bestSolutionValue
          searchStrategyBestSolution := climbed.bestSolution
          solution := climbed.solution }
    if s2.searchStrategyBestSolutionValue > s2.bestSolutionValue then
      some { params := params
             climbCalls := [call]
             state := resetNeighbourhoodSize
               { s2 with
                   bestSolutionValue := s2.searchStrategyBestSolutionValue
                   bestSolution := s2.searchStrategyBestSolution }
             success := true }
    else
      some { params := params, climbCalls := [call], state := s2, success := false }

/-- The `for` loop of `run` over the combinations still to explore.  The
result carries the local `success`. -/
def exploreLoop (cfg : NhConfig) :
    MetaSearchState → List Nat → List ExploreEvent → Outcome (MetaSearchState × Bool)
  | s, [], _ => Outcome.finished (s, false)
  | s, _ :: _, [] => Outcome.running (s, false)
  | s, nhIndex :: more, ev :: evs =>
    match exploreStep cfg s nhIndex ev with
    | none => Outcome.undefined
    | some e =>
      if e.success then Outcome.finished (e.state, true)
      else exploreLoop cfg e.state more evs

/-- Method `randomClimbUntilBetter`; `none` when the answers are used up
before a better value has come back. -/
def randomClimbUntilBetter : MetaSearchState → List RandomSearchEvent → Option MetaSearchState
  | _, [] => none
  | s, ev :: rest =>
    let s1 : MetaSearchState := { s with solution := ev.solution }
    if ev.stats.newMinValue > s1.bestSolutionValue then
      some { s1 with bestSolutionValue := ev.stats.newMinValue, bestSolution := s1.solution }
    else randomClimbUntilBetter s1 rest

/-- The part of the outer loop body of `run` that follows a non-empty
`availableNHCombinations`: the `for` loop and `if(!success)`. -/
def exploreRound (cfg : NhConfig) (s : MetaSearchState) (availableNHCombinations : List Nat)
    (explorations : List ExploreEvent) : Outcome MetaSearchState :=
  match exploreLoop cfg s availableNHCombinations explorations with
  | Outcome.undefined => Outcome.undefined
  | Outcome.running (s1, _) => Outcome.running s1
  | Outcome.finished (s1, success) =>
    if !success then
      Outcome.finished { s1 with minNeighbourhoodSize := s1.minNeighbourhoodSize * 2 }
    else Outcome.finished s1

/-- One iteration of the outer `while(true)` loop of `run`. -/
def outerIteration (cfg : NhConfig) (nhc : NeighbourhoodContainer) (s : MetaSearchState)
    (ev : RoundEvent) : Outcome MetaSearchState :=
  match findNextNeighbourhoodSizeWithActiveCombinations nhc ev.random_shuffle s with
  | none => Outcome.undefined
  | some (availableNHCombinations, s1) =>
    if availableNHCombinations.isEmpty then
      match randomClimbUntilBetter s1 ev.randomSearches with
      | none => Outcome.running s1
      | some s2 => Outcome.finished (resetNeighbourhoodSize s2)
    else exploreRound cfg s1 availableNHCombinations ev.explorations

/-- The outer `while(true)` loop of `run`, one event per iteration.  The loop
has no exit: the result is the state reached when the events are used up. -/
def outerLoop (cfg : NhConfig) (nhc : NeighbourhoodContainer) :
    MetaSearchState → List RoundEvent → Option MetaSearchState
  | s, [] => some s
  | s, ev :: rest =>
    match outerIteration cfg nhc s ev with
    | Outcome.undefined => none
    | Outcome.running s1 => some s1
    | Outcome.finished s1 => outerLoop cfg nhc s1 rest

/-- The state of `run` when the outer loop is entered: the first climb has
returned `climbed`, its result is copied (the solution is moved out of the
strategy) and the size is reset. -/
def enterLoop (s : MetaSearchState) (climbed : ClimbResult) : MetaSearchState :=
  resetNeighbourhoodSize
    { s with
        bestSolution := climbed.bestSolution
        bestSolutionValue := climbed.bestSolutionValue
        searchStrategyBestSolution := []
        searchStrategyBestSolutionValue := climbed.bestSolutionValue
        solution := climbed.solution }

/-- Method `run`: `initialClimb` is the effect of the first
`searchStrategy.run`, `rounds` answer the iterations of the outer loop. -/
def run (cfg : NhConfig) (nhc : NeighbourhoodContainer) (s : MetaSearchState)
    (initSolutionValue : Int) (initSolution : List Int)
    (initialClimb : Int → List Int → ClimbResult) (rounds : List RoundEvent) :
    Option MetaSearchState :=
  outerLoop cfg nhc (enterLoop s (initialClimb initSolutionValue initSolution)) rounds

/-- The object built by the constructor of `MetaSearch`; the solution
vectors start empty and `bestSolutionValue` is whatever the member holds
before `run` writes it. -/
def construct (cfg : NhConfig) (bestSolutionValue : Int) (strategyValue : Int)
    (nhStateSolution : List Int) : MetaSearchState :=
  { minNeighbourhoodSize := 0
    neighbourhoodSizeOffset := 0
    backtrackLimit :=
      { value := cfg.holePuncherInitialBacktrackLimit
        multiplier := cfg.holePuncherBacktrackLimitMultiplier
        increment := Double.ofInt 0 }
    bestSolution := []
    bestSolutionValue := bestSolutionValue
    searchStrategyBestSolution := []
    searchStrategyBestSolutionValue := strategyValue
    solution := nhStateSolution }

end MetaSearch

/-! ### Notions used to state properties -/

/-- Every inner-search result of the list that found a solution reports a
value at least as large as the incumbent value at that moment, the incumbent
value being `v` at the start and the value of the last found solution
afterwards. -/
def respectsIncumbent : Int → List HillClimbingEvent → Prop
  | _, [] => True
  | v, ev :: rest =>
    if ev.stats.solutionFound then
      v ≤ ev.stats.newMinValue ∧ respectsIncumbent ev.stats.newMinValue rest
    else respectsIncumbent v rest

/-- The list `failures` is the run of iterations without a found solution
that ends `events`: it is a suffix of `events`, none of its searches found a
solution, and it starts right after the last found solution or at the start
of `events`. -/
def IsTrailingFailures (events failures : List HillClimbingEvent) : Prop :=
  ∃ before, events = before ++ failures ∧
    (∀ ev ∈ failures, ev.stats.solutionFound = false) ∧
    (∀ ev, before.getLast? = some ev → ev.stats.solutionFound = true)

/-- The indices of the combinations that are enabled and whose deviation
variable (the one of the first neighbourhood of the combination) has `size`
in its domain, in increasing order. -/
def activeCombinationsAt (nhc : NeighbourhoodContainer) (size : Int) : List Nat :=
  (List.range nhc.neighbourhoodCombinations.length).filter
    (fun i => nhc.isCombinationEnabled i && (MetaSearch.deviationInDomain nhc i size == some true))

/-- Every enabled combination has a first neighbourhood and that index is
within `neighbourhoods`: the combination has a deviation variable. -/
def NeighbourhoodContainer.WellFormed (nhc : NeighbourhoodContainer) : Prop :=
  ∀ i, i < nhc.neighbourhoodCombinations.length → nhc.isCombinationEnabled i = true →
    ∃ combination first nh, nhc.neighbourhoodCombinations[i]? = some combination ∧
      combination[0]? = some first ∧ nhc.neighbourhoods[first]? = some nh

/-- The product `a * b` and then the sum `(a * b) + c`, computed in `double`,
are not rounded: the operands are finite and the two results are the exact
product and the exact sum. -/
def Double.ExactMulAdd (a b c : Double) : Prop :=
  ∃ va vb vc, a.toRat? = some va ∧ b.toRat? = some vb ∧ c.toRat? = some vc ∧
    (a.mul b).toRat? = some (va * vb) ∧ ((a.mul b).add c).toRat? = some (va * vb + vc)

/-- None of the first `k` calls of `increase()` rounds. -/
def ExponentialIncrementer.ExactFor (e : ExponentialIncrementer) (k : Nat) : Prop :=
  ∀ i, i < k → Double.ExactMulAdd (e.increaseTimes i).value e.multiplier e.increment

/-! ### Sample data -/

/-- A configuration: backtrack limit 22 growing by a factor 3/2, local
maximum probability starting at 0 and growing by one per failed iteration
and combination, at least one iteration at a peak. -/
def sampleConfig : NhConfig :=
  { iterationSearchTime := 500
    initialBacktrackLimit := Double.ofInt 22
    backtrackLimitMultiplier := Double.ofRatio false 3 2
    backtrackLimitIncrement := Double.ofInt 0
    holePuncherInitialBacktrackLimit := Double.ofInt 22
    holePuncherBacktrackLimitMultiplier := Double.ofRatio false 3 2
    backtrackInsteadOfTimeLimit := true
    hillClimberInitialLocalMaxProbability := 0
    hillClimberProbabilityIncrementMultiplier := 1
    hillClimberMinIterationsToSpendAtPeak := 1
    increaseBacktrackOnlyOnFailure := false }

/-- An inner search on combination 0 that found no solution and reports the
highest neighbourhood size `size`; `std::rand()` would give `randValue`. -/
def failedSearch (size : Int) (randValue : Nat) : HillClimbingEvent :=
  { combinationToActivate := 0
    stats :=
      { newMinValue := 0
        timeTaken := 7
        solutionFound := false
        timeoutReached := true
        highestNeighbourhoodSize := size }
    solution := []
    randValue := randValue }

/-- An inner search on combination 0 that found the solution `[value]` of
objective value `value`. -/
def foundSearch (value : Int) : HillClimbingEvent :=
  { combinationToActivate := 0
    stats :=
      { newMinValue := value
        timeTaken := 7
        solutionFound := true
        timeoutReached := false
        highestNeighbourhoodSize := 1 }
    solution := [value]
    randValue := 0 }

/-- The sample configuration with no minimum number of iterations at a
peak. -/
def plateauConfig : NhConfig :=
  { sampleConfig with hillClimberMinIterationsToSpendAtPeak := 0 }

/-- A state of the hill-climber loop with one combination whose recorded
highest size is `size`, incumbent `[value]` of value `value`. -/
def sampleClimbState (size : Nat) (value : Int) : HillClimbingState :=
  { iterationsSpentAtPeak := 0
    localMaxProbability := 0
    backtrackLimit := { value := Double.ofInt 22
                        multiplier := Double.ofRatio false 3 2
                        increment := Double.ofInt 0 }
    highestNeighbourhoodSizes := [size]
    bestSolutionValue := value
    bestSolution := [value]
    solution := [] }

/-- A state of the meta-search inside its outer loop: sizes reset, backtrack
limit 22 growing by a factor 3/2, incumbent `[10]` of value 10. -/
def sampleMetaState : MetaSearchState :=
  { minNeighbourhoodSize := 1
    neighbourhoodSizeOffset := 0
    backtrackLimit := { value := Double.ofInt 22
                        multiplier := Double.ofRatio false 3 2
                        increment := Double.ofInt 0 }
    bestSolution := [10]
    bestSolutionValue := 10
    searchStrategyBestSolution := []
    searchStrategyBestSolutionValue := 10
    solution := [10] }

/-- A search strategy whose `run` returns at once: its best is the solution
it was started from. -/
def idleClimb (initSolutionValue : Int) (initSolution : List Int) : ClimbResult :=
  { bestSolutionValue := initSolutionValue
    bestSolution := initSolution
    solution := initSolution }

/-- A search strategy whose `run` improves the value it was started from by
`gain`. -/
def gainingClimb (gain : Int) (initSolutionValue : Int) (_initSolution : List Int) :
    ClimbResult :=
  { bestSolutionValue := initSolutionValue + gain
    bestSolution := [initSolutionValue + gain]
    solution := [] }

/-- An exploratory search that found no solution: it reports the value 4 and
leaves `[4]` in `nhState.solution`; the strategy then run is `idleClimb`. -/
def exploredNothing : ExploreEvent :=
  { stats :=
      { newMinValue := 4
        timeTaken := 7
        solutionFound := false
        timeoutReached := true
        highestNeighbourhoodSize := 1 }
    solution := [4]
    climb := idleClimb }

/-- An exploratory search that found the solution `[value]` of objective value
`value`; the strategy then run gains `gain`. -/
def exploredFound (value gain : Int) : ExploreEvent :=
  { stats :=
      { newMinValue := value
        timeTaken := 7
        solutionFound := true
        timeoutReached := false
        highestNeighbourhoodSize := 1 }
    solution := [value]
    climb := gainingClimb gain }

/-- A container with one neighbourhood, whose deviation variable has the
domain `{1, 2}`, and one enabled combination made of that neighbourhood. -/
def twoSizesContainer : NeighbourhoodContainer :=
  { neighbourhoods := [{ deviation := { inDomain := fun v => decide (v = 1 ∨ v = 2) } }]
    neighbourhoodCombinations := [[0]]
    isCombinationEnabled := fun _ => true
    getMaxNeighbourhoodSize := 2 }

/-- A container with three combinations over two neighbourhoods with
deviation domains `{3}` and `{3, 4}`; the second combination is disabled. -/
def holedContainer : NeighbourhoodContainer :=
  { neighbourhoods :=
      [{ deviation := { inDomain := fun v => decide (v = 3) } },
       { deviation := { inDomain := fun v => decide (v = 3 ∨ v = 4) } }]
    neighbourhoodCombinations := [[0], [1, 0], [1]]
    isCombinationEnabled := fun i => decide (i ≠ 1)
    getMaxNeighbourhoodSize := 4 }

/-- A random search that reports the value `value` and leaves `[value]` in
`nhState.solution`. -/
def randomFound (value : Int) : RandomSearchEvent :=
  { stats :=
      { newMinValue := value
        timeTaken := 7
        solutionFound := true
        timeoutReached := false
        highestNeighbourhoodSize := 0 }
    solution := [value] }

/-- One round of the outer loop of the meta-search in which the shuffle
keeps the order, a single exploratory search finds nothing and the strategy
run after it does not improve. -/
def failedRound : RoundEvent :=
  { random_shuffle := fun l => l
    explorations := [exploredNothing]
    randomSearches := [] }

/-! ### The exploratory searches of a run of the meta-search -/

/-- One exploratory search of the meta-search: the parameters
`MetaSearch::runNeighbourhood` passed to `nhState.searchNeighbourhoods` and the
statistics that call returned. -/
structure ExploratorySearch where
  params : SearchParams
  stats : NeighbourhoodStats
  deriving DecidableEq

namespace MetaSearch

/-- The exploratory searches made by the `for` loop of `run`, in order: one
for each iteration of `exploreLoop` that is made. -/
def exploreLoopSearches (cfg : NhConfig) :
    MetaSearchState → List Nat → List ExploreEvent → List ExploratorySearch
  | _, [], _ => []
  | _, _ :: _, [] => []
  | s, nhIndex :: more, ev :: evs =>
    match exploreStep cfg s nhIndex ev with
    | none => []
    | some e =>
      { params := e.params, stats := ev.stats } ::
        (if e.success then [] else exploreLoopSearches cfg e.state more evs)

/-- The exploratory searches made by one iteration of the outer loop of
`run`. -/
def outerIterationSearches (cfg : NhConfig) (nhc : NeighbourhoodContainer)
    (s : MetaSearchState) (ev : RoundEvent) : List ExploratorySearch :=
  match findNextNeighbourhoodSizeWithActiveCombinations nhc ev.random_shuffle s with
  | none => []
  | some (availableNHCombinations, s1) =>
    if availableNHCombinations.isEmpty then []
    else exploreLoopSearches cfg s1 availableNHCombinations ev.explorations

/-- The exploratory searches made by the outer loop of `run`, in order. -/
def outerLoopSearches (cfg : NhConfig) (nhc : NeighbourhoodContainer) :
    MetaSearchState → List RoundEvent → List ExploratorySearch
  | _, [] => []
  | s, ev :: rest =>
    outerIterationSearches cfg nhc s ev ++
      match outerIteration cfg nhc s ev with
      | Outcome.finished s1 => outerLoopSearches cfg nhc s1 rest
      | _ => []

/-- The exploratory searches made by `run`, in order. -/
def runSearches (cfg : NhConfig) (nhc : NeighbourhoodContainer) (s : MetaSearchState)
    (initSolutionValue : Int) (initSolution : List Int)
    (initialClimb : Int → List Int → ClimbResult) (rounds : List RoundEvent) :
    List ExploratorySearch :=
  outerLoopSearches cfg nhc (enterLoop s (initialClimb initSolutionValue initSolution)) rounds

end MetaSearch

/-- Number of searches of the list that found no solution. -/
def failedSearches (searches : List ExploratorySearch) : Nat :=
  (searches.filter (fun x => !x.stats.solutionFound)).length

/-- Every search of the list was passed, as its backtrack limit, the result of
`getValue()` on the incrementer `e` increased once for each search before it
in the list that found no solution. -/
def LimitsFollow (e : ExponentialIncrementer) (searches : List ExploratorySearch) : Prop :=
  ∀ pre x post, searches = pre ++ x :: post →
    (e.increaseTimes (failedSearches pre)).getValue = some x.params.backtrackLimit

/-- One round of the outer loop of the meta-search in which the shuffle
keeps the order and a single exploratory search finds a solution of value 7,
from which the strategy gains 1. -/
def foundRound : RoundEvent :=
  { random_shuffle := fun l => l
    explorations := [exploredFound 7 1]
    randomSearches := [] }

/-- The sample configuration with the hole-puncher backtrack limit 5 and the
multiplier `1.7`, the `double` nearest to 17/10. -/
def roundingConfig : NhConfig :=
  { sampleConfig with
      holePuncherInitialBacktrackLimit := Double.ofInt 5
      holePuncherBacktrackLimitMultiplier := Double.ofRatio false 17 10 }

/-- The sample configuration with the hole-puncher backtrack limit 2147483647,
the largest `int`. -/
def largeLimitConfig : NhConfig :=
  { sampleConfig with holePuncherInitialBacktrackLimit := Double.ofInt 2147483647 }

/-! ### Construction of the strategies -/

/-- Modelled from the spec: the values of
`SearchOptions::NeighbourhoodSearchStrategy` (declared with the options): the
six enumerators, and `other` for a value of the underlying integer type that
is none of them. -/
inductive NeighbourhoodSearchStrategy where
  | META_WITH_HILLCLIMBING
  | META_WITH_LAHC
  | META_WITH_SIMULATED_ANEALING
  | HILL_CLIMBING
  | LAHC
  | SIMULATED_ANEALING
  | other (value : Int)
  deriving DecidableEq

/-- The strategy classes of the header, `metaSearch inner` being
`MetaSearch<inner>`. -/
inductive StrategyClass where
  | hillClimbingSearch
  | lateAcceptanceHillClimbingSearch
  | simulatedAnnealingSearch
  | metaSearch (inner : StrategyClass)
  deriving DecidableEq

/-- A strategy object whose constructor has returned.  A derived class holds
its `HillClimbingSearch` base, a `MetaSearch` its inner strategy and its
members. -/
inductive StrategyObject where
  | hillClimbingSearch
  | lateAcceptanceHillClimbingSearch (base : StrategyObject)
  | simulatedAnnealingSearch (base : StrategyObject)
  | metaSearch (searchStrategy : StrategyObject) (minNeighbourhoodSize : Int)
      (neighbourhoodSizeOffset : Int) (backtrackLimit : ExponentialIncrementer)
  deriving DecidableEq

/-- What running a constructor gives: the process was aborted, after the given
output, or the object was built. -/
inductive Construction (α : Type) where
  | aborted (output : String)
  | constructed (object : α)
  deriving DecidableEq

/-- The constructor of `HillClimbingSearch`: it builds the selection strategy
from the container and returns. -/
def constructHillClimbingSearch : Construction StrategyObject :=
  Construction.constructed StrategyObject.hillClimbingSearch

/-- The constructors of the strategy classes.  The two derived classes first
build the `HillClimbingSearch` base, then run their body
`std::cout << "todo\n"; abort();`.  `MetaSearch` builds its inner strategy,
then its incrementer. -/
def constructStrategy (cfg : NhConfig) : StrategyClass → Construction StrategyObject
  | StrategyClass.hillClimbingSearch => constructHillClimbingSearch
  | StrategyClass.lateAcceptanceHillClimbingSearch =>
    match constructHillClimbingSearch with
    | Construction.aborted output => Construction.aborted output
    | Construction.constructed _ => Construction.aborted "todo\n"
  | StrategyClass.simulatedAnnealingSearch =>
    match constructHillClimbingSearch with
    | Construction.aborted output => Construction.aborted output
    | Construction.constructed _ => Construction.aborted "todo\n"
  | StrategyClass.metaSearch inner =>
    match constructStrategy cfg inner with
    | Construction.aborted output => Construction.aborted output
    | Construction.constructed searchStrategy =>
      Construction.constructed
        (StrategyObject.metaSearch searchStrategy 0 0
          { value := cfg.holePuncherInitialBacktrackLimit
            multiplier := cfg.holePuncherBacktrackLimitMultiplier
            increment := Double.ofInt 0 })

/-- Modelled from the spec: `NeighbourhoodSearchManager<SearchStrategy>`
(declared in `neighbourhood-search.h`), the controller that owns the search
strategy it drives; its constructor builds the strategy from the
container. -/
structure NeighbourhoodSearchManager where
  searchStrategy : StrategyObject
  deriving DecidableEq

/-- The expression `std::make_shared<NeighbourhoodSearchManager<S>>(prop,
base_order, nhc)`. -/
def makeManager (cfg : NhConfig) (strategy : StrategyClass) :
    Construction NeighbourhoodSearchManager :=
  match constructStrategy cfg strategy with
  | Construction.aborted output => Construction.aborted output
  | Construction.constructed searchStrategy =>
    Construction.constructed { searchStrategy := searchStrategy }

/-- Function `MakeNeighbourhoodSearchHelper`: the `switch` on
`getOptions().neighbourhoodSearchStrategy`; the `default` branch is
`assert(false); abort();`. -/
def MakeNeighbourhoodSearchHelper (cfg : NhConfig)
    (neighbourhoodSearchStrategy : NeighbourhoodSearchStrategy) :
    Construction NeighbourhoodSearchManager :=
  match neighbourhoodSearchStrategy with
  | NeighbourhoodSearchStrategy.META_WITH_HILLCLIMBING =>
    makeManager cfg (StrategyClass.metaSearch StrategyClass.hillClimbingSearch)
  | NeighbourhoodSearchStrategy.META_WITH_LAHC =>
    makeManager cfg (StrategyClass.metaSearch StrategyClass.lateAcceptanceHillClimbingSearch)
  | NeighbourhoodSearchStrategy.META_WITH_SIMULATED_ANEALING =>
    makeManager cfg (StrategyClass.metaSearch StrategyClass.simulatedAnnealingSearch)
  | NeighbourhoodSearchStrategy.HILL_CLIMBING =>
    makeManager cfg StrategyClass.hillClimbingSearch
  | NeighbourhoodSearchStrategy.LAHC =>
    makeManager cfg StrategyClass.lateAcceptanceHillClimbingSearch
  | NeighbourhoodSearchStrategy.SIMULATED_ANEALING =>
    makeManager cfg StrategyClass.simulatedAnnealingSearch
  | NeighbourhoodSearchStrategy.other _ => Construction.aborted ""

/-- Whether the class is one of the two unimplemented variants, or a
`MetaSearch` around one. -/
def StrategyClass.needsUnimplemented : StrategyClass → Bool
  | StrategyClass.hillClimbingSearch => false
  | StrategyClass.lateAcceptanceHillClimbingSearch => true
  | StrategyClass.simulatedAnnealingSearch => true
  | StrategyClass.metaSearch inner => inner.needsUnimplemented

/-! ### Search statistics (`neighbourhoodSearchStats.h`) -/

/-- Conversion of a signed value to `u_int64_t`. -/
def toUInt64 (x : Int) : Nat := (x % 2 ^ 64).toNat

/-- The successive readings of `std::chrono::high_resolution_clock::now()`
still to come, in ticks of one nanosecond: reading 0 is the next one. -/
abbrev Clock := Nat → Int

/-- The clock once its next reading has been taken. -/
def Clock.advance (clock : Clock) : Clock := fun k => clock (k + 1)

/-- The expression `std::chrono::duration_cast<std::chrono::milliseconds>(stop -
start).count()`: whole milliseconds, rounded towards zero. -/
def millisecondsBetween (start stop : Int) : Int := Int.tdiv (stop - start) 1000000

/-- Read access `v[i]` to a `std::vector` with an `int` index; `none` outside
the vector. -/
def vectorAt? {α : Type} (v : List α) (i : Int) : Option α :=
  if 0 ≤ i then v[i.toNat]? else none

/-- The update `v[i] = f(v[i])` of a `std::vector` with an `int` index; `none`
outside the vector. -/
def vectorUpdate {α : Type} (v : List α) (i : Int) (f : α → α) : Option (List α) :=
  match vectorAt? v i with
  | some x => some (v.set i.toNat (f x))
  | none => none

/-- Struct `ExplorationPhase`.  `endExplorationTime` is `none` as long as the
member has not been assigned. -/
structure ExplorationPhase where
  neighbourhoodSize : Int
  startExplorationTime : Nat
  endExplorationTime : Option Nat
  deriving DecidableEq

/-- Class `NeighbourhoodSearchStats`: its data members.  Time points are
clock readings. -/
structure NeighbourhoodSearchStats where
  numberIterations : Int
  numberActivations : List Int
  totalTime : List Nat
  numberPositiveSolutions : List Int
  numberNegativeSolutions : List Int
  numberNoSolutions : List Int
  numberTimeouts : List Int
  bestSolutions : List (Int × Nat)
  numberOfExplorationPhases : Int
  numberOfBetterSolutionsFoundFromExploration : Int
  totalNeighbourhoodSizeExplorations : List Int
  totalNeighbourhoodSizeSuccess : List Int
  neighbourhoodExplorationTimes : List Nat
  explorationPhases : List ExplorationPhase
  initialOptVarRange : Int × Int
  valueOfInitialSolution : Int
  lastOptVarValue : Int
  bestOptVarValue : Int
  startTime : Int
  startExplorationTime : Int
  currentlyExploring : Bool
  currentNeighbourhoodSize : Int
  totalTimeToBestSolution : Nat
  deriving DecidableEq

namespace NeighbourhoodSearchStats

/-- The three-argument constructor.  The two members it leaves uninitialised
hold the given indeterminate values; the time points are value-initialised
and `currentlyExploring` has its default member initialiser. -/
def construct (numberNeighbourhoods : Nat) (initialOptVarRange : Int × Int)
    (maxNeighbourhoodSize : Nat) (indeterminateSize : Int) (indeterminateTime : Nat) :
    NeighbourhoodSearchStats :=
  { numberIterations := 0
    numberActivations := List.replicate numberNeighbourhoods 0
    totalTime := List.replicate numberNeighbourhoods 0
    numberPositiveSolutions := List.replicate numberNeighbourhoods 0
    numberNegativeSolutions := List.replicate numberNeighbourhoods 0
    numberNoSolutions := List.replicate numberNeighbourhoods 0
    numberTimeouts := List.replicate numberNeighbourhoods 0
    bestSolutions := []
    numberOfExplorationPhases := 0
    numberOfBetterSolutionsFoundFromExploration := 0
    totalNeighbourhoodSizeExplorations := List.replicate maxNeighbourhoodSize 0
    totalNeighbourhoodSizeSuccess := List.replicate maxNeighbourhoodSize 0
    neighbourhoodExplorationTimes := List.replicate maxNeighbourhoodSize 0
    explorationPhases := []
    initialOptVarRange := initialOptVarRange
    valueOfInitialSolution := initialOptVarRange.1
    lastOptVarValue := initialOptVarRange.1
    bestOptVarValue := initialOptVarRange.1
    startTime := 0
    startExplorationTime := 0
    currentlyExploring := false
    currentNeighbourhoodSize := indeterminateSize
    totalTimeToBestSolution := indeterminateTime }

/-- Method `getTotalTimeTaken`: it takes one reading of the clock. -/
def getTotalTimeTaken (s : NeighbourhoodSearchStats) (clock : Clock) : Nat × Clock :=
  (toUInt64 (millisecondsBetween s.startTime (clock 0)), clock.advance)

/-- The first three statements of the loop body of `reportnewStats`. -/
def countActivation (s : NeighbourhoodSearchStats) (nhIndex : Int)
    (stats : NeighbourhoodStats) : Option NeighbourhoodSearchStats :=
  match vectorUpdate s.numberActivations nhIndex (fun x => x + 1),
      vectorUpdate s.totalTime nhIndex (fun x => toUInt64 ((x : Int) + stats.timeTaken)),
      vectorUpdate s.numberTimeouts nhIndex
        (fun x => x + (if stats.timeoutReached then 1 else 0)) with
  | some numberActivations, some totalTime, some numberTimeouts =>
    some { s with
            numberActivations := numberActivations
            totalTime := totalTime
            numberTimeouts := numberTimeouts }
  | _, _, _ => none

/-- The statement `if(stats.solutionFound) ... else ...` of the loop body of
`reportnewStats`. -/
def classifyOutcome (s : NeighbourhoodSearchStats) (nhIndex : Int)
    (stats : NeighbourhoodStats) : Option NeighbourhoodSearchStats :=
  if stats.solutionFound then
    if stats.newMinValue > s.lastOptVarValue then
      match vectorUpdate s.numberPositiveSolutions nhIndex (fun x => x + 1) with
      | some numberPositiveSolutions =>
        some { s with
                numberPositiveSolutions := numberPositiveSolutions
                lastOptVarValue := stats.newMinValue }
      | none => none
    else
      match vectorUpdate s.numberNegativeSolutions nhIndex (fun x => x + 1) with
      | some numberNegativeSolutions =>
        some { s with
                numberNegativeSolutions := numberNegativeSolutions
                lastOptVarValue := stats.newMinValue }
      | none => none
  else
    match vectorUpdate s.numberNoSolutions nhIndex (fun x => x + 1) with
    | some numberNoSolutions => some { s with numberNoSolutions := numberNoSolutions }
    | none => none

/-- The statement `if(lastOptVarValue > bestOptVarValue) ...` that ends the
loop body of `reportnewStats`. -/
def recordBest (s : NeighbourhoodSearchStats) (clock : Clock) :
    NeighbourhoodSearchStats × Clock :=
  if s.lastOptVarValue > s.bestOptVarValue then
    let logged := getTotalTimeTaken s clock
    let total := getTotalTimeTaken s logged.2
    ({ s with
        bestSolutions := s.bestSolutions ++ [(s.lastOptVarValue, logged.1)]
        bestOptVarValue := s.lastOptVarValue
        totalTimeToBestSolution := total.1 },
     total.2)
  else (s, clock)

/-- The body of the loop of `reportnewStats` for one activated
neighbourhood. -/
def reportOne (s : NeighbourhoodSearchStats) (clock : Clock) (nhIndex : Int)
    (stats : NeighbourhoodStats) : Option (NeighbourhoodSearchStats × Clock) :=
  match countActivation s nhIndex stats with
  | none => none
  | some s1 =>
    match classifyOutcome s1 nhIndex stats with
    | none => none
    | some s2 => some (recordBest s2 clock)

/-- The loop of `reportnewStats` over the activated neighbourhoods still to
visit. -/
def reportLoop (stats : NeighbourhoodStats) :
    NeighbourhoodSearchStats → Clock → List Int → Option (NeighbourhoodSearchStats × Clock)
  | s, clock, [] => some (s, clock)
  | s, clock, nhIndex :: more =>
    match reportOne s clock nhIndex stats with
    | none => none
    | some (s1, clock1) => reportLoop stats s1 clock1 more

/-- Method `reportnewStats`. -/
def reportnewStats (s : NeighbourhoodSearchStats) (clock : Clock)
    (activatedNeighbourhoods : List Int) (stats : NeighbourhoodStats) :
    Option (NeighbourhoodSearchStats × Clock) :=
  reportLoop stats { s with numberIterations := s.numberIterations + 1 } clock
    activatedNeighbourhoods

/-- The end of an exploration, common to `foundSolution` and
`startExploration`: the time since the start of the exploration is added to
the slot of the current size. -/
def addExplorationTime (s : NeighbourhoodSearchStats) (endTime : Int) :
    Option (List Nat) :=
  vectorUpdate s.neighbourhoodExplorationTimes (s.currentNeighbourhoodSize - 1)
    (fun x => toUInt64 ((x : Int) + millisecondsBetween s.startExplorationTime endTime))

/-- The statement `explorationPhases.back().endExplorationTime = t`; `none`
on an empty vector. -/
def setLastEnd (phases : List ExplorationPhase) (t : Nat) : Option (List ExplorationPhase) :=
  match phases.getLast? with
  | none => none
  | some phase => some (phases.dropLast ++ [{ phase with endExplorationTime := some t }])

/-- Method `foundSolution`. -/
def foundSolution (s : NeighbourhoodSearchStats) (clock : Clock) (solutionValue : Int) :
    Option (NeighbourhoodSearchStats × Clock) :=
  if s.currentlyExploring && decide (solutionValue > s.bestOptVarValue) then
    match addExplorationTime s (clock 0),
        vectorUpdate s.totalNeighbourhoodSizeSuccess (s.currentNeighbourhoodSize - 1)
          (fun x => x + 1) with
    | some neighbourhoodExplorationTimes, some totalNeighbourhoodSizeSuccess =>
      let total := getTotalTimeTaken s clock.advance
      match setLastEnd s.explorationPhases total.1 with
      | none => none
      | some explorationPhases =>
        some ({ s with
                 neighbourhoodExplorationTimes := neighbourhoodExplorationTimes
                 currentlyExploring := false
                 totalNeighbourhoodSizeSuccess := totalNeighbourhoodSizeSuccess
                 explorationPhases := explorationPhases },
              total.2)
    | _, _ => none
  else some (s, clock)

/-- The first statement of `startExploration`: the `if (currentlyExploring)`
that closes the exploration still open. -/
def closeExploration (s : NeighbourhoodSearchStats) (clock : Clock) :
    Option (NeighbourhoodSearchStats × Clock) :=
  if s.currentlyExploring then
    match addExplorationTime s (clock 0) with
    | none => none
    | some neighbourhoodExplorationTimes =>
      let total := getTotalTimeTaken s clock.advance
      match setLastEnd s.explorationPhases total.1 with
      | none => none
      | some explorationPhases =>
        some ({ s with
                 neighbourhoodExplorationTimes := neighbourhoodExplorationTimes
                 explorationPhases := explorationPhases },
              total.2)
  else some (s, clock)

/-- Method `startExploration`. -/
def startExploration (s : NeighbourhoodSearchStats) (clock : Clock) (neighbourhoodSize : Int) :
    Option (NeighbourhoodSearchStats × Clock) :=
  match closeExploration s clock with
  | none => none
  | some (s1, clock1) =>
    match vectorUpdate s1.totalNeighbourhoodSizeExplorations (neighbourhoodSize - 1)
        (fun x => x + 1) with
    | none => none
    | some totalNeighbourhoodSizeExplorations =>
      let s2 : NeighbourhoodSearchStats :=
        { s1 with
            currentlyExploring := true
            startExplorationTime := clock1 0
            totalNeighbourhoodSizeExplorations := totalNeighbourhoodSizeExplorations
            currentNeighbourhoodSize := neighbourhoodSize }
      let started := getTotalTimeTaken s2 clock1.advance
      some ({ s2 with
               explorationPhases :=
                 s2.explorationPhases ++
                   [{ neighbourhoodSize := neighbourhoodSize
                      startExplorationTime := started.1
                      endExplorationTime := none }] },
            started.2)

end NeighbourhoodSearchStats

/-- A call of `reportnewStats`: its two arguments. -/
structure ReportCall where
  activatedNeighbourhoods : List Int
  stats : NeighbourhoodStats

/-- The statistics after a sequence of calls of `reportnewStats`. -/
def reportAll : NeighbourhoodSearchStats → Clock → List ReportCall →
    Option (NeighbourhoodSearchStats × Clock)
  | s, clock, [] => some (s, clock)
  | s, clock, call :: more =>
    match s.reportnewStats clock call.activatedNeighbourhoods call.stats with
    | none => none
    | some (s1, clock1) => reportAll s1 clock1 more

/-- A call of one of the two exploration methods. -/
inductive ExplorationCall where
  | startExploration (neighbourhoodSize : Int)
  | foundSolution (solutionValue : Int)

/-- The statistics after a sequence of calls of `startExploration` and
`foundSolution`. -/
def exploreAll : NeighbourhoodSearchStats → Clock → List ExplorationCall →
    Option (NeighbourhoodSearchStats × Clock)
  | s, clock, [] => some (s, clock)
  | s, clock, ExplorationCall.startExploration n :: more =>
    match s.startExploration clock n with
    | none => none
    | some (s1, clock1) => exploreAll s1 clock1 more
  | s, clock, ExplorationCall.foundSolution v :: more =>
    match s.foundSolution clock v with
    | none => none
    | some (s1, clock1) => exploreAll s1 clock1 more

/-- A clock that reads `k` milliseconds at its `k`-th reading. -/
def sampleClock : Clock := fun k => 1000000 * (k : Int)

/-- A search result for the statistics: found or not, with the given value,
5 ms long, no timeout. -/
def sampleStats (found : Bool) (value : Int) : NeighbourhoodStats :=
  { newMinValue := value
    timeTaken := 5
    solutionFound := found
    timeoutReached := false
    highestNeighbourhoodSize := 1 }

/-- The counters of the first `k` neighbourhoods are consistent: the six
vectors have `k` entries, and for every index the activations are the sum of
the three outcome counters and bound the timeouts. -/
def CountersConsistent (k : Nat) (s : NeighbourhoodSearchStats) : Prop :=
  s.numberActivations.length = k ∧ s.totalTime.length = k ∧
  s.numberPositiveSolutions.length = k ∧ s.numberNegativeSolutions.length = k ∧
  s.numberNoSolutions.length = k ∧ s.numberTimeouts.length = k ∧
  ∀ i, i < k →
    s.numberActivations.getD i 0 =
      s.numberPositiveSolutions.getD i 0 + s.numberNegativeSolutions.getD i 0 +
        s.numberNoSolutions.getD i 0 ∧
    s.numberTimeouts.getD i 0 ≤ s.numberActivations.getD i 0

/-- The log of best solutions is in order above `first`: its values increase
strictly, lie above `first` and below `bestOptVarValue`, which is the last of
them, or `first` when there is none. -/
def BestLogOrdered (first : Int) (s : NeighbourhoodSearchStats) : Prop :=
  (s.bestSolutions.map Prod.fst).Pairwise (fun a b => a < b) ∧
  (∀ v ∈ s.bestSolutions.map Prod.fst, first < v ∧ v ≤ s.bestOptVarValue) ∧
  s.bestOptVarValue = ((s.bestSolutions.map Prod.fst).getLast?).getD first ∧
  first ≤ s.bestOptVarValue

/-- The vectors indexed by the size have `maxSize` entries and, while an
exploration is open, the current size is between 1 and `maxSize` and a phase
has been recorded. -/
def ExplorationSafe (maxSize : Nat) (s : NeighbourhoodSearchStats) : Prop :=
  s.totalNeighbourhoodSizeExplorations.length = maxSize ∧
  s.totalNeighbourhoodSizeSuccess.length = maxSize ∧
  s.neighbourhoodExplorationTimes.length = maxSize ∧
  (s.currentlyExploring = true →
    1 ≤ s.currentNeighbourhoodSize ∧ s.currentNeighbourhoodSize ≤ (maxSize : Int) ∧
      s.explorationPhases ≠ [])


/-- Statistics with an exploration of size 2 open since the clock reading 0,
its phase recorded with start time 0. -/
def exploringStats : NeighbourhoodSearchStats :=
  { NeighbourhoodSearchStats.construct 2 (0, 100) 3 0 0 with
      currentlyExploring := true
      currentNeighbourhoodSize := 2
      totalNeighbourhoodSizeExplorations := [0, 1, 0]
      explorationPhases :=
        [{ neighbourhoodSize := 2, startExplorationTime := 0, endExplorationTime := none }] }

/-- A clock that reads `k + 5` milliseconds at its `k`-th reading. -/
def laterClock : Clock := fun k => 1000000 * ((k : Int) + 5)

/-! ### The wrapper `AnyVarRef` (`variables/AnyVarRef.h`) -/

/-- Modelled from the spec: what a variable handle type `VarRef` offers, the
handle types themselves being declared with the variables.  `σ` is the state
of the solver, `D` the handles, `Var` the base variable identifiers, compared
by identity, with their order and hash.  Queries on the domain read the
state, mutators change it. -/
structure VarRefOps (σ Var Mapper DomainDelta D : Type) where
  isBound : D → Bool
  popOneMapper : D → D
  isAssigned : D → σ → Bool
  assignedValue : D → σ → Int
  isAssignedValue : D → Int → σ → Bool
  inDomain : D → Int → σ → Bool
  inDomain_noBoundCheck : D → Int → σ → Bool
  domSize : D → σ → Int
  max : D → σ → Int
  min : D → σ → Int
  initialMax : D → σ → Int
  initialMin : D → σ → Int
  setMax : D → Int → σ → σ
  setMin : D → Int → σ → σ
  uncheckedAssign : D → Int → σ → σ
  assign : D → Int → σ → σ
  removeFromDomain : D → Int → σ → σ
  getBaseVal : D → Int → Int
  getBaseVar : D → Var
  getMapperStack : D → List Mapper
  getDomainChange : D → DomainDelta → σ → Int
  /-- The operator `<` of `Var`. -/
  varLess : Var → Var → Bool
  /-- The function `getHash` on `Var`. -/
  getHash : Var → Nat

/-- Struct `AnyVarRef_Concrete<VarRef>`: the wrapped handle. -/
structure AnyVarRef_Concrete (D : Type) where
  data : D

/-- Class `AnyVarRef`: the shared pointer `data`, `none` when it is null (as
after the default constructor).  The pointee is an `AnyVarRef_Concrete`, the
only implementation of `AnyVarRef_Abstract`. -/
structure AnyVarRef (D : Type) where
  data : Option (AnyVarRef_Concrete D)

/-- The constructor `AnyVarRef(const VarRef& _data)`. -/
def AnyVarRef.ofVarRef {D : Type} (d : D) : AnyVarRef D :=
  { data := some { data := d } }

namespace AnyVarRef_Concrete

variable {σ Var Mapper DomainDelta D : Type}

/-- Member `isBound`. -/
def isBound (ops : VarRefOps σ Var Mapper DomainDelta D) (c : AnyVarRef_Concrete D) : Bool :=
  ops.isBound c.data

/-- Member `popOneMapper`: the result of the wrapped handle, converted to
`AnyVarRef`. -/
def popOneMapper (ops : VarRefOps σ Var Mapper DomainDelta D) (c : AnyVarRef_Concrete D) :
    AnyVarRef D :=
  AnyVarRef.ofVarRef (ops.popOneMapper c.data)

/-- Member `isAssigned`. -/
def isAssigned (ops : VarRefOps σ Var Mapper DomainDelta D) (c : AnyVarRef_Concrete D)
    (st : σ) : Bool :=
  ops.isAssigned c.data st

/-- Member `assignedValue`. -/
def assignedValue (ops : VarRefOps σ Var Mapper DomainDelta D) (c : AnyVarRef_Concrete D)
    (st : σ) : Int :=
  ops.assignedValue c.data st

/-- Member `isAssignedValue`. -/
def isAssignedValue (ops : VarRefOps σ Var Mapper DomainDelta D) (c : AnyVarRef_Concrete D)
    (i : Int) (st : σ) : Bool :=
  ops.isAssignedValue c.data i st

/-- Member `inDomain`. -/
def inDomain (ops : VarRefOps σ Var Mapper DomainDelta D) (c : AnyVarRef_Concrete D)
    (b : Int) (st : σ) : Bool :=
  ops.inDomain c.data b st

/-- Member `inDomain_noBoundCheck`. -/
def inDomain_noBoundCheck (ops : VarRefOps σ Var Mapper DomainDelta D)
    (c : AnyVarRef_Concrete D) (b : Int) (st : σ) : Bool :=
  ops.inDomain_noBoundCheck c.data b st

/-- Member `domSize`. -/
def domSize (ops : VarRefOps σ Var Mapper DomainDelta D) (c : AnyVarRef_Concrete D)
    (st : σ) : Int :=
  ops.domSize c.data st

/-- Member `max`. -/
def max (ops : VarRefOps σ Var Mapper DomainDelta D) (c : AnyVarRef_Concrete D)
    (st : σ) : Int :=
  ops.max c.data st

/-- Member `min`. -/
def min (ops : VarRefOps σ Var Mapper DomainDelta D) (c : AnyVarRef_Concrete D)
    (st : σ) : Int :=
  ops.min c.data st

/-- Member `initialMax`. -/
def initialMax (ops : VarRefOps σ Var Mapper DomainDelta D) (c : AnyVarRef_Concrete D)
    (st : σ) : Int :=
  ops.initialMax c.data st

/-- Member `initialMin`. -/
def initialMin (ops : VarRefOps σ Var Mapper DomainDelta D) (c : AnyVarRef_Concrete D)
    (st : σ) : Int :=
  ops.initialMin c.data st

/-- Member `setMax`. -/
def setMax (ops : VarRefOps σ Var Mapper DomainDelta D) (c : AnyVarRef_Concrete D)
    (i : Int) (st : σ) : σ :=
  ops.setMax c.data i st

/-- Member `setMin`. -/
def setMin (ops : VarRefOps σ Var Mapper DomainDelta D) (c : AnyVarRef_Concrete D)
    (i : Int) (st : σ) : σ :=
  ops.setMin c.data i st

/-- Member `uncheckedAssign`. -/
def uncheckedAssign (ops : VarRefOps σ Var Mapper DomainDelta D) (c : AnyVarRef_Concrete D)
    (b : Int) (st : σ) : σ :=
  ops.uncheckedAssign c.data b st

/-- Member `assign`. -/
def assign (ops : VarRefOps σ Var Mapper DomainDelta D) (c : AnyVarRef_Concrete D)
    (b : Int) (st : σ) : σ :=
  ops.assign c.data b st

/-- Member `removeFromDomain`. -/
def removeFromDomain (ops : VarRefOps σ Var Mapper DomainDelta D) (c : AnyVarRef_Concrete D)
    (b : Int) (st : σ) : σ :=
  ops.removeFromDomain c.data b st

/-- Member `getBaseVal`. -/
def getBaseVal (ops : VarRefOps σ Var Mapper DomainDelta D) (c : AnyVarRef_Concrete D)
    (v : Int) : Int :=
  ops.getBaseVal c.data v

/-- Member `getMapperStack`. -/
def getMapperStack (ops : VarRefOps σ Var Mapper DomainDelta D) (c : AnyVarRef_Concrete D) :
    List Mapper :=
  ops.getMapperStack c.data

/-- Member `getBaseVar`. -/
def getBaseVar (ops : VarRefOps σ Var Mapper DomainDelta D) (c : AnyVarRef_Concrete D) : Var :=
  ops.getBaseVar c.data

/-- Member `getDomainChange`. -/
def getDomainChange (ops : VarRefOps σ Var Mapper DomainDelta D) (c : AnyVarRef_Concrete D)
    (d : DomainDelta) (st : σ) : Int :=
  ops.getDomainChange c.data d st

end AnyVarRef_Concrete

namespace AnyVarRef

variable {σ Var Mapper DomainDelta D : Type}

/-- Member `isBound`: `data->isBound()`; as for every member, `none` when
`data` is null. -/
def isBound (ops : VarRefOps σ Var Mapper DomainDelta D) (a : AnyVarRef D) : Option Bool :=
  a.data.map (fun c => c.isBound ops)

/-- Member `popOneMapper`. -/
def popOneMapper (ops : VarRefOps σ Var Mapper DomainDelta D) (a : AnyVarRef D) :
    Option (AnyVarRef D) :=
  a.data.map (fun c => c.popOneMapper ops)

/-- Member `isAssigned`. -/
def isAssigned (ops : VarRefOps σ Var Mapper DomainDelta D) (a : AnyVarRef D) (st : σ) :
    Option Bool :=
  a.data.map (fun c => c.isAssigned ops st)

/-- Member `assignedValue`. -/
def assignedValue (ops : VarRefOps σ Var Mapper DomainDelta D) (a : AnyVarRef D) (st : σ) :
    Option Int :=
  a.data.map (fun c => c.assignedValue ops st)

/-- Member `isAssignedValue`:
`data->isAssigned() && data->assignedValue() == i`. -/
def isAssignedValue (ops : VarRefOps σ Var Mapper DomainDelta D) (a : AnyVarRef D) (i : Int)
    (st : σ) : Option Bool :=
  a.data.map (fun c => c.isAssigned ops st && decide (c.assignedValue ops st = i))

/-- Member `inDomain`. -/
def inDomain (ops : VarRefOps σ Var Mapper DomainDelta D) (a : AnyVarRef D) (b : Int)
    (st : σ) : Option Bool :=
  a.data.map (fun c => c.inDomain ops b st)

/-- Member `inDomain_noBoundCheck`. -/
def inDomain_noBoundCheck (ops : VarRefOps σ Var Mapper DomainDelta D) (a : AnyVarRef D)
    (b : Int) (st : σ) : Option Bool :=
  a.data.map (fun c => c.inDomain_noBoundCheck ops b st)

/-- Member `domSize`. -/
def domSize (ops : VarRefOps σ Var Mapper DomainDelta D) (a : AnyVarRef D) (st : σ) :
    Option Int :=
  a.data.map (fun c => c.domSize ops st)

/-- Member `max`. -/
def max (ops : VarRefOps σ Var Mapper DomainDelta D) (a : AnyVarRef D) (st : σ) :
    Option Int :=
  a.data.map (fun c => c.max ops st)

/-- Member `min`. -/
def min (ops : VarRefOps σ Var Mapper DomainDelta D) (a : AnyVarRef D) (st : σ) :
    Option Int :=
  a.data.map (fun c => c.min ops st)

/-- Member `initialMax`. -/
def initialMax (ops : VarRefOps σ Var Mapper DomainDelta D) (a : AnyVarRef D) (st : σ) :
    Option Int :=
  a.data.map (fun c => c.initialMax ops st)

/-- Member `initialMin`. -/
def initialMin (ops : VarRefOps σ Var Mapper DomainDelta D) (a : AnyVarRef D) (st : σ) :
    Option Int :=
  a.data.map (fun c => c.initialMin ops st)

/-- Member `setMax`. -/
def setMax (ops : VarRefOps σ Var Mapper DomainDelta D) (a : AnyVarRef D) (i : Int)
    (st : σ) : Option σ :=
  a.data.map (fun c => c.setMax ops i st)

/-- Member `setMin`. -/
def setMin (ops : VarRefOps σ Var Mapper DomainDelta D) (a : AnyVarRef D) (i : Int)
    (st : σ) : Option σ :=
  a.data.map (fun c => c.setMin ops i st)

/-- Member `uncheckedAssign`. -/
def uncheckedAssign (ops : VarRefOps σ Var Mapper DomainDelta D) (a : AnyVarRef D) (b : Int)
    (st : σ) : Option σ :=
  a.data.map (fun c => c.uncheckedAssign ops b st)

/-- Member `assign`. -/
def assign (ops : VarRefOps σ Var Mapper DomainDelta D) (a : AnyVarRef D) (b : Int)
    (st : σ) : Option σ :=
  a.data.map (fun c => c.assign ops b st)

/-- Member `removeFromDomain`. -/
def removeFromDomain (ops : VarRefOps σ Var Mapper DomainDelta D) (a : AnyVarRef D) (b : Int)
    (st : σ) : Option σ :=
  a.data.map (fun c => c.removeFromDomain ops b st)

/-- Member `getBaseVal`. -/
def getBaseVal (ops : VarRefOps σ Var Mapper DomainDelta D) (a : AnyVarRef D) (v : Int) :
    Option Int :=
  a.data.map (fun c => c.getBaseVal ops v)

/-- Member `getBaseVar`. -/
def getBaseVar (ops : VarRefOps σ Var Mapper DomainDelta D) (a : AnyVarRef D) : Option Var :=
  a.data.map (fun c => c.getBaseVar ops)

/-- Member `getMapperStack`. -/
def getMapperStack (ops : VarRefOps σ Var Mapper DomainDelta D) (a : AnyVarRef D) :
    Option (List Mapper) :=
  a.data.map (fun c => c.getMapperStack ops)

/-- Member `getDomainChange`. -/
def getDomainChange (ops : VarRefOps σ Var Mapper DomainDelta D) (a : AnyVarRef D)
    (d : DomainDelta) (st : σ) : Option Int :=
  a.data.map (fun c => c.getDomainChange ops d st)

/-- The friend `operator==`: `lhs.getBaseVar() == rhs.getBaseVar()`. -/
def eq [DecidableEq Var] (ops : VarRefOps σ Var Mapper DomainDelta D) (lhs rhs : AnyVarRef D) :
    Option Bool :=
  match lhs.getBaseVar ops, rhs.getBaseVar ops with
  | some l, some r => some (decide (l = r))
  | _, _ => none

/-- The friend `operator!=`: `lhs.getBaseVar() != rhs.getBaseVar()`. -/
def ne [DecidableEq Var] (ops : VarRefOps σ Var Mapper DomainDelta D) (lhs rhs : AnyVarRef D) :
    Option Bool :=
  match lhs.getBaseVar ops, rhs.getBaseVar ops with
  | some l, some r => some (decide (l ≠ r))
  | _, _ => none

/-- The friend `operator<`: `lhs.getBaseVar() < rhs.getBaseVar()`. -/
def less (ops : VarRefOps σ Var Mapper DomainDelta D) (lhs rhs : AnyVarRef D) : Option Bool :=
  match lhs.getBaseVar ops, rhs.getBaseVar ops with
  | some l, some r => some (ops.varLess l r)
  | _, _ => none

/-- The specialisation `std::hash<AnyVarRef>`:
`getHash(avr.getBaseVar())`. -/
def hash (ops : VarRefOps σ Var Mapper DomainDelta D) (avr : AnyVarRef D) : Option Nat :=
  (avr.getBaseVar ops).map ops.getHash

end AnyVarRef

/-- Handles for a sample solver: a handle is the index of a variable, the
state gives every variable its bounds `(min, max)`, the initial bounds are
0 and 9, handle `d` stands for base variable `d / 2` and there are no
mappers. -/
def boundsOps : VarRefOps (Nat → Int × Int) Nat Unit Int Nat :=
  { isBound := fun _ => true
    popOneMapper := fun d => d
    isAssigned := fun d st => decide ((st d).1 = (st d).2)
    assignedValue := fun d st => (st d).1
    isAssignedValue := fun d i st => decide ((st d).1 = (st d).2) && decide ((st d).1 = i)
    inDomain := fun d b st => decide ((st d).1 ≤ b ∧ b ≤ (st d).2)
    inDomain_noBoundCheck := fun d b st => decide ((st d).1 ≤ b ∧ b ≤ (st d).2)
    domSize := fun d st => (st d).2 - (st d).1 + 1
    max := fun d st => (st d).2
    min := fun d st => (st d).1
    initialMax := fun _ _ => 9
    initialMin := fun _ _ => 0
    setMax := fun d i st => fun e => if e = d then ((st e).1, Min.min (st e).2 i) else st e
    setMin := fun d i st => fun e => if e = d then (Max.max (st e).1 i, (st e).2) else st e
    uncheckedAssign := fun d b st => fun e => if e = d then (b, b) else st e
    assign := fun d b st => fun e => if e = d then (b, b) else st e
    removeFromDomain := fun _ _ st => st
    getBaseVal := fun _ v => v
    getBaseVar := fun d => d / 2
    getMapperStack := fun _ => []
    getDomainChange := fun _ delta _ => delta
    varLess := fun a b => decide (a < b)
    getHash := fun v => v }

/-! ## Theorems -/

/-! ### Rounding and the incrementer -/

theorem cppRound_intCast (z : Int) : cppRound (z : ℚ) = z := by
  unfold cppRound
  split
  · rw [Int.floor_eq_iff]
    constructor <;> linarith
  · rw [Int.ceil_eq_iff]
    constructor <;> linarith

theorem cppRound_of_nonneg (v : ℚ) (r : Int) (h0 : 0 ≤ v) (h1 : (r : ℚ) ≤ v + 1 / 2)
    (h2 : v + 1 / 2 < r + 1) : cppRound v = r := by
  unfold cppRound
  rw [if_pos h0, Int.floor_eq_iff]
  exact ⟨h1, h2⟩

theorem Double.toRat?_eq (d : Double) (z q : Int) (hf : d.exponent.val ≠ 2047)
    (hz : d.signedSignificand = z) (hq : d.quantum = q) :
    d.toRat? = some ((z : ℚ) * (2 : ℚ) ^ q) := by
  unfold Double.toRat?
  rw [if_neg hf, hz, hq]

theorem getValue_of_round (e : ExponentialIncrementer) (v : ℚ) (r : Int)
    (hv : e.value.toRat? = some v) (h : cppRound v = r)
    (hr : INT_MIN ≤ r ∧ r ≤ INT_MAX) : e.getValue = some r := by
  simp [ExponentialIncrementer.getValue, hv, h, hr]

theorem getValue_eq_some {e : ExponentialIncrementer} {r : Int} (h : e.getValue = some r) :
    ∃ v, e.value.toRat? = some v ∧ cppRound v = r ∧ INT_MIN ≤ r ∧ r ≤ INT_MAX := by
  unfold ExponentialIncrementer.getValue at h
  cases hv : e.value.toRat? with
  | none => simp [hv] at h
  | some v =>
    simp only [hv] at h
    split at h
    · rename_i hr
      have hrv : cppRound v = r := Option.some.inj h
      exact ⟨v, rfl, hrv, hrv ▸ hr.1, hrv ▸ hr.2⟩
    · exact absurd h (by simp)

theorem getValue_eq_none {e : ExponentialIncrementer} :
    e.getValue = none ↔
      ∀ v, e.value.toRat? = some v → ¬ (INT_MIN ≤ cppRound v ∧ cppRound v ≤ INT_MAX) := by
  unfold ExponentialIncrementer.getValue
  cases hv : e.value.toRat? with
  | none => simp
  | some v =>
    by_cases hr : INT_MIN ≤ cppRound v ∧ cppRound v ≤ INT_MAX
    · simp only [if_pos hr, reduceCtorEq, Option.some.injEq, false_iff, not_forall]
      exact ⟨v, rfl, fun h => h hr⟩
    · simp only [if_neg hr, Option.some.injEq, true_iff]
      intro w hw
      rw [← hw]
      exact hr

/-! ### The sample values of the backtrack limit -/

theorem toRat?_ofInt_22 : (Double.ofInt 22).toRat? = some 22 := by
  rw [Double.toRat?_eq _ 6192449487634432 (-48) (by decide!) (by decide!) (by decide!)]
  norm_num

theorem toRat?_ofInt_33 : (Double.ofInt 33).toRat? = some 33 := by
  rw [Double.toRat?_eq _ 4644337115725824 (-47) (by decide!) (by decide!) (by decide!)]
  norm_num

theorem toRat?_ofRatio_99_2 : (Double.ofRatio false 99 2).toRat? = some (99 / 2) := by
  rw [Double.toRat?_eq _ 6966505673588736 (-47) (by decide!) (by decide!) (by decide!)]
  norm_num

theorem sample_increase_22 :
    ExponentialIncrementer.increase
        { value := Double.ofInt 22
          multiplier := Double.ofRatio false 3 2
          increment := Double.ofInt 0 } =
      { value := Double.ofInt 33
        multiplier := Double.ofRatio false 3 2
        increment := Double.ofInt 0 } := by
  decide!

theorem sample_increase_33 :
    ExponentialIncrementer.increase
        { value := Double.ofInt 33
          multiplier := Double.ofRatio false 3 2
          increment := Double.ofInt 0 } =
      { value := Double.ofRatio false 99 2
        multiplier := Double.ofRatio false 3 2
        increment := Double.ofInt 0 } := by
  decide!

theorem sample_increase_99_2 :
    ExponentialIncrementer.increase
        { value := Double.ofRatio false 99 2
          multiplier := Double.ofRatio false 3 2
          increment := Double.ofInt 0 } =
      { value := Double.ofRatio false 297 4
        multiplier := Double.ofRatio false 3 2
        increment := Double.ofInt 0 } := by
  decide!

theorem sample_getValue_22 :
    ExponentialIncrementer.getValue
        { value := Double.ofInt 22
          multiplier := Double.ofRatio false 3 2
          increment := Double.ofInt 0 } = some 22 :=
  getValue_of_round _ 22 22 toRat?_ofInt_22 (by simpa using cppRound_intCast 22) (by decide)

theorem sample_getValue_33 :
    ExponentialIncrementer.getValue
        { value := Double.ofInt 33
          multiplier := Double.ofRatio false 3 2
          increment := Double.ofInt 0 } = some 33 :=
  getValue_of_round _ 33 33 toRat?_ofInt_33 (by simpa using cppRound_intCast 33) (by decide)

theorem sample_getValue_99_2 :
    ExponentialIncrementer.getValue
        { value := Double.ofRatio false 99 2
          multiplier := Double.ofRatio false 3 2
          increment := Double.ofInt 0 } = some 50 :=
  getValue_of_round _ (99 / 2) 50 toRat?_ofRatio_99_2
    (by apply cppRound_of_nonneg <;> norm_num) (by decide)

/-! ### One iteration of the hill-climber -/

namespace HillClimbingSearch

theorem iteration_found {cfg : NhConfig} {n RAND_MAX : Nat} {s : HillClimbingState}
    {ev : HillClimbingEvent} {it : Iteration} (hfound : ev.stats.solutionFound = true)
    (h : iteration cfg n RAND_MAX s ev = some it) :
    it.returned = false ∧
      it.state.highestNeighbourhoodSizes = s.highestNeighbourhoodSizes ∧
      it.state.bestSolutionValue = ev.stats.newMinValue ∧
      it.state.bestSolution = ev.solution ∧
      it.state.iterationsSpentAtPeak = 0 ∧
      it.state.localMaxProbability = cfg.hillClimberInitialLocalMaxProbability ∧
      it.state.solution = [] := by
  unfold iteration at h
  cases hp : runNeighbourhood cfg ev.combinationToActivate s.backtrackLimit
      s.highestNeighbourhoodSizes with
  | none => simp [hp] at h
  | some params =>
    simp only [hp, hfound, if_true, Option.some.injEq] at h
    subst h
    refine ⟨rfl, ?_, rfl, ?_, rfl, rfl, rfl⟩
    · simp only [handleBetterSolution]
      split <;> rfl
    · simp only [handleBetterSolution]
      split <;> rfl

theorem iteration_not_found {cfg : NhConfig} {n RAND_MAX : Nat} {s : HillClimbingState}
    {ev : HillClimbingEvent} {it : Iteration} (hfound : ev.stats.solutionFound = false)
    (h : iteration cfg n RAND_MAX s ev = some it) :
    ∃ size, checked_cast_size_t ev.stats.highestNeighbourhoodSize = some size ∧
      it.state.highestNeighbourhoodSizes =
        s.highestNeighbourhoodSizes.set ev.combinationToActivate size ∧
      it.state.localMaxProbability =
        s.localMaxProbability +
          (1 / (n : ℚ)) * cfg.hillClimberProbabilityIncrementMultiplier ∧
      it.state.iterationsSpentAtPeak = s.iterationsSpentAtPeak + 1 ∧
      it.state.bestSolutionValue = s.bestSolutionValue ∧
      it.state.bestSolution = s.bestSolution ∧
      it.state.backtrackLimit = s.backtrackLimit.increase ∧
      it.returned =
        (decide (it.state.iterationsSpentAtPeak > cfg.hillClimberMinIterationsToSpendAtPeak) &&
          decide ((ev.randValue : ℚ) / (RAND_MAX : ℚ) < it.state.localMaxProbability)) := by
  unfold iteration at h
  cases hp : runNeighbourhood cfg ev.combinationToActivate s.backtrackLimit
      s.highestNeighbourhoodSizes with
  | none => simp [hp] at h
  | some params =>
    cases hsize : checked_cast_size_t ev.stats.highestNeighbourhoodSize with
    | none => simp [hp, hfound, hsize] at h
    | some size =>
      simp only [hp, hfound, hsize, Bool.false_eq_true, if_false, Bool.not_false,
        Bool.or_true, if_true, Option.some.injEq] at h
      subst h
      exact ⟨size, rfl, rfl, rfl, rfl, rfl, rfl, rfl, rfl⟩

theorem iteration_length {cfg : NhConfig} {n RAND_MAX : Nat} {s : HillClimbingState}
    {ev : HillClimbingEvent} {it : Iteration} (h : iteration cfg n RAND_MAX s ev = some it) :
    it.state.highestNeighbourhoodSizes.length = s.highestNeighbourhoodSizes.length := by
  cases hfound : ev.stats.solutionFound with
  | true => rw [(iteration_found hfound h).2.1]
  | false =>
    obtain ⟨size, -, hvec, -⟩ := iteration_not_found hfound h
    rw [hvec, List.length_set]

theorem iteration_params {cfg : NhConfig} {n RAND_MAX : Nat} {s : HillClimbingState}
    {ev : HillClimbingEvent} {it : Iteration} (h : iteration cfg n RAND_MAX s ev = some it) :
    runNeighbourhood cfg ev.combinationToActivate s.backtrackLimit
      s.highestNeighbourhoodSizes = some it.params := by
  unfold iteration at h
  cases hp : runNeighbourhood cfg ev.combinationToActivate s.backtrackLimit
      s.highestNeighbourhoodSizes with
  | none => simp [hp] at h
  | some params =>
    simp only [hp] at h
    split at h
    · cases h; rfl
    · split at h
      · exact absurd h (by simp)
      · cases h; rfl

theorem loop_bestSolutionValue_mono (cfg : NhConfig) (n RAND_MAX : Nat) :
    ∀ (events : List HillClimbingEvent) (s s' : HillClimbingState),
      respectsIncumbent s.bestSolutionValue events →
      (loop cfg n RAND_MAX s events).state? = some s' →
      s.bestSolutionValue ≤ s'.bestSolutionValue := by
  intro events
  induction events with
  | nil =>
    intro s s' _ h
    simp [loop, RunResult.state?] at h
    rw [h]
  | cons ev rest ih =>
    intro s s' hres h
    unfold loop at h
    cases hit : iteration cfg n RAND_MAX s ev with
    | none => simp [hit, RunResult.state?] at h
    | some it =>
      simp only [hit] at h
      cases hfound : ev.stats.solutionFound with
      | true =>
        have hf := iteration_found hfound hit
        simp only [respectsIncumbent, hfound, if_true] at hres
        simp only [hf.1, Bool.false_eq_true, if_false] at h
        have := ih it.state s' (by rw [hf.2.2.1]; exact hres.2) h
        rw [hf.2.2.1] at this
        exact le_trans hres.1 this
      | false =>
        obtain ⟨size, -, -, -, -, hbest, -, -, -⟩ := iteration_not_found hfound hit
        simp only [respectsIncumbent, hfound, Bool.false_eq_true, if_false] at hres
        by_cases hret : it.returned = true
        · simp only [hret, if_true, RunResult.state?] at h
          cases h
          exact le_of_eq hbest.symm
        · simp only [hret, if_false] at h
          have := ih it.state s' (by rw [hbest]; exact hres) h
          rw [hbest] at this
          exact this

end HillClimbingSearch

/-! ### Claims about the hill-climber -/

/-- C1 (the code departs from the claim).  One combination; the first inner
search finds nothing and reports the highest size 5, the second finds a
solution.  After the second iteration the vector of `run` is still `[5]`,
not `[1]`, and the third `runNeighbourhood` passes 5 as the neighbourhood
size: `handleBetterSolution` resets only its own copy of the vector, which
is `[1]` when the call ends. -/
theorem C1_reset_of_highest_sizes_is_lost :
    ∃ s, HillClimbingSearch.run sampleConfig 1 32767 [] 0 [0]
          [failedSearch 5 32767, foundSearch 3] = HillClimbingSearch.RunResult.running s ∧
      s.highestNeighbourhoodSizes = [5] ∧
      (HillClimbingSearch.runNeighbourhood sampleConfig 0 s.backtrackLimit
          s.highestNeighbourhoodSizes).map (fun p => p.initialNeighbourhoodSize) = some 5 ∧
      (HillClimbingSearch.handleBetterSolution sampleConfig 1 s (foundSearch 3).stats
          [5]).2 = [1] := by
  refine ⟨{ iterationsSpentAtPeak := 0
            localMaxProbability := 0
            backtrackLimit := { value := Double.ofRatio false 99 2
                                multiplier := Double.ofRatio false 3 2
                                increment := Double.ofInt 0 }
            highestNeighbourhoodSizes := [5]
            bestSolutionValue := 3
            bestSolution := [3]
            solution := [] }, ?_, rfl, ?_, ?_⟩
  · simp [HillClimbingSearch.run, HillClimbingSearch.loop, HillClimbingSearch.iteration,
      HillClimbingSearch.initialState, HillClimbingSearch.runNeighbourhood, sampleConfig,
      failedSearch, foundSearch, sample_getValue_22, sample_getValue_33, sample_increase_22,
      sample_increase_33, checked_cast_size_t, HillClimbingSearch.handleBetterSolution]
  · simp [HillClimbingSearch.runNeighbourhood, sample_getValue_99_2]
  · simp [HillClimbingSearch.handleBetterSolution, vectorAssign]

/-- C2, the claim fails as stated: started from an incumbent of value 10, an
inner search that reports a found solution of value 5 replaces the incumbent,
and `bestSolutionValue` drops from 10 to 5. -/
theorem C2_incumbent_can_decrease :
    ∃ s, HillClimbingSearch.run sampleConfig 1 32767 [] 10 [10] [foundSearch 5] =
          HillClimbingSearch.RunResult.running s ∧
      s.bestSolutionValue = 5 ∧ s.bestSolution = [5] ∧ s.bestSolutionValue < 10 := by
  refine ⟨{ iterationsSpentAtPeak := 0
            localMaxProbability := 0
            backtrackLimit := { value := Double.ofInt 33
                                multiplier := Double.ofRatio false 3 2
                                increment := Double.ofInt 0 }
            highestNeighbourhoodSizes := [1]
            bestSolutionValue := 5
            bestSolution := [5]
            solution := [] }, ?_, rfl, rfl, by decide⟩
  simp [HillClimbingSearch.run, HillClimbingSearch.loop, HillClimbingSearch.iteration,
    HillClimbingSearch.initialState, HillClimbingSearch.runNeighbourhood, sampleConfig,
    foundSearch, sample_getValue_22, sample_increase_22,
    HillClimbingSearch.handleBetterSolution]

/-- C2, amended.  In every iteration of `run` the incumbent is replaced by
the result of the inner search exactly when that result has `solutionFound`,
whatever its value, and is left unchanged otherwise.  Hence
`bestSolutionValue` is non-decreasing along the loop for every sequence of
inner-search results in which each found solution has a value at least the
incumbent value of its moment. -/
theorem C2_incumbent_follows_found_results (cfg : NhConfig) (n RAND_MAX : Nat) :
    (∀ s ev it, HillClimbingSearch.iteration cfg n RAND_MAX s ev = some it →
      (ev.stats.solutionFound = true →
        it.state.bestSolutionValue = ev.stats.newMinValue ∧
          it.state.bestSolution = ev.solution) ∧
      (ev.stats.solutionFound = false →
        it.state.bestSolutionValue = s.bestSolutionValue ∧
          it.state.bestSolution = s.bestSolution)) ∧
    (∀ s events s', respectsIncumbent s.bestSolutionValue events →
      (HillClimbingSearch.loop cfg n RAND_MAX s events).state? = some s' →
      s.bestSolutionValue ≤ s'.bestSolutionValue) := by
  constructor
  · intro s ev it h
    constructor
    · intro hfound
      have hf := HillClimbingSearch.iteration_found hfound h
      exact ⟨hf.2.2.1, hf.2.2.2.1⟩
    · intro hfound
      obtain ⟨_, -, -, -, -, hv, hb, -, -⟩ := HillClimbingSearch.iteration_not_found hfound h
      exact ⟨hv, hb⟩
  · intro s events s'
    exact HillClimbingSearch.loop_bestSolutionValue_mono cfg n RAND_MAX events s s'

/-- C2, an instance: from the sample state with incumbent value 0, a found
solution of value 3 respects the incumbent and the value rises to 3. -/
theorem C2_incumbent_follows_found_results_witness :
    respectsIncumbent (sampleClimbState 1 0).bestSolutionValue [foundSearch 3] ∧
      ∃ s', (HillClimbingSearch.loop sampleConfig 1 32767 (sampleClimbState 1 0)
              [foundSearch 3]).state? = some s' ∧
        (sampleClimbState 1 0).bestSolutionValue ≤ s'.bestSolutionValue ∧
        s'.bestSolutionValue = 3 := by
  have hres : respectsIncumbent (sampleClimbState 1 0).bestSolutionValue [foundSearch 3] := by
    simp [respectsIncumbent, foundSearch, sampleClimbState]
  have hloop : (HillClimbingSearch.loop sampleConfig 1 32767 (sampleClimbState 1 0)
      [foundSearch 3]).state? =
      some { iterationsSpentAtPeak := 0
             localMaxProbability := 0
             backtrackLimit := { value := Double.ofInt 33
                                 multiplier := Double.ofRatio false 3 2
                                 increment := Double.ofInt 0 }
             highestNeighbourhoodSizes := [1]
             bestSolutionValue := 3
             bestSolution := [3]
             solution := [] } := by
    simp [HillClimbingSearch.loop, HillClimbingSearch.iteration, sampleClimbState,
      HillClimbingSearch.runNeighbourhood, sampleConfig, foundSearch,
      sample_getValue_22, sample_increase_22,
      HillClimbingSearch.handleBetterSolution, HillClimbingSearch.RunResult.state?]
  exact ⟨hres, _, hloop,
    (C2_incumbent_follows_found_results sampleConfig 1 32767).2 _ _ _ hres hloop, rfl⟩

/-- C4 (the code departs from the claim).  With no minimum number of
iterations at a peak, one combination and a probability increment of 1, the
first failed iteration has `iterationsSpentAtPeak = 1 > 0` and
`localMaxProbability = 1`; when `std::rand()` gives `RAND_MAX` the draw
`rand() / RAND_MAX` is `1`, which is not below `1`, and `run` does not return
at that iteration: the events are used up with the loop still running. -/
theorem C4_no_return_when_rand_is_RAND_MAX :
    ∃ s, HillClimbingSearch.run plateauConfig 1 32767 [] 0 [0] [failedSearch 1 32767] =
          HillClimbingSearch.RunResult.running s ∧
      s.iterationsSpentAtPeak > plateauConfig.hillClimberMinIterationsToSpendAtPeak ∧
      (1 : ℚ) ≤ s.localMaxProbability ∧
      ((32767 : Nat) : ℚ) / ((32767 : Nat) : ℚ) = 1 := by
  refine ⟨{ iterationsSpentAtPeak := 1
            localMaxProbability := 1
            backtrackLimit := { value := Double.ofInt 33
                                multiplier := Double.ofRatio false 3 2
                                increment := Double.ofInt 0 }
            highestNeighbourhoodSizes := [1]
            bestSolutionValue := 0
            bestSolution := [0]
            solution := [] }, ?_, ?_, ?_, ?_⟩
  · simp [HillClimbingSearch.run, HillClimbingSearch.loop, HillClimbingSearch.iteration,
      HillClimbingSearch.initialState, HillClimbingSearch.runNeighbourhood, plateauConfig,
      sampleConfig, failedSearch, sample_getValue_22, sample_increase_22,
      checked_cast_size_t]
  · simp [plateauConfig]
  · norm_num
  · norm_num

/-- What the code guarantees at a plateau.  The draw `rand() / RAND_MAX` lies
in `[0, 1]`, the value 1 included.  At an iteration without a found solution
where `iterationsSpentAtPeak` (after its increment) exceeds
`hillClimberMinIterationsToSpendAtPeak` and `localMaxProbability` (after its
increment) is at least 1, `run` returns at that iteration for every result of
`std::rand()` below `RAND_MAX`, and for the result `RAND_MAX` as well when
`localMaxProbability` exceeds 1. -/
theorem plateau_exit (cfg : NhConfig) (n RAND_MAX : Nat) (s : HillClimbingState)
    (ev : HillClimbingEvent) (rest : List HillClimbingEvent) (it : HillClimbingSearch.Iteration)
    (hmax : 0 < RAND_MAX) (hrand : ev.randValue ≤ RAND_MAX)
    (hfound : ev.stats.solutionFound = false)
    (hit : HillClimbingSearch.iteration cfg n RAND_MAX s ev = some it)
    (hpeak : it.state.iterationsSpentAtPeak > cfg.hillClimberMinIterationsToSpendAtPeak)
    (hprob : 1 ≤ it.state.localMaxProbability)
    (hdraw : ev.randValue < RAND_MAX ∨ 1 < it.state.localMaxProbability) :
    it.returned = true ∧
      HillClimbingSearch.loop cfg n RAND_MAX s (ev :: rest) =
        HillClimbingSearch.RunResult.returned it.state rest ∧
      0 ≤ (ev.randValue : ℚ) / (RAND_MAX : ℚ) ∧ (ev.randValue : ℚ) / (RAND_MAX : ℚ) ≤ 1 := by
  have hpos : (0 : ℚ) < (RAND_MAX : ℚ) := by exact_mod_cast hmax
  have hle : (ev.randValue : ℚ) / (RAND_MAX : ℚ) ≤ 1 := by
    rw [div_le_one hpos]
    exact_mod_cast hrand
  have hlt : (ev.randValue : ℚ) / (RAND_MAX : ℚ) < it.state.localMaxProbability := by
    rcases hdraw with h | h
    · have : (ev.randValue : ℚ) / (RAND_MAX : ℚ) < 1 := by
        rw [div_lt_one hpos]
        exact_mod_cast h
      exact lt_of_lt_of_le this hprob
    · exact lt_of_le_of_lt hle h
  obtain ⟨_, -, -, -, -, -, -, -, hret⟩ := HillClimbingSearch.iteration_not_found hfound hit
  have hreturned : it.returned = true := by
    rw [hret]
    simp [hpeak, hlt]
  refine ⟨hreturned, ?_, by positivity, hle⟩
  simp [HillClimbingSearch.loop, hit, hreturned]

/-- An instance of the plateau exit: the draw 16000 / 32767 makes `run`
return at the first failed iteration. -/
theorem plateau_exit_example :
    ∃ it, HillClimbingSearch.iteration plateauConfig 1 32767
            (HillClimbingSearch.initialState plateauConfig 1 [] 0 [0])
            (failedSearch 1 16000) = some it ∧
      it.returned = true := by
  have hit : HillClimbingSearch.iteration plateauConfig 1 32767
      (HillClimbingSearch.initialState plateauConfig 1 [] 0 [0]) (failedSearch 1 16000) =
      some { params :=
               { combinationToActivate := 0
                 flag3 := true
                 flag4 := true
                 flag5 := false
                 iterationSearchTime := 500
                 backtrackLimit := 22
                 backtrackInsteadOfTimeLimit := true
                 initialNeighbourhoodSize := 1 }
             state :=
               { iterationsSpentAtPeak := 1
                 localMaxProbability := 1
                 backtrackLimit := { value := Double.ofInt 33
                                     multiplier := Double.ofRatio false 3 2
                                     increment := Double.ofInt 0 }
                 highestNeighbourhoodSizes := [1]
                 bestSolutionValue := 0
                 bestSolution := [0]
                 solution := [] }
             returned := true } := by
    simp [HillClimbingSearch.iteration, HillClimbingSearch.initialState,
      HillClimbingSearch.runNeighbourhood, plateauConfig, sampleConfig, failedSearch,
      sample_getValue_22, sample_increase_22, checked_cast_size_t]
    norm_num
  exact ⟨_, hit,
    (plateau_exit plateauConfig 1 32767 _ (failedSearch 1 16000) [] _ (by decide)
      (by simp [failedSearch]) rfl hit (by simp [plateauConfig]) (by norm_num)
      (Or.inl (by simp [failedSearch]))).1⟩

/-! ### The counter of iterations at a peak -/

theorem isTrailingFailures_nil : IsTrailingFailures [] [] :=
  ⟨[], rfl, by simp, by simp⟩

theorem isTrailingFailures_found {pre : List HillClimbingEvent} {ev : HillClimbingEvent}
    (hfound : ev.stats.solutionFound = true) : IsTrailingFailures (pre ++ [ev]) [] := by
  refine ⟨pre ++ [ev], by simp, by simp, ?_⟩
  intro ev' h
  rw [List.getLast?_append] at h
  simp at h
  rw [← h]
  exact hfound

theorem isTrailingFailures_not_found {pre failures : List HillClimbingEvent}
    {ev : HillClimbingEvent} (hfound : ev.stats.solutionFound = false)
    (h : IsTrailingFailures pre failures) :
    IsTrailingFailures (pre ++ [ev]) (failures ++ [ev]) := by
  obtain ⟨before, hpre, hall, hlast⟩ := h
  refine ⟨before, by rw [hpre, List.append_assoc], ?_, hlast⟩
  intro ev' hmem
  rcases List.mem_append.mp hmem with h | h
  · exact hall ev' h
  · simp at h
    rw [h]
    exact hfound

theorem HillClimbingSearch.loop_iterationsSpentAtPeak (cfg : NhConfig) (n RAND_MAX : Nat) :
    ∀ (events pre failures : List HillClimbingEvent) (s : HillClimbingState),
      IsTrailingFailures pre failures →
      s.iterationsSpentAtPeak = (failures.length : Int) →
      (∀ s', HillClimbingSearch.loop cfg n RAND_MAX s events =
          HillClimbingSearch.RunResult.running s' →
        ∃ f, IsTrailingFailures (pre ++ events) f ∧
          s'.iterationsSpentAtPeak = (f.length : Int)) ∧
      (∀ s' rest, HillClimbingSearch.loop cfg n RAND_MAX s events =
          HillClimbingSearch.RunResult.returned s' rest →
        ∃ used f, events = used ++ rest ∧ IsTrailingFailures (pre ++ used) f ∧
          s'.iterationsSpentAtPeak = (f.length : Int) ∧
          cfg.hillClimberMinIterationsToSpendAtPeak + 1 ≤ (f.length : Int)) := by
  intro events
  induction events with
  | nil =>
    intro pre failures s htrail hcount
    constructor
    · intro s' h
      simp only [HillClimbingSearch.loop, HillClimbingSearch.RunResult.running.injEq] at h
      subst h
      exact ⟨failures, by simpa using htrail, hcount⟩
    · intro s' rest h
      simp [HillClimbingSearch.loop] at h
  | cons ev more ih =>
    intro pre failures s htrail hcount
    cases hit : HillClimbingSearch.iteration cfg n RAND_MAX s ev with
    | none =>
      constructor
      · intro s' h
        simp [HillClimbingSearch.loop, hit] at h
      · intro s' rest h
        simp [HillClimbingSearch.loop, hit] at h
    | some it =>
      cases hfound : ev.stats.solutionFound with
      | true =>
        have hf := HillClimbingSearch.iteration_found hfound hit
        have hnext := ih (pre ++ [ev]) [] it.state (isTrailingFailures_found hfound)
          (by simp [hf.2.2.2.2.1])
        constructor
        · intro s' h
          simp only [HillClimbingSearch.loop, hit, hf.1, Bool.false_eq_true, if_false] at h
          obtain ⟨f, hf1, hf2⟩ := hnext.1 s' h
          exact ⟨f, by simpa using hf1, hf2⟩
        · intro s' rest h
          simp only [HillClimbingSearch.loop, hit, hf.1, Bool.false_eq_true, if_false] at h
          obtain ⟨used, f, hu, hf1, hf2, hf3⟩ := hnext.2 s' rest h
          exact ⟨ev :: used, f, by simp [hu], by simpa using hf1, hf2, hf3⟩
      | false =>
        obtain ⟨size, -, -, -, hiter, -, -, -, hret⟩ :=
          HillClimbingSearch.iteration_not_found hfound hit
        have htrail1 := isTrailingFailures_not_found hfound htrail
        have hcount1 : it.state.iterationsSpentAtPeak = ((failures ++ [ev]).length : Int) := by
          rw [hiter, hcount]
          simp
        have hnext := ih (pre ++ [ev]) (failures ++ [ev]) it.state htrail1 hcount1
        by_cases hreturned : it.returned = true
        · constructor
          · intro s' h
            simp [HillClimbingSearch.loop, hit, hreturned] at h
          · intro s' rest h
            simp only [HillClimbingSearch.loop, hit, hreturned, if_true,
              HillClimbingSearch.RunResult.returned.injEq] at h
            obtain ⟨hs, hr⟩ := h
            subst hs
            subst hr
            refine ⟨[ev], failures ++ [ev], by simp, htrail1, hcount1, ?_⟩
            rw [hret] at hreturned
            simp only [Bool.and_eq_true, decide_eq_true_eq] at hreturned
            have := hreturned.1
            rw [hcount1] at this
            omega
        · constructor
          · intro s' h
            simp only [HillClimbingSearch.loop, hit, hreturned, if_false] at h
            obtain ⟨f, hf1, hf2⟩ := hnext.1 s' h
            exact ⟨f, by simpa using hf1, hf2⟩
          · intro s' rest h
            simp only [HillClimbingSearch.loop, hit, hreturned, if_false] at h
            obtain ⟨used, f, hu, hf1, hf2, hf3⟩ := hnext.2 s' rest h
            exact ⟨ev :: used, f, by simp [hu], by simpa using hf1, hf2, hf3⟩

/-- C5.  When `run` returns, the events it has consumed end with a run of
iterations without a found solution that starts right after the last found
solution (or at the start), `iterationsSpentAtPeak` is the length of that
run, and the length is at least `hillClimberMinIterationsToSpendAtPeak + 1`.
While `run` has not returned, `iterationsSpentAtPeak` is likewise the length
of the run of failures that ends the iterations made so far. -/
theorem C5_return_only_after_peak (cfg : NhConfig) (n RAND_MAX : Nat)
    (nhStateSolution : List Int) (initSolutionValue : Int) (initSolution : List Int)
    (events : List HillClimbingEvent) :
    (∀ s rest, HillClimbingSearch.run cfg n RAND_MAX nhStateSolution initSolutionValue
        initSolution events = HillClimbingSearch.RunResult.returned s rest →
      ∃ used failures, events = used ++ rest ∧ IsTrailingFailures used failures ∧
        s.iterationsSpentAtPeak = (failures.length : Int) ∧
        cfg.hillClimberMinIterationsToSpendAtPeak + 1 ≤ (failures.length : Int)) ∧
    (∀ s, HillClimbingSearch.run cfg n RAND_MAX nhStateSolution initSolutionValue
        initSolution events = HillClimbingSearch.RunResult.running s →
      ∃ failures, IsTrailingFailures events failures ∧
        s.iterationsSpentAtPeak = (failures.length : Int)) := by
  have h := HillClimbingSearch.loop_iterationsSpentAtPeak cfg n RAND_MAX events [] []
    (HillClimbingSearch.initialState cfg n nhStateSolution initSolutionValue initSolution)
    isTrailingFailures_nil (by simp [HillClimbingSearch.initialState])
  constructor
  · intro s rest hrun
    obtain ⟨used, f, hu, hf1, hf2, hf3⟩ := h.2 s rest hrun
    exact ⟨used, f, hu, by simpa using hf1, hf2, hf3⟩
  · intro s hrun
    obtain ⟨f, hf1, hf2⟩ := h.1 s hrun
    exact ⟨f, by simpa using hf1, hf2⟩

/-- C5, an instance: with at least one iteration at a peak required, a found
solution followed by two failures makes `run` return at the second failure,
with a counter of 2. -/
theorem C5_return_only_after_peak_witness :
    ∃ s, HillClimbingSearch.run sampleConfig 1 32767 [] 0 [0]
          [foundSearch 3, failedSearch 1 0, failedSearch 1 0, foundSearch 9] =
          HillClimbingSearch.RunResult.returned s [foundSearch 9] ∧
      ∃ used failures,
        [foundSearch 3, failedSearch 1 0, failedSearch 1 0, foundSearch 9] =
          used ++ [foundSearch 9] ∧
        IsTrailingFailures used failures ∧
        s.iterationsSpentAtPeak = (failures.length : Int) ∧
        sampleConfig.hillClimberMinIterationsToSpendAtPeak + 1 ≤ (failures.length : Int) := by
  have hrun : HillClimbingSearch.run sampleConfig 1 32767 [] 0 [0]
      [foundSearch 3, failedSearch 1 0, failedSearch 1 0, foundSearch 9] =
      HillClimbingSearch.RunResult.returned
        { iterationsSpentAtPeak := 2
          localMaxProbability := 2
          backtrackLimit := { value := Double.ofRatio false 297 4
                              multiplier := Double.ofRatio false 3 2
                              increment := Double.ofInt 0 }
          highestNeighbourhoodSizes := [1]
          bestSolutionValue := 3
          bestSolution := [3]
          solution := [] } [foundSearch 9] := by
    simp [HillClimbingSearch.run, HillClimbingSearch.loop, HillClimbingSearch.iteration,
      HillClimbingSearch.initialState, HillClimbingSearch.runNeighbourhood, sampleConfig,
      failedSearch, foundSearch, sample_getValue_22, sample_getValue_33, sample_getValue_99_2,
      sample_increase_22, sample_increase_33, sample_increase_99_2, checked_cast_size_t,
      HillClimbingSearch.handleBetterSolution]
    norm_num
  exact ⟨_, hrun,
    (C5_return_only_after_peak sampleConfig 1 32767 [] 0 [0]
      [foundSearch 3, failedSearch 1 0, failedSearch 1 0, foundSearch 9]).1 _ _ hrun⟩

/-! ### A failed iteration, and the incrementer -/

theorem cppRound_dist (v : ℚ) : |((cppRound v : Int) : ℚ) - v| ≤ 1 / 2 := by
  unfold cppRound
  split
  · have h1 := Int.floor_le (v + 1 / 2)
    have h2 := Int.lt_floor_add_one (v + 1 / 2)
    rw [abs_le]
    constructor <;> linarith
  · have h1 := Int.le_ceil (v - 1 / 2)
    have h2 := Int.ceil_lt_add_one (v - 1 / 2)
    rw [abs_le]
    constructor <;> linarith

theorem ExponentialIncrementer.increaseTimes_multiplier (e : ExponentialIncrementer) (k : Nat) :
    (e.increaseTimes k).multiplier = e.multiplier ∧
      (e.increaseTimes k).increment = e.increment := by
  induction k with
  | zero => exact ⟨rfl, rfl⟩
  | succ k ih => exact ih

theorem ExponentialIncrementer.increaseTimes_succ (e : ExponentialIncrementer) (k : Nat) :
    (e.increaseTimes (k + 1)).value =
      ((e.increaseTimes k).value.mul e.multiplier).add e.increment := by
  show ((e.increaseTimes k).value.mul (e.increaseTimes k).multiplier).add
    (e.increaseTimes k).increment = _
  rw [(e.increaseTimes_multiplier k).1, (e.increaseTimes_multiplier k).2]

theorem ExponentialIncrementer.increaseTimes_increase (e : ExponentialIncrementer) (k : Nat) :
    e.increase.increaseTimes k = e.increaseTimes (k + 1) := by
  induction k with
  | zero => rfl
  | succ k ih =>
    show (e.increase.increaseTimes k).increase = (e.increaseTimes (k + 1)).increase
    rw [ih]

theorem ExponentialIncrementer.increaseTimes_add (e : ExponentialIncrementer) (j k : Nat) :
    (e.increaseTimes j).increaseTimes k = e.increaseTimes (j + k) := by
  induction k with
  | zero => rfl
  | succ k ih =>
    show ((e.increaseTimes j).increaseTimes k).increase = (e.increaseTimes (j + k)).increase
    rw [ih]

theorem ExponentialIncrementer.exactFor_step {e : ExponentialIncrementer} {k : Nat}
    {v m c : ℚ} (hexact : e.ExactFor (k + 1)) (hv : (e.increaseTimes k).value.toRat? = some v)
    (hm : e.multiplier.toRat? = some m) (hc : e.increment.toRat? = some c) :
    (e.increaseTimes (k + 1)).value.toRat? = some (v * m + c) := by
  obtain ⟨va, vb, vc, ha, hb, hcc, -, hsum⟩ := hexact k (Nat.lt_succ_self k)
  rw [hv] at ha
  rw [hm] at hb
  rw [hc] at hcc
  cases ha
  cases hb
  cases hcc
  rw [e.increaseTimes_succ k]
  exact hsum

theorem ExponentialIncrementer.increaseTimes_closed (e : ExponentialIncrementer)
    {v0 m c : ℚ} (hv : e.value.toRat? = some v0) (hm : e.multiplier.toRat? = some m)
    (hc : e.increment.toRat? = some c) (hne : m ≠ 1) (k : Nat) (hexact : e.ExactFor k) :
    (e.increaseTimes k).value.toRat? = some (v0 * m ^ k + c * (m ^ k - 1) / (m - 1)) := by
  have hne1 : m - 1 ≠ 0 := sub_ne_zero.mpr hne
  induction k with
  | zero =>
    show e.value.toRat? = _
    rw [hv]
    simp
  | succ k ih =>
    have hk := ih (fun i hi => hexact i (Nat.lt_succ_of_lt hi))
    rw [ExponentialIncrementer.exactFor_step hexact hk hm hc]
    congr 1
    field_simp
    ring

theorem ExponentialIncrementer.increaseTimes_linear (e : ExponentialIncrementer)
    {v0 m c : ℚ} (hv : e.value.toRat? = some v0) (hm : e.multiplier.toRat? = some m)
    (hc : e.increment.toRat? = some c) (hone : m = 1) (k : Nat) (hexact : e.ExactFor k) :
    (e.increaseTimes k).value.toRat? = some (v0 + (k : ℚ) * c) := by
  induction k with
  | zero =>
    show e.value.toRat? = _
    rw [hv]
    simp
  | succ k ih =>
    have hk := ih (fun i hi => hexact i (Nat.lt_succ_of_lt hi))
    rw [ExponentialIncrementer.exactFor_step hexact hk hm hc, hone]
    congr 1
    push_cast
    ring

theorem toRat?_ofInt_5 : (Double.ofInt 5).toRat? = some 5 := by
  rw [Double.toRat?_eq _ 5629499534213120 (-50) (by decide!) (by decide!) (by decide!)]
  norm_num

theorem toRat?_ofInt_0 : (Double.ofInt 0).toRat? = some 0 := by
  rw [Double.toRat?_eq _ 0 (-1074) (by decide!) (by decide!) (by decide!)]
  norm_num

theorem toRat?_ofInt_1 : (Double.ofInt 1).toRat? = some 1 := by
  rw [Double.toRat?_eq _ 4503599627370496 (-52) (by decide!) (by decide!) (by decide!)]
  norm_num

theorem toRat?_ofRatio_3_2 : (Double.ofRatio false 3 2).toRat? = some (3 / 2) := by
  rw [Double.toRat?_eq _ 6755399441055744 (-52) (by decide!) (by decide!) (by decide!)]
  norm_num

theorem toRat?_ofRatio_17_10 :
    (Double.ofRatio false 17 10).toRat? = some (7656119366529843 / 4503599627370496) := by
  rw [Double.toRat?_eq _ 7656119366529843 (-52) (by decide!) (by decide!) (by decide!)]
  norm_num

theorem toRat?_ofRatio_17_2 : (Double.ofRatio false 17 2).toRat? = some (17 / 2) := by
  rw [Double.toRat?_eq _ 4785074604081152 (-49) (by decide!) (by decide!) (by decide!)]
  norm_num

theorem toRat?_ofInt_2147483647 : (Double.ofInt 2147483647).toRat? = some 2147483647 := by
  rw [Double.toRat?_eq _ 9007199250546688 (-22) (by decide!) (by decide!) (by decide!)]
  norm_num

theorem toRat?_ofInt_2147483648 : (Double.ofInt 2147483648).toRat? = some 2147483648 := by
  rw [Double.toRat?_eq _ 4503599627370496 (-21) (by decide!) (by decide!) (by decide!)]
  norm_num

theorem getValue_of_fields (e : ExponentialIncrementer) (z q r : Int)
    (hf : e.value.exponent.val ≠ 2047) (hz : e.value.signedSignificand = z)
    (hq : e.value.quantum = q) (hround : cppRound ((z : ℚ) * (2 : ℚ) ^ q) = r)
    (hr : INT_MIN ≤ r ∧ r ≤ INT_MAX) : e.getValue = some r :=
  getValue_of_round e _ r (Double.toRat?_eq _ z q hf hz hq) hround hr

/-- Three runs of the incrementer in `double` arithmetic.  Initial value 5 and
multiplier `0.7`: `getValue` is 4 after one `increase()` (the product is
rounded to 3.5).  Initial value 25 and multiplier `1.14`: 28 after one
`increase()` (the product is just below 28.5).  Initial value 50 and
multiplier `2.3`: 264 after two (the value is just below 264.5). -/
theorem ExponentialIncrementer.getValue_examples :
    (ExponentialIncrementer.increaseTimes
        { value := Double.ofInt 5
          multiplier := Double.ofRatio false 7 10
          increment := Double.ofInt 0 } 1).getValue = some 4 ∧
      (ExponentialIncrementer.increaseTimes
        { value := Double.ofInt 25
          multiplier := Double.ofRatio false 114 100
          increment := Double.ofInt 0 } 1).getValue = some 28 ∧
      (ExponentialIncrementer.increaseTimes
        { value := Double.ofInt 50
          multiplier := Double.ofRatio false 23 10
          increment := Double.ofInt 0 } 2).getValue = some 264 := by
  refine ⟨?_, ?_, ?_⟩
  · refine getValue_of_fields _ 7881299347898368 (-51) 4 (by decide!) (by decide!) (by decide!)
      ?_ (by decide)
    apply cppRound_of_nonneg <;> norm_num
  · refine getValue_of_fields _ 8022036836253695 (-48) 28 (by decide!) (by decide!) (by decide!)
      ?_ (by decide)
    apply cppRound_of_nonneg <;> norm_num
  · refine getValue_of_fields _ 4653133208748031 (-44) 264 (by decide!) (by decide!)
      (by decide!) ?_ (by decide)
    apply cppRound_of_nonneg <;> norm_num

/-- C7, the claim fails as stated.  (1) Initial value 5, multiplier the
`double` nearest to 1.7 (the literal `1.7`, a value `m` slightly below 17/10),
increment 0: one `increase()` stores the product rounded to the nearest
`double`, which is 8.5, and `getValue` returns 9; the closed form
`v0 * m ^ 1 + increment * (m ^ 1 - 1) / (m - 1)` is below 8.5 and rounds to 8.
(2) Initial value 2147483647, multiplier 1, increment 1: after one
`increase()` the stored value is `v0 + 1 * increment = 2147483648`, which is
not an `int`, and `getValue` has no defined result. -/
theorem C7_closed_form_fails_in_double :
    (∃ v0 m c, (Double.ofInt 5).toRat? = some v0 ∧
      (Double.ofRatio false 17 10).toRat? = some m ∧ (Double.ofInt 0).toRat? = some c ∧
      m ≠ 1 ∧
      (ExponentialIncrementer.increaseTimes
        { value := Double.ofInt 5
          multiplier := Double.ofRatio false 17 10
          increment := Double.ofInt 0 } 1).value.toRat? = some (17 / 2) ∧
      (ExponentialIncrementer.increaseTimes
        { value := Double.ofInt 5
          multiplier := Double.ofRatio false 17 10
          increment := Double.ofInt 0 } 1).getValue = some 9 ∧
      v0 * m ^ 1 + c * (m ^ 1 - 1) / (m - 1) < 17 / 2 ∧
      cppRound (v0 * m ^ 1 + c * (m ^ 1 - 1) / (m - 1)) = 8) ∧
    (∃ v0 m c, (Double.ofInt 2147483647).toRat? = some v0 ∧
      (Double.ofInt 1).toRat? = some m ∧ (Double.ofInt 1).toRat? = some c ∧ m = 1 ∧
      (ExponentialIncrementer.increaseTimes
        { value := Double.ofInt 2147483647
          multiplier := Double.ofInt 1
          increment := Double.ofInt 1 } 1).value.toRat? = some (v0 + ((1 : Nat) : ℚ) * c) ∧
      cppRound (v0 + ((1 : Nat) : ℚ) * c) = 2147483648 ∧
      (ExponentialIncrementer.increaseTimes
        { value := Double.ofInt 2147483647
          multiplier := Double.ofInt 1
          increment := Double.ofInt 1 } 1).getValue = none) := by
  have hinc : ExponentialIncrementer.increaseTimes
      { value := Double.ofInt 5
        multiplier := Double.ofRatio false 17 10
        increment := Double.ofInt 0 } 1 =
      { value := Double.ofRatio false 17 2
        multiplier := Double.ofRatio false 17 10
        increment := Double.ofInt 0 } := by
    decide!
  have hinc2 : ExponentialIncrementer.increaseTimes
      { value := Double.ofInt 2147483647
        multiplier := Double.ofInt 1
        increment := Double.ofInt 1 } 1 =
      { value := Double.ofInt 2147483648
        multiplier := Double.ofInt 1
        increment := Double.ofInt 1 } := by
    decide!
  have h9 : cppRound (17 / 2 : ℚ) = 9 := by
    apply cppRound_of_nonneg <;> norm_num
  have hbig : cppRound (2147483648 : ℚ) = 2147483648 := by
    simpa using cppRound_intCast 2147483648
  constructor
  · refine ⟨5, 7656119366529843 / 4503599627370496, 0, toRat?_ofInt_5, toRat?_ofRatio_17_10,
      toRat?_ofInt_0, by norm_num, ?_, ?_, by norm_num, ?_⟩
    · rw [hinc]
      exact toRat?_ofRatio_17_2
    · rw [hinc]
      exact getValue_of_round _ (17 / 2) 9 toRat?_ofRatio_17_2 h9 (by decide)
    · apply cppRound_of_nonneg <;> norm_num
  · refine ⟨2147483647, 1, 1, toRat?_ofInt_2147483647, toRat?_ofInt_1, toRat?_ofInt_1, rfl,
      ?_, ?_, ?_⟩
    · rw [hinc2, toRat?_ofInt_2147483648]
      norm_num
    · norm_num [hbig]
    · rw [hinc2, getValue_eq_none]
      intro v hv
      have hv2 : v = 2147483648 := by
        have := hv.symm.trans toRat?_ofInt_2147483648
        exact Option.some.inj this
      rw [hv2, hbig]
      simp [INT_MAX]

/-- C7, amended.  The recurrence holds in `double` arithmetic: after `k` calls
of `increase()` on an incrementer built with initial value `v0`, the stored
value `v_k` satisfies `v_0 = v0` and `v_(k+1) = (v_k * multiplier) + increment`
where the product and the sum are those of `double`, each rounded to the
nearest `double`; multiplier and increment never change.  As long as none of
these operations rounds, `v_k` is the real number
`v0 * m^k + increment * (m^k - 1) / (m - 1)` when `m ≠ 1` and
`v0 + k * increment` when `m = 1`.  When `v_k` is finite and its rounding to
the nearest integer (an integer within 1/2 of `v_k`, halfway cases away from
zero) is an `int`, `getValue` returns that integer; otherwise `getValue` has no
defined result.  The incrementer of the hill-climber starts at
`initialBacktrackLimit` with `backtrackLimitMultiplier` and
`backtrackLimitIncrement`. -/
theorem C7_incrementer_recurrence_in_double (e : ExponentialIncrementer) (k : Nat) :
    e.increaseTimes 0 = e ∧
      (e.increaseTimes (k + 1)).value =
        ((e.increaseTimes k).value.mul e.multiplier).add e.increment ∧
      (e.increaseTimes k).multiplier = e.multiplier ∧
      (e.increaseTimes k).increment = e.increment ∧
      (∀ v0 m c, e.value.toRat? = some v0 → e.multiplier.toRat? = some m →
        e.increment.toRat? = some c → e.ExactFor k →
        (m ≠ 1 →
          (e.increaseTimes k).value.toRat? =
            some (v0 * m ^ k + c * (m ^ k - 1) / (m - 1))) ∧
        (m = 1 → (e.increaseTimes k).value.toRat? = some (v0 + (k : ℚ) * c))) ∧
      (∀ v, (e.increaseTimes k).value.toRat? = some v →
        |((cppRound v : Int) : ℚ) - v| ≤ 1 / 2 ∧
        (INT_MIN ≤ cppRound v ∧ cppRound v ≤ INT_MAX →
          (e.increaseTimes k).getValue = some (cppRound v)) ∧
        (¬ (INT_MIN ≤ cppRound v ∧ cppRound v ≤ INT_MAX) →
          (e.increaseTimes k).getValue = none)) ∧
      ((e.increaseTimes k).value.toRat? = none → (e.increaseTimes k).getValue = none) ∧
      (∀ (cfg : NhConfig) (n : Nat) (nhStateSolution : List Int) (initSolutionValue : Int)
          (initSolution : List Int),
        (HillClimbingSearch.initialState cfg n nhStateSolution initSolutionValue
            initSolution).backtrackLimit =
          { value := cfg.initialBacktrackLimit
            multiplier := cfg.backtrackLimitMultiplier
            increment := cfg.backtrackLimitIncrement }) := by
  refine ⟨rfl, e.increaseTimes_succ k, (e.increaseTimes_multiplier k).1,
    (e.increaseTimes_multiplier k).2, ?_, ?_, ?_, fun _ _ _ _ _ => rfl⟩
  · intro v0 m c hv hm hc hexact
    exact ⟨fun hne => e.increaseTimes_closed hv hm hc hne k hexact,
      fun hone => e.increaseTimes_linear hv hm hc hone k hexact⟩
  · intro v hv
    refine ⟨cppRound_dist v, fun hr => getValue_of_round _ v _ hv rfl hr, ?_⟩
    intro hr
    rw [getValue_eq_none]
    intro w hw
    rw [hv] at hw
    cases hw
    exact hr
  · intro hnone
    rw [getValue_eq_none]
    intro w hw
    rw [hnone] at hw
    cases hw

/-- C7, an instance: the limit 22 with multiplier 3/2 and increment 0.  The two
products 22 * 1.5 = 33 and 33 * 1.5 = 49.5 are not rounded, so the stored
value after two increases is `22 * (3/2)^2 = 49.5`, and `getValue` returns
50. -/
theorem C7_incrementer_recurrence_in_double_witness :
    ExponentialIncrementer.ExactFor
        { value := Double.ofInt 22
          multiplier := Double.ofRatio false 3 2
          increment := Double.ofInt 0 } 2 ∧
      (ExponentialIncrementer.increaseTimes
        { value := Double.ofInt 22
          multiplier := Double.ofRatio false 3 2
          increment := Double.ofInt 0 } 2).value.toRat? = some (99 / 2) ∧
      (ExponentialIncrementer.increaseTimes
        { value := Double.ofInt 22
          multiplier := Double.ofRatio false 3 2
          increment := Double.ofInt 0 } 2).getValue = some 50 := by
  have hm1 : (Double.ofInt 22).mul (Double.ofRatio false 3 2) = Double.ofInt 33 := by decide!
  have ha1 : (Double.ofInt 33).add (Double.ofInt 0) = Double.ofInt 33 := by decide!
  have hm2 : (Double.ofInt 33).mul (Double.ofRatio false 3 2) = Double.ofRatio false 99 2 := by
    decide!
  have ha2 : (Double.ofRatio false 99 2).add (Double.ofInt 0) = Double.ofRatio false 99 2 := by
    decide!
  have hexact : ExponentialIncrementer.ExactFor
      { value := Double.ofInt 22
        multiplier := Double.ofRatio false 3 2
        increment := Double.ofInt 0 } 2 := by
    intro i hi
    interval_cases i
    · refine ⟨22, 3 / 2, 0, toRat?_ofInt_22, toRat?_ofRatio_3_2, toRat?_ofInt_0, ?_, ?_⟩
      · show ((Double.ofInt 22).mul (Double.ofRatio false 3 2)).toRat? = _
        rw [hm1, toRat?_ofInt_33]
        norm_num
      · show (((Double.ofInt 22).mul (Double.ofRatio false 3 2)).add (Double.ofInt 0)).toRat? = _
        rw [hm1, ha1, toRat?_ofInt_33]
        norm_num
    · have h1 : ExponentialIncrementer.increaseTimes
          { value := Double.ofInt 22
            multiplier := Double.ofRatio false 3 2
            increment := Double.ofInt 0 } 1 =
          { value := Double.ofInt 33
            multiplier := Double.ofRatio false 3 2
            increment := Double.ofInt 0 } := sample_increase_22
      rw [h1]
      refine ⟨33, 3 / 2, 0, toRat?_ofInt_33, toRat?_ofRatio_3_2, toRat?_ofInt_0, ?_, ?_⟩
      · show ((Double.ofInt 33).mul (Double.ofRatio false 3 2)).toRat? = _
        rw [hm2, toRat?_ofRatio_99_2]
        norm_num
      · show (((Double.ofInt 33).mul (Double.ofRatio false 3 2)).add (Double.ofInt 0)).toRat? = _
        rw [hm2, ha2, toRat?_ofRatio_99_2]
        norm_num
  obtain ⟨-, -, -, -, hclosed, hget, -, -⟩ := C7_incrementer_recurrence_in_double
    { value := Double.ofInt 22
      multiplier := Double.ofRatio false 3 2
      increment := Double.ofInt 0 } 2
  have hvalue := (hclosed 22 (3 / 2) 0 toRat?_ofInt_22 toRat?_ofRatio_3_2 toRat?_ofInt_0
    hexact).1 (by norm_num)
  have heq : (22 : ℚ) * (3 / 2) ^ 2 + 0 * ((3 / 2) ^ 2 - 1) / (3 / 2 - 1) = 99 / 2 := by norm_num
  rw [heq] at hvalue
  have h50 : cppRound (99 / 2 : ℚ) = 50 := by
    apply cppRound_of_nonneg <;> norm_num
  have hgv := (hget (99 / 2) hvalue).2.1 (by rw [h50]; decide)
  rw [h50] at hgv
  exact ⟨hexact, hvalue, hgv⟩

/-! ### One exploratory search of the meta-search -/

namespace MetaSearch

theorem runNeighbourhood_eq (cfg : NhConfig) (s : MetaSearchState) (nhIndex : Nat)
    (stats : NeighbourhoodStats) (solution : List Int)
    (hlimit : ∃ v, s.backtrackLimit.value.toRat? = some v ∧
      INT_MIN ≤ cppRound v ∧ cppRound v ≤ INT_MAX) :
    ∃ params s1, runNeighbourhood cfg s nhIndex stats solution = some (params, s1) ∧
      s1 = { s with
              solution := solution
              backtrackLimit :=
                if stats.solutionFound then s.backtrackLimit else s.backtrackLimit.increase } := by
  obtain ⟨v, hv, hrange⟩ := hlimit
  unfold runNeighbourhood
  rw [getValue_of_round s.backtrackLimit v _ hv rfl hrange]
  cases stats.solutionFound <;> exact ⟨_, _, rfl, rfl⟩

theorem runNeighbourhood_state {cfg : NhConfig} {s s1 : MetaSearchState} {nhIndex : Nat}
    {stats : NeighbourhoodStats} {solution : List Int} {params : SearchParams}
    (h : runNeighbourhood cfg s nhIndex stats solution = some (params, s1)) :
    s1 = { s with
            solution := solution
            backtrackLimit :=
              if stats.solutionFound then s.backtrackLimit else s.backtrackLimit.increase } := by
  unfold runNeighbourhood at h
  cases hv : s.backtrackLimit.getValue with
  | none => simp [hv] at h
  | some limit =>
    simp only [hv] at h
    cases hf : stats.solutionFound <;> simp [hf] at h <;> simp [← h.2]

theorem exploreStep_spec {cfg : NhConfig} {s : MetaSearchState} {nhIndex : Nat}
    {ev : ExploreEvent} {e : Exploration} (h : exploreStep cfg s nhIndex ev = some e) :
    e.climbCalls =
        [{ initSolutionValue := ev.stats.newMinValue, initSolution := ev.solution }] ∧
      (e.success = true ↔
        (ev.climb ev.stats.newMinValue ev.solution).bestSolutionValue > s.bestSolutionValue) ∧
      (e.success = true →
        e.state.bestSolutionValue =
            (ev.climb ev.stats.newMinValue ev.solution).bestSolutionValue ∧
          e.state.bestSolution = (ev.climb ev.stats.newMinValue ev.solution).bestSolution ∧
          e.state.minNeighbourhoodSize = 1 ∧ e.state.neighbourhoodSizeOffset = 0) ∧
      (e.success = false →
        e.state.bestSolutionValue = s.bestSolutionValue ∧
          e.state.bestSolution = s.bestSolution ∧
          e.state.minNeighbourhoodSize = s.minNeighbourhoodSize ∧
          e.state.neighbourhoodSizeOffset = s.neighbourhoodSizeOffset) ∧
      e.state.searchStrategyBestSolutionValue =
        (ev.climb ev.stats.newMinValue ev.solution).bestSolutionValue ∧
      e.state.backtrackLimit =
        (if ev.stats.solutionFound then s.backtrackLimit else s.backtrackLimit.increase) := by
  unfold exploreStep at h
  cases hr : runNeighbourhood cfg s nhIndex ev.stats ev.solution with
  | none => simp [hr] at h
  | some r =>
    obtain ⟨params, s1⟩ := r
    have hs1 := runNeighbourhood_state hr
    subst hs1
    simp only [hr] at h
    by_cases hgt :
        (ev.climb ev.stats.newMinValue ev.solution).bestSolutionValue > s.bestSolutionValue
    · simp only [hgt, if_true, Option.some.injEq] at h
      subst h
      simp [hgt, resetNeighbourhoodSize]
    · simp only [hgt, if_false, Option.some.injEq] at h
      subst h
      simp [hgt]

theorem exploreStep_isSome (cfg : NhConfig) (s : MetaSearchState) (nhIndex : Nat)
    (ev : ExploreEvent)
    (hlimit : ∃ v, s.backtrackLimit.value.toRat? = some v ∧
      INT_MIN ≤ cppRound v ∧ cppRound v ≤ INT_MAX) :
    ∃ e, exploreStep cfg s nhIndex ev = some e := by
  obtain ⟨params, s1, hr, -⟩ := runNeighbourhood_eq cfg s nhIndex ev.stats ev.solution hlimit
  unfold exploreStep
  simp only [hr]
  split <;> exact ⟨_, rfl⟩

end MetaSearch

/-- C3, the claim fails as stated.  From an incumbent of value 10: after an
exploratory search that found no solution (reported value 4, `[4]` left in
`nhState.solution`) the search strategy is run from the value 4 and the
solution `[4]`; and after an exploratory search that found a solution of
value 7, not better than the incumbent, the strategy is run from it as
well. -/
theorem C3_climb_entered_without_improvement :
    (∃ e, MetaSearch.exploreStep sampleConfig sampleMetaState 0 exploredNothing = some e ∧
      e.climbCalls = [{ initSolutionValue := 4, initSolution := [4] }] ∧
      e.state.searchStrategyBestSolutionValue = 4) ∧
    (∃ e, MetaSearch.exploreStep sampleConfig sampleMetaState 0 (exploredFound 7 1) = some e ∧
      e.climbCalls = [{ initSolutionValue := 7, initSolution := [7] }] ∧
      e.state.searchStrategyBestSolutionValue = 8) := by
  have h1 : cppRound (22 : ℚ) = 22 := by simpa using cppRound_intCast 22
  have hlimit : ∃ v, sampleMetaState.backtrackLimit.value.toRat? = some v ∧
      INT_MIN ≤ cppRound v ∧ cppRound v ≤ INT_MAX :=
    ⟨22, toRat?_ofInt_22, by simp [h1, INT_MIN, INT_MAX]⟩
  constructor
  · obtain ⟨e, he⟩ := MetaSearch.exploreStep_isSome sampleConfig sampleMetaState 0
      exploredNothing hlimit
    obtain ⟨hcalls, -, -, -, hbest, -⟩ := MetaSearch.exploreStep_spec he
    exact ⟨e, he, hcalls, hbest⟩
  · obtain ⟨e, he⟩ := MetaSearch.exploreStep_isSome sampleConfig sampleMetaState 0
      (exploredFound 7 1) hlimit
    obtain ⟨hcalls, -, -, -, hbest, -⟩ := MetaSearch.exploreStep_spec he
    exact ⟨e, he, hcalls, hbest⟩

/-- C3, amended.  After an exploratory search that found a solution, better
than the incumbent or not, the search strategy is run once, started from that
result (`stats.newMinValue` and `nhState.solution`); the incumbent of the
meta-search is replaced by the best of that run, and the sizes are reset,
exactly when that best is strictly greater than the incumbent, and is left
unchanged otherwise. -/
theorem C3_climb_after_found_exploration (cfg : NhConfig) (s : MetaSearchState)
    (nhIndex : Nat) (ev : ExploreEvent)
    (hfound : ev.stats.solutionFound = true)
    (hlimit : ∃ v, s.backtrackLimit.value.toRat? = some v ∧
      INT_MIN ≤ cppRound v ∧ cppRound v ≤ INT_MAX) :
    ∃ e, MetaSearch.exploreStep cfg s nhIndex ev = some e ∧
      e.climbCalls =
        [{ initSolutionValue := ev.stats.newMinValue, initSolution := ev.solution }] ∧
      (e.success = true ↔
        (ev.climb ev.stats.newMinValue ev.solution).bestSolutionValue > s.bestSolutionValue) ∧
      (e.success = true →
        e.state.bestSolutionValue =
            (ev.climb ev.stats.newMinValue ev.solution).bestSolutionValue ∧
          e.state.bestSolution = (ev.climb ev.stats.newMinValue ev.solution).bestSolution ∧
          e.state.minNeighbourhoodSize = 1 ∧ e.state.neighbourhoodSizeOffset = 0) ∧
      (e.success = false →
        e.state.bestSolutionValue = s.bestSolutionValue ∧
          e.state.bestSolution = s.bestSolution) ∧
      e.state.backtrackLimit = s.backtrackLimit := by
  obtain ⟨e, he⟩ := MetaSearch.exploreStep_isSome cfg s nhIndex ev hlimit
  obtain ⟨hcalls, hiff, hsucc, hfail, -, hlim⟩ := MetaSearch.exploreStep_spec he
  refine ⟨e, he, hcalls, hiff, hsucc, fun h => ⟨(hfail h).1, (hfail h).2.1⟩, ?_⟩
  rw [hlim, hfound]
  rfl

/-- C3, an instance: from the incumbent 10 a found exploratory solution of
value 7 starts a run of the strategy that reaches 12, which replaces the
incumbent. -/
theorem C3_climb_after_found_exploration_witness :
    ∃ e, MetaSearch.exploreStep sampleConfig sampleMetaState 0 (exploredFound 7 5) = some e ∧
      e.climbCalls = [{ initSolutionValue := 7, initSolution := [7] }] ∧
      e.success = true ∧ e.state.bestSolutionValue = 12 := by
  have h1 : cppRound (22 : ℚ) = 22 := by simpa using cppRound_intCast 22
  obtain ⟨e, he, hcalls, hiff, hsucc, -, -⟩ :=
    C3_climb_after_found_exploration sampleConfig sampleMetaState 0 (exploredFound 7 5) rfl
      ⟨22, toRat?_ofInt_22, by simp [h1, INT_MIN, INT_MAX]⟩
  have hs : e.success = true := hiff.mpr (by simp [exploredFound, gainingClimb, sampleMetaState])
  refine ⟨e, he, hcalls, hs, ?_⟩
  rw [(hsucc hs).1]
  simp [exploredFound, gainingClimb]

/-! ### Finding the next neighbourhood size -/

namespace MetaSearch

theorem deviationInDomain_isSome {nhc : NeighbourhoodContainer} (hwf : nhc.WellFormed)
    {i : Nat} (hi : i < nhc.neighbourhoodCombinations.length)
    (hen : nhc.isCombinationEnabled i = true) (size : Int) :
    ∃ b, deviationInDomain nhc i size = some b := by
  obtain ⟨combination, first, nh, h1, h2, h3⟩ := hwf i hi hen
  exact ⟨nh.deviation.inDomain size, by simp [deviationInDomain, h1, h2, h3]⟩

theorem scanCombinations_eq {nhc : NeighbourhoodContainer} (hwf : nhc.WellFormed)
    (size : Int) :
    ∀ (l acc : List Nat), (∀ i ∈ l, i < nhc.neighbourhoodCombinations.length) →
      scanCombinations nhc size l acc =
        some (acc ++ l.filter (fun i =>
          nhc.isCombinationEnabled i && (deviationInDomain nhc i size == some true))) := by
  intro l
  induction l with
  | nil => intro acc _; simp [scanCombinations]
  | cons i more ih =>
    intro acc hl
    have hmore : ∀ j ∈ more, j < nhc.neighbourhoodCombinations.length :=
      fun j hj => hl j (List.mem_cons_of_mem _ hj)
    unfold scanCombinations
    cases hen : nhc.isCombinationEnabled i with
    | false => simp [ih acc hmore, hen]
    | true =>
      obtain ⟨b, hb⟩ := deviationInDomain_isSome hwf (hl i (List.mem_cons_self _ _)) hen size
      cases b with
      | true => simp [hb, ih (acc ++ [i]) hmore, hen]
      | false => simp [hb, ih acc hmore, hen]

theorem scanCombinations_range {nhc : NeighbourhoodContainer} (hwf : nhc.WellFormed)
    (size : Int) :
    scanCombinations nhc size (List.range nhc.neighbourhoodCombinations.length) [] =
      some (activeCombinationsAt nhc size) := by
  rw [scanCombinations_eq hwf size _ [] (fun i hi => List.mem_range.mp hi)]
  simp [activeCombinationsAt]

theorem findLoop_spec {nhc : NeighbourhoodContainer} (hwf : nhc.WellFormed) :
    ∀ (fuel : Nat) (s : MetaSearchState),
      (nhc.getMaxNeighbourhoodSize + 1 - currentNeighbourhoodSize s).toNat = fuel →
      ∃ active s1, findLoop nhc fuel s = some (active, s1) ∧
        s1 = { s with neighbourhoodSizeOffset := s1.neighbourhoodSizeOffset } ∧
        s.neighbourhoodSizeOffset ≤ s1.neighbourhoodSizeOffset ∧
        (∀ t, currentNeighbourhoodSize s ≤ t → t < currentNeighbourhoodSize s1 →
          activeCombinationsAt nhc t = []) ∧
        ((active ≠ [] ∧ currentNeighbourhoodSize s1 ≤ nhc.getMaxNeighbourhoodSize ∧
            active = activeCombinationsAt nhc (currentNeighbourhoodSize s1)) ∨
          (active = [] ∧ nhc.getMaxNeighbourhoodSize < currentNeighbourhoodSize s1)) := by
  intro fuel
  induction fuel with
  | zero =>
    intro s hfuel
    refine ⟨[], s, rfl, rfl, le_refl _, ?_, Or.inr ⟨rfl, ?_⟩⟩
    · intro t h1 h2
      omega
    · omega
  | succ fuel ih =>
    intro s hfuel
    have hle : currentNeighbourhoodSize s ≤ nhc.getMaxNeighbourhoodSize := by omega
    unfold findLoop
    rw [if_pos hle, scanCombinations_range hwf]
    by_cases hempty : activeCombinationsAt nhc (currentNeighbourhoodSize s) = []
    · obtain ⟨active, s1, hfind, hs1, hoff, hgap, hres⟩ :=
        ih { s with neighbourhoodSizeOffset := s.neighbourhoodSizeOffset + 1 }
          (by simp only [currentNeighbourhoodSize] at hfuel ⊢; omega)
      refine ⟨active, s1, ?_, ?_, ?_, ?_, hres⟩
      · simp [hempty, hfind]
      · rw [hs1]
      · simp only at hoff
        omega
      · intro t h1 h2
        by_cases ht : t = currentNeighbourhoodSize s
        · rw [ht]; exact hempty
        · apply hgap t _ h2
          simp only [currentNeighbourhoodSize] at h1 ht ⊢
          omega
    · refine ⟨activeCombinationsAt nhc (currentNeighbourhoodSize s), s, ?_, rfl, le_refl _,
        ?_, Or.inl ⟨hempty, hle, rfl⟩⟩
      · simp [hempty]
      · intro t h1 h2
        omega

end MetaSearch

/-- C8.  For a container in which every enabled combination has a deviation
variable, and a `std::random_shuffle` that permutes its argument:
`findNextNeighbourhoodSizeWithActiveCombinations`, entered with the size
`s0 = minNeighbourhoodSize + neighbourhoodSizeOffset`, returns; it changes
nothing but `neighbourhoodSizeOffset`; the result is empty exactly when no
size from `s0` to `getMaxNeighbourhoodSize()` has an enabled combination
whose deviation domain contains it; and a non-empty result is a permutation
of the enabled combinations whose deviation domain contains the size
`minNeighbourhoodSize + neighbourhoodSizeOffset` held on return, which is the
smallest size from `s0` to the maximum with such a combination. -/
theorem C8_next_size_with_active_combinations (nhc : NeighbourhoodContainer)
    (random_shuffle : List Nat → List Nat) (s : MetaSearchState)
    (hwf : nhc.WellFormed) (hperm : ∀ l, (random_shuffle l).Perm l) :
    ∃ available s1,
      MetaSearch.findNextNeighbourhoodSizeWithActiveCombinations nhc random_shuffle s =
        some (available, s1) ∧
      s1 = { s with neighbourhoodSizeOffset := s1.neighbourhoodSizeOffset } ∧
      (available = [] ↔
        ∀ t, MetaSearch.currentNeighbourhoodSize s ≤ t → t ≤ nhc.getMaxNeighbourhoodSize →
          activeCombinationsAt nhc t = []) ∧
      (available ≠ [] →
        MetaSearch.currentNeighbourhoodSize s ≤ MetaSearch.currentNeighbourhoodSize s1 ∧
        MetaSearch.currentNeighbourhoodSize s1 ≤ nhc.getMaxNeighbourhoodSize ∧
        activeCombinationsAt nhc (MetaSearch.currentNeighbourhoodSize s1) ≠ [] ∧
        available.Perm (activeCombinationsAt nhc (MetaSearch.currentNeighbourhoodSize s1)) ∧
        (∀ i, i ∈ available ↔
          i < nhc.neighbourhoodCombinations.length ∧ nhc.isCombinationEnabled i = true ∧
            MetaSearch.deviationInDomain nhc i (MetaSearch.currentNeighbourhoodSize s1) =
              some true) ∧
        ∀ t, MetaSearch.currentNeighbourhoodSize s ≤ t →
          t < MetaSearch.currentNeighbourhoodSize s1 → activeCombinationsAt nhc t = []) := by
  obtain ⟨active, s1, hfind, hs1, hoff, hgap, hres⟩ :=
    MetaSearch.findLoop_spec hwf _ s rfl
  have hcur : MetaSearch.currentNeighbourhoodSize s ≤ MetaSearch.currentNeighbourhoodSize s1 := by
    have hmin : s1.minNeighbourhoodSize = s.minNeighbourhoodSize := by rw [hs1]
    simp only [MetaSearch.currentNeighbourhoodSize]
    omega
  rcases hres with ⟨hne, hmax, hact⟩ | ⟨hnil, hmax⟩
  · refine ⟨random_shuffle active, s1, ?_, hs1, ?_, ?_⟩
    · unfold MetaSearch.findNextNeighbourhoodSizeWithActiveCombinations
      rw [hfind]
      have : active.isEmpty = false := by
        cases active with
        | nil => exact absurd rfl hne
        | cons a l => rfl
      simp [this]
    · have hsne : random_shuffle active ≠ [] := by
        intro h
        have := (hperm active).length_eq
        rw [h] at this
        exact hne (List.length_eq_zero.mp this.symm)
      constructor
      · intro h
        exact absurd h hsne
      · intro h
        have := h _ hcur hmax
        rw [← hact] at this
        exact absurd this hne
    · intro _
      refine ⟨hcur, hmax, by rw [← hact]; exact hne, by rw [← hact]; exact hperm active,
        ?_, hgap⟩
      intro i
      rw [(hperm active).mem_iff, hact]
      simp [activeCombinationsAt]
  · subst hnil
    refine ⟨[], s1, ?_, hs1, ?_, fun h => absurd rfl h⟩
    · unfold MetaSearch.findNextNeighbourhoodSizeWithActiveCombinations
      rw [hfind]
      simp
    · constructor
      · intro _ t h1 h2
        exact hgap t h1 (by omega)
      · intro _
        rfl

theorem holedContainer_wellFormed : holedContainer.WellFormed := by
  intro i hi _
  have hi3 : i < 3 := hi
  interval_cases i
  · exact ⟨_, _, _, rfl, rfl, rfl⟩
  · exact ⟨_, _, _, rfl, rfl, rfl⟩
  · exact ⟨_, _, _, rfl, rfl, rfl⟩

/-- C8, an instance: three combinations, the second disabled, deviation
domains `{3}` and `{3, 4}`, maximum size 4, a shuffle that reverses.  Entered
at size 1 the method skips the sizes 1 and 2, stops at size 3 with the offset
2 and returns the combinations 0 and 2 in shuffled order. -/
theorem C8_next_size_with_active_combinations_witness :
    MetaSearch.findNextNeighbourhoodSizeWithActiveCombinations holedContainer List.reverse
        sampleMetaState =
      some ([2, 0], { sampleMetaState with neighbourhoodSizeOffset := 2 }) ∧
    ([2, 0] : List Nat).Perm (activeCombinationsAt holedContainer 3) ∧
    activeCombinationsAt holedContainer 1 = [] ∧
    activeCombinationsAt holedContainer 2 = [] := by
  have heval : MetaSearch.findNextNeighbourhoodSizeWithActiveCombinations holedContainer
      List.reverse sampleMetaState =
      some ([2, 0], { sampleMetaState with neighbourhoodSizeOffset := 2 }) := by
    simp [MetaSearch.findNextNeighbourhoodSizeWithActiveCombinations, MetaSearch.findLoop,
      MetaSearch.scanCombinations, MetaSearch.deviationInDomain, holedContainer,
      sampleMetaState, MetaSearch.currentNeighbourhoodSize, List.range_succ]
  obtain ⟨available, s1, hfind, -, -, hne⟩ :=
    C8_next_size_with_active_combinations holedContainer List.reverse sampleMetaState
      holedContainer_wellFormed (fun l => List.reverse_perm l)
  rw [heval] at hfind
  simp only [Option.some.injEq, Prod.mk.injEq] at hfind
  obtain ⟨ha, hs⟩ := hfind
  subst ha
  subst hs
  obtain ⟨-, -, -, hperm, -, hgap⟩ := hne (by simp)
  have hcur : MetaSearch.currentNeighbourhoodSize
      { sampleMetaState with neighbourhoodSizeOffset := 2 } = 3 := by
    simp [MetaSearch.currentNeighbourhoodSize, sampleMetaState]
  rw [hcur] at hperm hgap
  refine ⟨heval, hperm, hgap 1 ?_ (by norm_num), hgap 2 ?_ (by norm_num)⟩
  · simp [MetaSearch.currentNeighbourhoodSize, sampleMetaState]
  · simp [MetaSearch.currentNeighbourhoodSize, sampleMetaState]

/-! ### Rounds of the meta-search -/

namespace MetaSearch

theorem findLoop_frame (nhc : NeighbourhoodContainer) :
    ∀ (fuel : Nat) (s s1 : MetaSearchState) (active : List Nat),
      findLoop nhc fuel s = some (active, s1) →
      s1 = { s with neighbourhoodSizeOffset := s1.neighbourhoodSizeOffset } := by
  intro fuel
  induction fuel with
  | zero =>
    intro s s1 active h
    simp only [findLoop, Option.some.injEq, Prod.mk.injEq] at h
    rw [← h.2]
  | succ fuel ih =>
    intro s s1 active h
    unfold findLoop at h
    split at h
    · split at h
      · exact absurd h (by simp)
      · split at h
        · simp only [Option.some.injEq, Prod.mk.injEq] at h
          rw [← h.2]
        · have := ih _ s1 active h
          rw [this]
    · simp only [Option.some.injEq, Prod.mk.injEq] at h
      rw [← h.2]

theorem findNext_frame {nhc : NeighbourhoodContainer} {random_shuffle : List Nat → List Nat}
    {s s1 : MetaSearchState} {available : List Nat}
    (h : findNextNeighbourhoodSizeWithActiveCombinations nhc random_shuffle s =
      some (available, s1)) :
    s1 = { s with neighbourhoodSizeOffset := s1.neighbourhoodSizeOffset } := by
  unfold findNextNeighbourhoodSizeWithActiveCombinations at h
  split at h
  · exact absurd h (by simp)
  · rename_i active s0 hloop
    have hframe := findLoop_frame nhc _ s s0 active hloop
    split at h <;>
      (simp only [Option.some.injEq, Prod.mk.injEq] at h; rw [← h.2]; exact hframe)

theorem exploreLoop_spec (cfg : NhConfig) :
    ∀ (available : List Nat) (events : List ExploreEvent) (s r : MetaSearchState),
      (exploreLoop cfg s available events = Outcome.finished (r, false) →
        r.bestSolutionValue = s.bestSolutionValue ∧ r.bestSolution = s.bestSolution ∧
          r.minNeighbourhoodSize = s.minNeighbourhoodSize ∧
          r.neighbourhoodSizeOffset = s.neighbourhoodSizeOffset ∧
          available.length ≤ events.length ∧
          ∀ ev ∈ events.take available.length,
            (ev.climb ev.stats.newMinValue ev.solution).bestSolutionValue ≤
              s.bestSolutionValue) ∧
      (exploreLoop cfg s available events = Outcome.finished (r, true) →
        s.bestSolutionValue < r.bestSolutionValue ∧ r.minNeighbourhoodSize = 1 ∧
          r.neighbourhoodSizeOffset = 0) ∧
      (∀ b, exploreLoop cfg s available events = Outcome.running (r, b) →
        r.bestSolutionValue = s.bestSolutionValue ∧ r.bestSolution = s.bestSolution) := by
  intro available
  induction available with
  | nil =>
    intro events s r
    refine ⟨?_, ?_, ?_⟩
    · intro h
      simp only [exploreLoop, Outcome.finished.injEq, Prod.mk.injEq] at h
      rw [← h.1]
      simp
    · intro h
      simp [exploreLoop] at h
    · intro b h
      simp [exploreLoop] at h
  | cons nhIndex more ih =>
    intro events s r
    cases events with
    | nil =>
      refine ⟨?_, ?_, ?_⟩
      · intro h
        simp [exploreLoop] at h
      · intro h
        simp [exploreLoop] at h
      · intro b h
        simp only [exploreLoop, Outcome.running.injEq, Prod.mk.injEq] at h
        rw [← h.1]
        simp
    | cons ev evs =>
      cases he : exploreStep cfg s nhIndex ev with
      | none =>
        refine ⟨?_, ?_, ?_⟩ <;> intros <;> simp_all [exploreLoop]
      | some e =>
        obtain ⟨-, hiff, hsucc, hfail, -, -⟩ := exploreStep_spec he
        cases hs : e.success with
        | true =>
          have hgt := hiff.mp hs
          refine ⟨?_, ?_, ?_⟩
          · intro h
            simp [exploreLoop, he, hs] at h
          · intro h
            simp only [exploreLoop, he, hs, if_true, Outcome.finished.injEq, Prod.mk.injEq,
              and_true] at h
            rw [← h, (hsucc hs).1]
            exact ⟨hgt, (hsucc hs).2.2.1, (hsucc hs).2.2.2⟩
          · intro b h
            simp [exploreLoop, he, hs] at h
        | false =>
          have hle : (ev.climb ev.stats.newMinValue ev.solution).bestSolutionValue ≤
              s.bestSolutionValue := by
            by_contra hcon
            have := hiff.mpr (lt_of_not_le hcon)
            rw [hs] at this
            exact Bool.false_ne_true this
          obtain ⟨hv, hsol, hmin, hoff⟩ := hfail hs
          obtain ⟨ih1, ih2, ih3⟩ := ih evs e.state r
          refine ⟨?_, ?_, ?_⟩
          · intro h
            simp only [exploreLoop, he, hs, Bool.false_eq_true, if_false] at h
            obtain ⟨h1, h2, h3, h4, h5, h6⟩ := ih1 h
            refine ⟨h1.trans hv, h2.trans hsol, h3.trans hmin, h4.trans hoff, ?_, ?_⟩
            · simp only [List.length_cons]
              omega
            · intro ev' hmem
              simp only [List.length_cons, List.take_succ_cons, List.mem_cons] at hmem
              rcases hmem with h | h
              · rw [h]; exact hle
              · rw [← hv]; exact h6 ev' h
          · intro h
            simp only [exploreLoop, he, hs, Bool.false_eq_true, if_false] at h
            obtain ⟨h1, h2, h3⟩ := ih2 h
            exact ⟨by rw [← hv]; exact h1, h2, h3⟩
          · intro b h
            simp only [exploreLoop, he, hs, Bool.false_eq_true, if_false] at h
            obtain ⟨h1, h2⟩ := ih3 b h
            exact ⟨h1.trans hv, h2.trans hsol⟩

theorem randomClimbUntilBetter_spec :
    ∀ (events : List RandomSearchEvent) (s s1 : MetaSearchState),
      randomClimbUntilBetter s events = some s1 →
      ∃ pre ev post, events = pre ++ ev :: post ∧
        (∀ e ∈ pre, e.stats.newMinValue ≤ s.bestSolutionValue) ∧
        s.bestSolutionValue < ev.stats.newMinValue ∧
        s1.bestSolutionValue = ev.stats.newMinValue ∧ s1.bestSolution = ev.solution ∧
        s1.minNeighbourhoodSize = s.minNeighbourhoodSize ∧
        s1.neighbourhoodSizeOffset = s.neighbourhoodSizeOffset := by
  intro events
  induction events with
  | nil =>
    intro s s1 h
    simp [randomClimbUntilBetter] at h
  | cons ev rest ih =>
    intro s s1 h
    unfold randomClimbUntilBetter at h
    by_cases hgt : ev.stats.newMinValue > s.bestSolutionValue
    · simp only [hgt, if_true, Option.some.injEq] at h
      refine ⟨[], ev, rest, rfl, by simp, hgt, ?_, ?_, ?_, ?_⟩ <;> rw [← h]
    · simp only [hgt, if_false] at h
      obtain ⟨pre, ev', post, h1, h2, h3, h4, h5, h6, h7⟩ := ih _ s1 h
      refine ⟨ev :: pre, ev', post, by rw [h1]; rfl, ?_, h3, h4, h5, h6, h7⟩
      intro e hmem
      rcases List.mem_cons.mp hmem with h | h
      · rw [h]; exact not_lt.mp hgt
      · exact h2 e h

theorem randomClimbUntilBetter_isSome :
    ∀ (events : List RandomSearchEvent) (s : MetaSearchState),
      (∃ ev ∈ events, s.bestSolutionValue < ev.stats.newMinValue) →
      ∃ s1, randomClimbUntilBetter s events = some s1 := by
  intro events
  induction events with
  | nil =>
    intro s h
    obtain ⟨ev, hmem, -⟩ := h
    simp at hmem
  | cons ev rest ih =>
    intro s h
    unfold randomClimbUntilBetter
    by_cases hgt : ev.stats.newMinValue > s.bestSolutionValue
    · simp only [hgt, if_true]
      exact ⟨_, rfl⟩
    · simp only [hgt, if_false]
      apply ih
      obtain ⟨ev', hmem, hlt⟩ := h
      rcases List.mem_cons.mp hmem with h | h
      · rw [h] at hlt
        exact absurd hlt hgt
      · exact ⟨ev', h, hlt⟩

theorem outerIteration_mono {cfg : NhConfig} {nhc : NeighbourhoodContainer}
    {s : MetaSearchState} {ev : RoundEvent} :
    (∀ r, outerIteration cfg nhc s ev = Outcome.running r →
      s.bestSolutionValue ≤ r.bestSolutionValue) ∧
    (∀ r, outerIteration cfg nhc s ev = Outcome.finished r →
      s.bestSolutionValue ≤ r.bestSolutionValue) := by
  unfold outerIteration
  cases hfind : findNextNeighbourhoodSizeWithActiveCombinations nhc ev.random_shuffle s with
  | none => simp
  | some found =>
    obtain ⟨available, s1⟩ := found
    have hframe := findNext_frame hfind
    have hbest : s1.bestSolutionValue = s.bestSolutionValue := by rw [hframe]
    simp only
    by_cases hempty : available.isEmpty = true
    · simp only [hempty, if_true]
      cases hclimb : randomClimbUntilBetter s1 ev.randomSearches with
      | none =>
        simp only [Outcome.running.injEq, forall_eq', reduceCtorEq, false_implies,
          implies_true, and_true]
        exact le_of_eq hbest.symm
      | some s2 =>
        obtain ⟨_, ev', _, -, -, hlt, hval, -, -, -⟩ :=
          randomClimbUntilBetter_spec _ _ _ hclimb
        simp only [reduceCtorEq, false_implies, implies_true, Outcome.finished.injEq,
          forall_eq', true_and]
        show s.bestSolutionValue ≤ s2.bestSolutionValue
        rw [hval, ← hbest]
        exact le_of_lt hlt
    · simp only [hempty, Bool.false_eq_true, if_false]
      unfold exploreRound
      cases hloop : exploreLoop cfg s1 available ev.explorations with
      | undefined => simp
      | running r =>
        obtain ⟨r, b⟩ := r
        have := ((exploreLoop_spec cfg available ev.explorations s1 r).2.2 b hloop).1
        simp only [Outcome.running.injEq, forall_eq', reduceCtorEq, false_implies,
          implies_true, and_true]
        rw [this, hbest]
      | finished r =>
        obtain ⟨r, b⟩ := r
        cases b with
        | false =>
          have := ((exploreLoop_spec cfg available ev.explorations s1 r).1 hloop).1
          simp only [Bool.not_false, if_true, reduceCtorEq, false_implies, implies_true,
            Outcome.finished.injEq, forall_eq', true_and]
          show s.bestSolutionValue ≤ r.bestSolutionValue
          rw [this, hbest]
        | true =>
          have := ((exploreLoop_spec cfg available ev.explorations s1 r).2.1 hloop).1
          simp only [Bool.not_true, Bool.false_eq_true, if_false, reduceCtorEq, false_implies,
            implies_true, Outcome.finished.injEq, forall_eq', true_and]
          rw [← hbest]
          exact le_of_lt this

theorem outerLoop_mono (cfg : NhConfig) (nhc : NeighbourhoodContainer) :
    ∀ (rounds : List RoundEvent) (s s1 : MetaSearchState),
      outerLoop cfg nhc s rounds = some s1 → s.bestSolutionValue ≤ s1.bestSolutionValue := by
  intro rounds
  induction rounds with
  | nil =>
    intro s s1 h
    simp only [outerLoop, Option.some.injEq] at h
    rw [h]
  | cons ev rest ih =>
    intro s s1 h
    unfold outerLoop at h
    cases hit : outerIteration cfg nhc s ev with
    | undefined => simp [hit] at h
    | running r =>
      simp only [hit, Option.some.injEq] at h
      rw [← h]
      exact outerIteration_mono.1 r hit
    | finished r =>
      simp only [hit] at h
      exact le_trans (outerIteration_mono.2 r hit) (ih r s1 h)

end MetaSearch

/-- C9.  (1) When the outer loop of `MetaSearch::run` is entered,
`minNeighbourhoodSize` is 1 and the offset is 0.  (2) A round in which the
`for` loop explores every combination of the shuffled set without the best of
the search strategy exceeding the incumbent ends with `minNeighbourhoodSize`
doubled, and with the offset, `bestSolutionValue` and `bestSolution` as they
were when the set was found.  (3) A round in which some exploration is
followed by an improvement ends with `minNeighbourhoodSize = 1`, the offset 0
and a strictly larger incumbent value.  (4), (5) The same for a whole
iteration of the outer loop, where the offset is the one at which
`findNextNeighbourhoodSizeWithActiveCombinations` found the set.  (6) In
particular a first round without improvement leaves
`minNeighbourhoodSize = 2`. -/
theorem C9_round_doubles_or_resets (cfg : NhConfig) (nhc : NeighbourhoodContainer) :
    (∀ s climbed, (MetaSearch.enterLoop s climbed).minNeighbourhoodSize = 1 ∧
      (MetaSearch.enterLoop s climbed).neighbourhoodSizeOffset = 0) ∧
    (∀ s available explorations s1,
      MetaSearch.exploreLoop cfg s available explorations = Outcome.finished (s1, false) →
      (available.length ≤ explorations.length ∧
        ∀ ev ∈ explorations.take available.length,
          (ev.climb ev.stats.newMinValue ev.solution).bestSolutionValue ≤
            s.bestSolutionValue) ∧
      ∃ s2, MetaSearch.exploreRound cfg s available explorations = Outcome.finished s2 ∧
        s2.minNeighbourhoodSize = 2 * s.minNeighbourhoodSize ∧
        s2.neighbourhoodSizeOffset = s.neighbourhoodSizeOffset ∧
        s2.bestSolutionValue = s.bestSolutionValue ∧ s2.bestSolution = s.bestSolution) ∧
    (∀ s available explorations s1,
      MetaSearch.exploreLoop cfg s available explorations = Outcome.finished (s1, true) →
      MetaSearch.exploreRound cfg s available explorations = Outcome.finished s1 ∧
        s1.minNeighbourhoodSize = 1 ∧ s1.neighbourhoodSizeOffset = 0 ∧
        s.bestSolutionValue < s1.bestSolutionValue) ∧
    (∀ s (ev : RoundEvent) available s1 s2,
      MetaSearch.findNextNeighbourhoodSizeWithActiveCombinations nhc ev.random_shuffle s =
        some (available, s1) →
      available ≠ [] →
      MetaSearch.exploreLoop cfg s1 available ev.explorations = Outcome.finished (s2, false) →
      ∃ s3, MetaSearch.outerIteration cfg nhc s ev = Outcome.finished s3 ∧
        s3.minNeighbourhoodSize = 2 * s.minNeighbourhoodSize ∧
        s3.neighbourhoodSizeOffset = s1.neighbourhoodSizeOffset ∧
        s3.bestSolutionValue = s.bestSolutionValue ∧ s3.bestSolution = s.bestSolution) ∧
    (∀ s (ev : RoundEvent) available s1 s2,
      MetaSearch.findNextNeighbourhoodSizeWithActiveCombinations nhc ev.random_shuffle s =
        some (available, s1) →
      available ≠ [] →
      MetaSearch.exploreLoop cfg s1 available ev.explorations = Outcome.finished (s2, true) →
      MetaSearch.outerIteration cfg nhc s ev = Outcome.finished s2 ∧
        s2.minNeighbourhoodSize = 1 ∧ s2.neighbourhoodSizeOffset = 0 ∧
        s.bestSolutionValue < s2.bestSolutionValue) ∧
    (∀ s climbed (ev : RoundEvent) available s1 s2,
      MetaSearch.findNextNeighbourhoodSizeWithActiveCombinations nhc ev.random_shuffle
          (MetaSearch.enterLoop s climbed) = some (available, s1) →
      available ≠ [] →
      MetaSearch.exploreLoop cfg s1 available ev.explorations = Outcome.finished (s2, false) →
      ∃ s3, MetaSearch.outerLoop cfg nhc (MetaSearch.enterLoop s climbed) [ev] = some s3 ∧
        s3.minNeighbourhoodSize = 2) := by
  have hround : ∀ s available explorations s1,
      MetaSearch.exploreLoop cfg s available explorations = Outcome.finished (s1, false) →
      (available.length ≤ explorations.length ∧
        ∀ ev ∈ explorations.take available.length,
          (ev.climb ev.stats.newMinValue ev.solution).bestSolutionValue ≤
            s.bestSolutionValue) ∧
      ∃ s2, MetaSearch.exploreRound cfg s available explorations = Outcome.finished s2 ∧
        s2.minNeighbourhoodSize = 2 * s.minNeighbourhoodSize ∧
        s2.neighbourhoodSizeOffset = s.neighbourhoodSizeOffset ∧
        s2.bestSolutionValue = s.bestSolutionValue ∧ s2.bestSolution = s.bestSolution := by
    intro s available explorations s1 h
    obtain ⟨h1, h2, h3, h4, h5, h6⟩ :=
      (MetaSearch.exploreLoop_spec cfg available explorations s s1).1 h
    refine ⟨⟨h5, h6⟩, { s1 with minNeighbourhoodSize := s1.minNeighbourhoodSize * 2 }, ?_, ?_,
      h4, h1, h2⟩
    · simp [MetaSearch.exploreRound, h]
    · show s1.minNeighbourhoodSize * 2 = 2 * s.minNeighbourhoodSize
      rw [h3]
      ring
  have hsuccess : ∀ s available explorations s1,
      MetaSearch.exploreLoop cfg s available explorations = Outcome.finished (s1, true) →
      MetaSearch.exploreRound cfg s available explorations = Outcome.finished s1 ∧
        s1.minNeighbourhoodSize = 1 ∧ s1.neighbourhoodSizeOffset = 0 ∧
        s.bestSolutionValue < s1.bestSolutionValue := by
    intro s available explorations s1 h
    obtain ⟨h1, h2, h3⟩ := (MetaSearch.exploreLoop_spec cfg available explorations s s1).2.1 h
    exact ⟨by simp [MetaSearch.exploreRound, h], h2, h3, h1⟩
  have hiter : ∀ s (ev : RoundEvent) available s1 s2,
      MetaSearch.findNextNeighbourhoodSizeWithActiveCombinations nhc ev.random_shuffle s =
        some (available, s1) →
      available ≠ [] →
      MetaSearch.exploreLoop cfg s1 available ev.explorations = Outcome.finished (s2, false) →
      ∃ s3, MetaSearch.outerIteration cfg nhc s ev = Outcome.finished s3 ∧
        s3.minNeighbourhoodSize = 2 * s.minNeighbourhoodSize ∧
        s3.neighbourhoodSizeOffset = s1.neighbourhoodSizeOffset ∧
        s3.bestSolutionValue = s.bestSolutionValue ∧ s3.bestSolution = s.bestSolution := by
    intro s ev available s1 s2 hfind hne hloop
    have hframe := MetaSearch.findNext_frame hfind
    obtain ⟨-, s3, hr, h1, h2, h3, h4⟩ := hround s1 available ev.explorations s2 hloop
    have hempty : available.isEmpty = false := by
      cases available with
      | nil => exact absurd rfl hne
      | cons a l => rfl
    refine ⟨s3, ?_, ?_, h2, ?_, ?_⟩
    · simp [MetaSearch.outerIteration, hfind, hempty, hr]
    · rw [h1, hframe]
    · rw [h3, hframe]
    · rw [h4, hframe]
  refine ⟨fun s climbed => ⟨rfl, rfl⟩, hround, hsuccess, hiter, ?_, ?_⟩
  · intro s ev available s1 s2 hfind hne hloop
    have hframe := MetaSearch.findNext_frame hfind
    obtain ⟨hr, h1, h2, h3⟩ := hsuccess s1 available ev.explorations s2 hloop
    have hempty : available.isEmpty = false := by
      cases available with
      | nil => exact absurd rfl hne
      | cons a l => rfl
    refine ⟨?_, h1, h2, ?_⟩
    · simp [MetaSearch.outerIteration, hfind, hempty, hr]
    · have : s1.bestSolutionValue = s.bestSolutionValue := by rw [hframe]
      rw [← this]
      exact h3
  · intro s climbed ev available s1 s2 hfind hne hloop
    obtain ⟨s3, hr, h1, -, -, -⟩ := hiter _ ev available s1 s2 hfind hne hloop
    refine ⟨s3, ?_, ?_⟩
    · simp [MetaSearch.outerLoop, hr]
    · rw [h1]
      rfl

/-- C9, an instance: one combination whose deviation domain is `{1, 2}`.  The
loop is entered with the incumbent 10; the exploratory search at size 1 finds
nothing and the strategy does not improve; after that round
`minNeighbourhoodSize` is 2, the offset is 0 and the incumbent is still
10. -/
theorem C9_round_doubles_or_resets_witness :
    ∃ s3, MetaSearch.run sampleConfig twoSizesContainer (MetaSearch.construct sampleConfig 0 0 [])
          10 [10] idleClimb [failedRound] = some s3 ∧
      s3.minNeighbourhoodSize = 2 ∧ s3.neighbourhoodSizeOffset = 0 ∧
      s3.bestSolutionValue = 10 := by
  have hfind : MetaSearch.findNextNeighbourhoodSizeWithActiveCombinations twoSizesContainer
      failedRound.random_shuffle
      (MetaSearch.enterLoop (MetaSearch.construct sampleConfig 0 0 []) (idleClimb 10 [10])) =
      some ([0],
        MetaSearch.enterLoop (MetaSearch.construct sampleConfig 0 0 []) (idleClimb 10 [10])) := by
    simp [MetaSearch.findNextNeighbourhoodSizeWithActiveCombinations, MetaSearch.findLoop,
      MetaSearch.scanCombinations, MetaSearch.deviationInDomain, twoSizesContainer,
      MetaSearch.enterLoop, MetaSearch.construct, MetaSearch.resetNeighbourhoodSize,
      MetaSearch.currentNeighbourhoodSize, failedRound, idleClimb, List.range_succ]
  have hloop : MetaSearch.exploreLoop sampleConfig
      (MetaSearch.enterLoop (MetaSearch.construct sampleConfig 0 0 []) (idleClimb 10 [10])) [0]
      failedRound.explorations =
      Outcome.finished
        ({ minNeighbourhoodSize := 1
           neighbourhoodSizeOffset := 0
           backtrackLimit := { value := Double.ofInt 33
                               multiplier := Double.ofRatio false 3 2
                               increment := Double.ofInt 0 }
           bestSolution := [10]
           bestSolutionValue := 10
           searchStrategyBestSolution := [4]
           searchStrategyBestSolutionValue := 4
           solution := [4] }, false) := by
    simp [MetaSearch.exploreLoop, MetaSearch.exploreStep, MetaSearch.runNeighbourhood,
      MetaSearch.enterLoop, MetaSearch.construct, MetaSearch.resetNeighbourhoodSize,
      failedRound, exploredNothing, idleClimb, sampleConfig, sample_getValue_22,
      sample_increase_22]
  obtain ⟨s3, hiter, hmin, hoff, hbest, -⟩ :=
    (C9_round_doubles_or_resets sampleConfig twoSizesContainer).2.2.2.1
      (MetaSearch.enterLoop (MetaSearch.construct sampleConfig 0 0 []) (idleClimb 10 [10]))
      failedRound [0] _ _ hfind (by simp) hloop
  refine ⟨s3, ?_, ?_, ?_, ?_⟩
  · simp [MetaSearch.run, MetaSearch.outerLoop, hiter]
  · rw [hmin]; rfl
  · rw [hoff]; rfl
  · rw [hbest]; rfl

/-- C10.  (1) One iteration of the `for` loop of `MetaSearch::run` leaves
`bestSolutionValue` unchanged or strictly increases it.  (2) When
`randomClimbUntilBetter` returns, the last search it made reported a value
strictly greater than the incumbent at entry, every earlier one a value not
greater, and `bestSolutionValue` and `bestSolution` are that value and the
solution of that search; (3) it does return once a search reports a value
greater than the incumbent.  (4) Along the outer loop, and (5) along `run`
from the moment the result of the first climb has been copied,
`bestSolutionValue` never decreases. -/
theorem C10_meta_incumbent_monotone (cfg : NhConfig) (nhc : NeighbourhoodContainer) :
    (∀ s nhIndex ev e, MetaSearch.exploreStep cfg s nhIndex ev = some e →
      e.state.bestSolutionValue = s.bestSolutionValue ∨
        s.bestSolutionValue < e.state.bestSolutionValue) ∧
    (∀ s events s1, MetaSearch.randomClimbUntilBetter s events = some s1 →
      ∃ pre ev post, events = pre ++ ev :: post ∧
        (∀ e ∈ pre, e.stats.newMinValue ≤ s.bestSolutionValue) ∧
        s.bestSolutionValue < ev.stats.newMinValue ∧
        s1.bestSolutionValue = ev.stats.newMinValue ∧ s1.bestSolution = ev.solution) ∧
    (∀ s events, (∃ ev ∈ events, s.bestSolutionValue < ev.stats.newMinValue) →
      ∃ s1, MetaSearch.randomClimbUntilBetter s events = some s1) ∧
    (∀ s rounds s1, MetaSearch.outerLoop cfg nhc s rounds = some s1 →
      s.bestSolutionValue ≤ s1.bestSolutionValue) ∧
    (∀ s initSolutionValue initSolution initialClimb rounds s1,
      MetaSearch.run cfg nhc s initSolutionValue initSolution initialClimb rounds = some s1 →
      (initialClimb initSolutionValue initSolution).bestSolutionValue ≤
        s1.bestSolutionValue) := by
  refine ⟨?_, ?_, ?_, ?_, ?_⟩
  · intro s nhIndex ev e he
    obtain ⟨-, hiff, hsucc, hfail, -, -⟩ := MetaSearch.exploreStep_spec he
    cases hs : e.success with
    | true =>
      right
      rw [(hsucc hs).1]
      exact hiff.mp hs
    | false =>
      left
      exact (hfail hs).1
  · intro s events s1 h
    obtain ⟨pre, ev, post, h1, h2, h3, h4, h5, -, -⟩ :=
      MetaSearch.randomClimbUntilBetter_spec events s s1 h
    exact ⟨pre, ev, post, h1, h2, h3, h4, h5⟩
  · intro s events h
    exact MetaSearch.randomClimbUntilBetter_isSome events s h
  · intro s rounds s1 h
    exact MetaSearch.outerLoop_mono cfg nhc rounds s s1 h
  · intro s initSolutionValue initSolution initialClimb rounds s1 h
    exact MetaSearch.outerLoop_mono cfg nhc rounds _ s1 h

/-- C10, an instance: from the incumbent 10 the random searches report 8 and
then 12; `randomClimbUntilBetter` returns after the second, with
`bestSolutionValue = 12`. -/
theorem C10_meta_incumbent_monotone_witness :
    ∃ s1, MetaSearch.randomClimbUntilBetter sampleMetaState [randomFound 8, randomFound 12] =
          some s1 ∧
      s1.bestSolutionValue = 12 ∧ s1.bestSolution = [12] ∧
      sampleMetaState.bestSolutionValue < s1.bestSolutionValue := by
  have hclimb : MetaSearch.randomClimbUntilBetter sampleMetaState
      [randomFound 8, randomFound 12] =
      some { sampleMetaState with
              solution := [12], bestSolutionValue := 12, bestSolution := [12] } := by
    simp [MetaSearch.randomClimbUntilBetter, sampleMetaState, randomFound]
  obtain ⟨pre, ev, post, -, -, hlt, hval, -⟩ :=
    (C10_meta_incumbent_monotone sampleConfig twoSizesContainer).2.1 _ _ _ hclimb
  refine ⟨_, hclimb, rfl, rfl, ?_⟩
  rw [← hval] at hlt
  exact hlt

/-! ### The backtrack limit of the meta-search -/

namespace MetaSearch

theorem randomClimbUntilBetter_backtrackLimit :
    ∀ (events : List RandomSearchEvent) (s s1 : MetaSearchState),
      randomClimbUntilBetter s events = some s1 → s1.backtrackLimit = s.backtrackLimit := by
  intro events
  induction events with
  | nil =>
    intro s s1 h
    simp [randomClimbUntilBetter] at h
  | cons ev rest ih =>
    intro s s1 h
    unfold randomClimbUntilBetter at h
    by_cases hgt : ev.stats.newMinValue > s.bestSolutionValue
    · simp only [hgt, if_true, Option.some.injEq] at h
      rw [← h]
    · simp only [hgt, if_false] at h
      have := ih _ s1 h
      exact this

theorem runNeighbourhood_params {cfg : NhConfig} {s s1 : MetaSearchState} {nhIndex : Nat}
    {stats : NeighbourhoodStats} {solution : List Int} {params : SearchParams}
    (h : runNeighbourhood cfg s nhIndex stats solution = some (params, s1)) :
    s.backtrackLimit.getValue = some params.backtrackLimit := by
  unfold runNeighbourhood at h
  cases hv : s.backtrackLimit.getValue with
  | none => simp [hv] at h
  | some limit =>
    simp only [hv] at h
    cases hf : stats.solutionFound <;> simp [hf] at h <;> rw [← h.1]

theorem exploreStep_params {cfg : NhConfig} {s : MetaSearchState} {nhIndex : Nat}
    {ev : ExploreEvent} {e : Exploration} (h : exploreStep cfg s nhIndex ev = some e) :
    s.backtrackLimit.getValue = some e.params.backtrackLimit := by
  unfold exploreStep at h
  cases hr : runNeighbourhood cfg s nhIndex ev.stats ev.solution with
  | none => simp [hr] at h
  | some r =>
    obtain ⟨params, s1⟩ := r
    simp only [hr] at h
    split at h <;> cases h <;> exact runNeighbourhood_params hr

theorem exploreStep_defined_iff (cfg : NhConfig) (s : MetaSearchState) (nhIndex : Nat)
    (ev : ExploreEvent) :
    (∃ e, exploreStep cfg s nhIndex ev = some e) ↔
      ∃ limit, s.backtrackLimit.getValue = some limit := by
  constructor
  · rintro ⟨e, he⟩
    exact ⟨_, exploreStep_params he⟩
  · rintro ⟨limit, hl⟩
    obtain ⟨v, hv, hr, hmin, hmax⟩ := getValue_eq_some hl
    exact exploreStep_isSome cfg s nhIndex ev ⟨v, hv, by rw [hr]; exact ⟨hmin, hmax⟩⟩

end MetaSearch

theorem failedSearches_cons (x : ExploratorySearch) (rest : List ExploratorySearch) :
    failedSearches (x :: rest) =
      (if x.stats.solutionFound then 0 else 1) + failedSearches rest := by
  unfold failedSearches
  cases hx : x.stats.solutionFound <;> simp [List.filter_cons, hx]
  omega

theorem failedSearches_append (a b : List ExploratorySearch) :
    failedSearches (a ++ b) = failedSearches a + failedSearches b := by
  unfold failedSearches
  rw [List.filter_append, List.length_append]

theorem limitsFollow_nil (e : ExponentialIncrementer) : LimitsFollow e [] := by
  intro pre x post h
  cases pre <;> simp at h

theorem limitsFollow_cons {e : ExponentialIncrementer} {x : ExploratorySearch}
    {rest : List ExploratorySearch} (hx : e.getValue = some x.params.backtrackLimit)
    (hrest : LimitsFollow (if x.stats.solutionFound then e else e.increase) rest) :
    LimitsFollow e (x :: rest) := by
  intro pre y post h
  cases pre with
  | nil =>
    simp only [List.nil_append, List.cons.injEq] at h
    rw [← h.1]
    exact hx
  | cons p pre1 =>
    simp only [List.cons_append, List.cons.injEq] at h
    obtain ⟨hp, hrest1⟩ := h
    subst hp
    have := hrest pre1 y post hrest1
    rw [failedSearches_cons]
    cases hf : x.stats.solutionFound with
    | true =>
      simp only [hf, if_true] at this ⊢
      rw [Nat.zero_add]
      exact this
    | false =>
      simp only [hf, Bool.false_eq_true, if_false] at this ⊢
      rw [ExponentialIncrementer.increaseTimes_increase] at this
      rw [Nat.add_comm]
      exact this

theorem limitsFollow_append {e : ExponentialIncrementer} {a b : List ExploratorySearch}
    (ha : LimitsFollow e a) (hb : LimitsFollow (e.increaseTimes (failedSearches a)) b) :
    LimitsFollow e (a ++ b) := by
  intro pre x post h
  rcases List.append_eq_append_iff.mp h with ⟨a1, hpre, hb1⟩ | ⟨c1, ha1, hpost⟩
  · have := hb a1 x post hb1
    rw [ExponentialIncrementer.increaseTimes_add] at this
    rw [hpre, failedSearches_append]
    exact this
  · cases c1 with
    | nil =>
      simp only [List.append_nil] at ha1
      simp only [List.nil_append] at hpost
      have := hb [] x post hpost.symm
      rw [ExponentialIncrementer.increaseTimes_add] at this
      rw [← ha1]
      simpa [failedSearches] using this
    | cons c cs =>
      simp only [List.cons_append, List.cons.injEq] at hpost
      obtain ⟨hc, -⟩ := hpost
      subst hc
      exact ha pre x cs ha1

namespace MetaSearch

theorem exploreLoop_searches (cfg : NhConfig) :
    ∀ (available : List Nat) (events : List ExploreEvent) (s : MetaSearchState),
      LimitsFollow s.backtrackLimit (exploreLoopSearches cfg s available events) ∧
      ∀ r b, (exploreLoop cfg s available events = Outcome.finished (r, b) ∨
          exploreLoop cfg s available events = Outcome.running (r, b)) →
        r.backtrackLimit =
          s.backtrackLimit.increaseTimes
            (failedSearches (exploreLoopSearches cfg s available events)) := by
  intro available
  induction available with
  | nil =>
    intro events s
    refine ⟨by simpa [exploreLoopSearches] using limitsFollow_nil _, ?_⟩
    intro r b h
    simp only [exploreLoop, Outcome.finished.injEq, Prod.mk.injEq, reduceCtorEq, or_false] at h
    rw [← h.1]
    rfl
  | cons nhIndex more ih =>
    intro events s
    cases events with
    | nil =>
      refine ⟨by simpa [exploreLoopSearches] using limitsFollow_nil _, ?_⟩
      intro r b h
      simp only [exploreLoop, reduceCtorEq, Outcome.running.injEq, Prod.mk.injEq,
        false_or] at h
      rw [← h.1]
      rfl
    | cons ev evs =>
      cases he : exploreStep cfg s nhIndex ev with
      | none =>
        refine ⟨by simpa [exploreLoopSearches, he] using limitsFollow_nil _, ?_⟩
        intro r b h
        simp [exploreLoop, he] at h
      | some e =>
        have hlimit := exploreStep_params he
        have hstate := (exploreStep_spec he).2.2.2.2.2
        cases hs : e.success with
        | true =>
          have htrace : exploreLoopSearches cfg s (nhIndex :: more) (ev :: evs) =
              [{ params := e.params, stats := ev.stats }] := by
            simp [exploreLoopSearches, he, hs]
          rw [htrace]
          refine ⟨limitsFollow_cons hlimit (limitsFollow_nil _), ?_⟩
          intro r b h
          simp only [exploreLoop, he, hs, if_true, Outcome.finished.injEq, Prod.mk.injEq,
            reduceCtorEq, or_false] at h
          rw [← h.1, hstate, failedSearches_cons]
          cases ev.stats.solutionFound <;> rfl
        | false =>
          have htrace : exploreLoopSearches cfg s (nhIndex :: more) (ev :: evs) =
              { params := e.params, stats := ev.stats } ::
                exploreLoopSearches cfg e.state more evs := by
            simp [exploreLoopSearches, he, hs]
          rw [htrace]
          obtain ⟨ih1, ih2⟩ := ih evs e.state
          rw [hstate] at ih1
          refine ⟨limitsFollow_cons hlimit ih1, ?_⟩
          intro r b h
          simp only [exploreLoop, he, hs, Bool.false_eq_true, if_false] at h
          rw [ih2 r b h, hstate, failedSearches_cons]
          cases ev.stats.solutionFound with
          | true => simp
          | false =>
            simp only [Bool.false_eq_true, if_false]
            rw [ExponentialIncrementer.increaseTimes_increase, Nat.add_comm]

theorem outerIteration_searches (cfg : NhConfig) (nhc : NeighbourhoodContainer)
    (s : MetaSearchState) (ev : RoundEvent) :
    LimitsFollow s.backtrackLimit (outerIterationSearches cfg nhc s ev) ∧
      ∀ r, (outerIteration cfg nhc s ev = Outcome.finished r ∨
          outerIteration cfg nhc s ev = Outcome.running r) →
        r.backtrackLimit =
          s.backtrackLimit.increaseTimes
            (failedSearches (outerIterationSearches cfg nhc s ev)) := by
  unfold outerIteration outerIterationSearches
  cases hfind : findNextNeighbourhoodSizeWithActiveCombinations nhc ev.random_shuffle s with
  | none =>
    refine ⟨limitsFollow_nil _, ?_⟩
    intro r h
    simp at h
  | some found =>
    obtain ⟨available, s1⟩ := found
    have hframe : s1.backtrackLimit = s.backtrackLimit := by
      rw [findNext_frame hfind]
    by_cases hempty : available.isEmpty = true
    · simp only [hempty, if_true]
      refine ⟨limitsFollow_nil _, ?_⟩
      intro r h
      cases hclimb : randomClimbUntilBetter s1 ev.randomSearches with
      | none =>
        simp only [hclimb, reduceCtorEq, Outcome.running.injEq, false_or] at h
        rw [← h, hframe]
        rfl
      | some s2 =>
        simp only [hclimb, Outcome.finished.injEq, reduceCtorEq, or_false] at h
        rw [← h]
        show s2.backtrackLimit = _
        rw [randomClimbUntilBetter_backtrackLimit _ _ _ hclimb, hframe]
        rfl
    · simp only [hempty, Bool.false_eq_true, if_false]
      obtain ⟨hfollow, hstate⟩ := exploreLoop_searches cfg available ev.explorations s1
      rw [hframe] at hfollow hstate
      refine ⟨hfollow, ?_⟩
      intro r h
      unfold exploreRound at h
      cases hloop : exploreLoop cfg s1 available ev.explorations with
      | undefined => simp [hloop] at h
      | running r1 =>
        obtain ⟨r1, b⟩ := r1
        simp only [hloop, reduceCtorEq, Outcome.running.injEq, false_or] at h
        rw [← h]
        exact hstate r1 b (Or.inr hloop)
      | finished r1 =>
        obtain ⟨r1, b⟩ := r1
        have hr1 := hstate r1 b (Or.inl hloop)
        cases b with
        | false =>
          simp only [hloop, Bool.not_false, if_true, Outcome.finished.injEq, reduceCtorEq,
            or_false] at h
          rw [← h]
          exact hr1
        | true =>
          simp only [hloop, Bool.not_true, Bool.false_eq_true, if_false,
            Outcome.finished.injEq, reduceCtorEq, or_false] at h
          rw [← h]
          exact hr1

theorem outerLoop_searches (cfg : NhConfig) (nhc : NeighbourhoodContainer) :
    ∀ (rounds : List RoundEvent) (s : MetaSearchState),
      LimitsFollow s.backtrackLimit (outerLoopSearches cfg nhc s rounds) ∧
      ∀ r, outerLoop cfg nhc s rounds = some r →
        r.backtrackLimit =
          s.backtrackLimit.increaseTimes
            (failedSearches (outerLoopSearches cfg nhc s rounds)) := by
  intro rounds
  induction rounds with
  | nil =>
    intro s
    refine ⟨limitsFollow_nil _, ?_⟩
    intro r h
    simp only [outerLoop, Option.some.injEq] at h
    rw [← h]
    rfl
  | cons ev rest ih =>
    intro s
    obtain ⟨hfollow, hstate⟩ := outerIteration_searches cfg nhc s ev
    unfold outerLoop outerLoopSearches
    cases hit : outerIteration cfg nhc s ev with
    | undefined =>
      simp only [List.append_nil]
      refine ⟨hfollow, ?_⟩
      intro r h
      simp at h
    | running r1 =>
      simp only [List.append_nil]
      refine ⟨hfollow, ?_⟩
      intro r h
      simp only [Option.some.injEq] at h
      rw [← h]
      exact hstate r1 (Or.inr hit)
    | finished r1 =>
      have hr1 := hstate r1 (Or.inl hit)
      obtain ⟨ih1, ih2⟩ := ih r1
      rw [hr1] at ih1
      refine ⟨limitsFollow_append hfollow ih1, ?_⟩
      intro r h
      simp only at h
      rw [ih2 r h, hr1, ExponentialIncrementer.increaseTimes_add, failedSearches_append]

end MetaSearch

theorem ExponentialIncrementer.increaseTimes_pure (e : ExponentialIncrementer)
    {v0 m : ℚ} (hv : e.value.toRat? = some v0) (hm : e.multiplier.toRat? = some m)
    (hc : e.increment.toRat? = some 0) (k : Nat) (hexact : e.ExactFor k) :
    (e.increaseTimes k).value.toRat? = some (v0 * m ^ k) := by
  induction k with
  | zero =>
    show e.value.toRat? = _
    rw [hv]
    simp
  | succ k ih =>
    have hk := ih (fun i hi => hexact i (Nat.lt_succ_of_lt hi))
    rw [ExponentialIncrementer.exactFor_step hexact hk hm hc]
    congr 1
    ring

theorem rounding_getValue_5 :
    ExponentialIncrementer.getValue
        { value := Double.ofInt 5
          multiplier := Double.ofRatio false 17 10
          increment := Double.ofInt 0 } = some 5 :=
  getValue_of_round _ 5 5 toRat?_ofInt_5 (by simpa using cppRound_intCast 5) (by decide)

theorem rounding_increase_5 :
    ExponentialIncrementer.increase
        { value := Double.ofInt 5
          multiplier := Double.ofRatio false 17 10
          increment := Double.ofInt 0 } =
      { value := Double.ofRatio false 17 2
        multiplier := Double.ofRatio false 17 10
        increment := Double.ofInt 0 } := by
  decide!

theorem rounding_getValue_17_2 :
    ExponentialIncrementer.getValue
        { value := Double.ofRatio false 17 2
          multiplier := Double.ofRatio false 17 10
          increment := Double.ofInt 0 } = some 9 :=
  getValue_of_round _ (17 / 2) 9 toRat?_ofRatio_17_2
    (by apply cppRound_of_nonneg <;> norm_num) (by decide)

theorem large_getValue :
    ExponentialIncrementer.getValue
        { value := Double.ofInt 2147483647
          multiplier := Double.ofRatio false 3 2
          increment := Double.ofInt 0 } = some 2147483647 :=
  getValue_of_round _ 2147483647 2147483647 toRat?_ofInt_2147483647
    (by simpa using cppRound_intCast 2147483647) (by decide)

theorem large_increase :
    ExponentialIncrementer.increase
        { value := Double.ofInt 2147483647
          multiplier := Double.ofRatio false 3 2
          increment := Double.ofInt 0 } =
      { value := Double.ofRatio false 6442450941 2
        multiplier := Double.ofRatio false 3 2
        increment := Double.ofInt 0 } := by
  decide!

theorem toRat?_ofRatio_6442450941_2 :
    (Double.ofRatio false 6442450941 2).toRat? = some (6442450941 / 2) := by
  rw [Double.toRat?_eq _ 6755399437910016 (-21) (by decide!) (by decide!) (by decide!)]
  norm_num

theorem large_getValue_next :
    ExponentialIncrementer.getValue
        { value := Double.ofRatio false 6442450941 2
          multiplier := Double.ofRatio false 3 2
          increment := Double.ofInt 0 } = none := by
  rw [getValue_eq_none]
  intro v hv
  have hv2 : v = 6442450941 / 2 :=
    Option.some.inj (hv.symm.trans toRat?_ofRatio_6442450941_2)
  have hr : cppRound (6442450941 / 2 : ℚ) = 3221225471 := by
    apply cppRound_of_nonneg <;> norm_num
  rw [hv2, hr]
  simp [INT_MAX]

theorem sample_runSearches :
    MetaSearch.runSearches sampleConfig twoSizesContainer (MetaSearch.construct sampleConfig 0 0 [])
        10 [10] idleClimb [failedRound, foundRound] =
      [{ params :=
           { combinationToActivate := 0
             flag3 := true
             flag4 := false
             flag5 := true
             iterationSearchTime := 500
             backtrackLimit := 22
             backtrackInsteadOfTimeLimit := true
             initialNeighbourhoodSize := 1 }
         stats := exploredNothing.stats },
       { params :=
           { combinationToActivate := 0
             flag3 := true
             flag4 := false
             flag5 := true
             iterationSearchTime := 500
             backtrackLimit := 33
             backtrackInsteadOfTimeLimit := true
             initialNeighbourhoodSize := 2 }
         stats := (exploredFound 7 1).stats }] := by
  simp [MetaSearch.runSearches, MetaSearch.outerLoopSearches, MetaSearch.outerIterationSearches,
    MetaSearch.outerIteration, MetaSearch.exploreRound, MetaSearch.exploreLoop,
    MetaSearch.exploreLoopSearches, MetaSearch.exploreStep, MetaSearch.runNeighbourhood,
    MetaSearch.findNextNeighbourhoodSizeWithActiveCombinations, MetaSearch.findLoop,
    MetaSearch.scanCombinations, MetaSearch.deviationInDomain, twoSizesContainer,
    MetaSearch.enterLoop, MetaSearch.construct, MetaSearch.resetNeighbourhoodSize,
    MetaSearch.currentNeighbourhoodSize, failedRound, foundRound, exploredNothing, exploredFound,
    idleClimb, gainingClimb, sampleConfig, sample_getValue_22, sample_getValue_33,
    sample_increase_22, List.range_succ]

theorem rounding_runSearches :
    MetaSearch.runSearches roundingConfig twoSizesContainer
        (MetaSearch.construct roundingConfig 0 0 []) 10 [10] idleClimb
        [failedRound, foundRound] =
      [{ params :=
           { combinationToActivate := 0
             flag3 := true
             flag4 := false
             flag5 := true
             iterationSearchTime := 500
             backtrackLimit := 5
             backtrackInsteadOfTimeLimit := true
             initialNeighbourhoodSize := 1 }
         stats := exploredNothing.stats },
       { params :=
           { combinationToActivate := 0
             flag3 := true
             flag4 := false
             flag5 := true
             iterationSearchTime := 500
             backtrackLimit := 9
             backtrackInsteadOfTimeLimit := true
             initialNeighbourhoodSize := 2 }
         stats := (exploredFound 7 1).stats }] := by
  simp [MetaSearch.runSearches, MetaSearch.outerLoopSearches, MetaSearch.outerIterationSearches,
    MetaSearch.outerIteration, MetaSearch.exploreRound, MetaSearch.exploreLoop,
    MetaSearch.exploreLoopSearches, MetaSearch.exploreStep, MetaSearch.runNeighbourhood,
    MetaSearch.findNextNeighbourhoodSizeWithActiveCombinations, MetaSearch.findLoop,
    MetaSearch.scanCombinations, MetaSearch.deviationInDomain, twoSizesContainer,
    MetaSearch.enterLoop, MetaSearch.construct, MetaSearch.resetNeighbourhoodSize,
    MetaSearch.currentNeighbourhoodSize, failedRound, foundRound, exploredNothing, exploredFound,
    idleClimb, gainingClimb, roundingConfig, sampleConfig, rounding_getValue_5,
    rounding_getValue_17_2, rounding_increase_5, List.range_succ]

theorem largeLimit_runSearches :
    MetaSearch.runSearches largeLimitConfig twoSizesContainer
        (MetaSearch.construct largeLimitConfig 0 0 []) 10 [10] idleClimb
        [failedRound, foundRound] =
      [{ params :=
           { combinationToActivate := 0
             flag3 := true
             flag4 := false
             flag5 := true
             iterationSearchTime := 500
             backtrackLimit := 2147483647
             backtrackInsteadOfTimeLimit := true
             initialNeighbourhoodSize := 1 }
         stats := exploredNothing.stats }] := by
  simp [MetaSearch.runSearches, MetaSearch.outerLoopSearches, MetaSearch.outerIterationSearches,
    MetaSearch.outerIteration, MetaSearch.exploreRound, MetaSearch.exploreLoop,
    MetaSearch.exploreLoopSearches, MetaSearch.exploreStep, MetaSearch.runNeighbourhood,
    MetaSearch.findNextNeighbourhoodSizeWithActiveCombinations, MetaSearch.findLoop,
    MetaSearch.scanCombinations, MetaSearch.deviationInDomain, twoSizesContainer,
    MetaSearch.enterLoop, MetaSearch.construct, MetaSearch.resetNeighbourhoodSize,
    MetaSearch.currentNeighbourhoodSize, failedRound, foundRound, exploredNothing, exploredFound,
    idleClimb, gainingClimb, largeLimitConfig, sampleConfig, large_getValue,
    large_getValue_next, large_increase, List.range_succ]

theorem largeLimit_run :
    MetaSearch.run largeLimitConfig twoSizesContainer
        (MetaSearch.construct largeLimitConfig 0 0 []) 10 [10] idleClimb
        [failedRound, foundRound] = none := by
  simp [MetaSearch.run, MetaSearch.outerLoop,
    MetaSearch.outerIteration, MetaSearch.exploreRound, MetaSearch.exploreLoop,
    MetaSearch.exploreStep, MetaSearch.runNeighbourhood,
    MetaSearch.findNextNeighbourhoodSizeWithActiveCombinations, MetaSearch.findLoop,
    MetaSearch.scanCombinations, MetaSearch.deviationInDomain, twoSizesContainer,
    MetaSearch.enterLoop, MetaSearch.construct, MetaSearch.resetNeighbourhoodSize,
    MetaSearch.currentNeighbourhoodSize, failedRound, foundRound, exploredNothing, exploredFound,
    idleClimb, gainingClimb, largeLimitConfig, sampleConfig, large_getValue,
    large_getValue_next, large_increase, List.range_succ]

/-- C11, the claim fails as stated.  (1) Initial limit 5 and multiplier `1.7`
(the `double` nearest to 17/10, a value `m` slightly below it): the first
exploratory search of the run finds nothing, the limit is multiplied once, the
product is rounded to the `double` 8.5, and the second exploratory search is
passed the limit 9, while `initial * m ^ 1` is below 8.5 and rounds to 8.
(2) Initial limit 2147483647 and multiplier 3/2: after the first failed
exploratory search the value is 3221225470.5, which rounds to no `int`; the
second exploratory search has no defined limit and the run is undefined. -/
theorem C11_limit_is_not_the_rounded_power :
    (∃ v0 m x1 x2,
      roundingConfig.holePuncherInitialBacktrackLimit.toRat? = some v0 ∧
      roundingConfig.holePuncherBacktrackLimitMultiplier.toRat? = some m ∧
      MetaSearch.runSearches roundingConfig twoSizesContainer
          (MetaSearch.construct roundingConfig 0 0 []) 10 [10] idleClimb
          [failedRound, foundRound] = [x1, x2] ∧
      failedSearches [x1] = 1 ∧
      x2.params.backtrackLimit = 9 ∧
      cppRound (v0 * m ^ 1) = 8) ∧
    (∃ v0 m x1,
      largeLimitConfig.holePuncherInitialBacktrackLimit.toRat? = some v0 ∧
      largeLimitConfig.holePuncherBacktrackLimitMultiplier.toRat? = some m ∧
      MetaSearch.runSearches largeLimitConfig twoSizesContainer
          (MetaSearch.construct largeLimitConfig 0 0 []) 10 [10] idleClimb
          [failedRound, foundRound] = [x1] ∧
      failedSearches [x1] = 1 ∧
      MetaSearch.run largeLimitConfig twoSizesContainer
          (MetaSearch.construct largeLimitConfig 0 0 []) 10 [10] idleClimb
          [failedRound, foundRound] = none ∧
      cppRound (v0 * m ^ 1) = 3221225471) := by
  constructor
  · refine ⟨5, 7656119366529843 / 4503599627370496, _, _, toRat?_ofInt_5, toRat?_ofRatio_17_10,
      rounding_runSearches, rfl, rfl, ?_⟩
    apply cppRound_of_nonneg <;> norm_num
  · refine ⟨2147483647, 3 / 2, _, toRat?_ofInt_2147483647, toRat?_ofRatio_3_2,
      largeLimit_runSearches, rfl, largeLimit_run, ?_⟩
    apply cppRound_of_nonneg <;> norm_num

/-- C11, amended.  (1) The incrementer of a `MetaSearch` is built from
`holePuncherInitialBacktrackLimit` and `holePuncherBacktrackLimitMultiplier`
with increment 0, whatever the limit of the hill-climber.  (2) An exploratory
search is defined exactly when `getValue()` of the incrementer is (the value
is finite and rounds to an `int`) and passes that result as backtrack limit;
afterwards the incrementer is unchanged if a solution was found and has been
increased once (the `double` product by the multiplier, plus 0) otherwise,
whatever the search strategy run after it does.  (3) In a run, every
exploratory search is passed `getValue()` of the initial incrementer increased
once for each exploratory search before it that found no solution, and the
incrementer the run ends with is the initial one increased once for each
exploratory search of the run that found no solution.  (4) When none of the
`k` products made before an exploratory search is rounded, the limit it is
passed is `initial * multiplier ^ k` rounded to the nearest integer. -/
theorem C11_meta_backtrack_limit_in_double (cfg : NhConfig) (nhc : NeighbourhoodContainer) :
    (∀ v w sol, (MetaSearch.construct cfg v w sol).backtrackLimit =
      { value := cfg.holePuncherInitialBacktrackLimit
        multiplier := cfg.holePuncherBacktrackLimitMultiplier
        increment := Double.ofInt 0 }) ∧
    (∀ s nhIndex ev,
      ((∃ e, MetaSearch.exploreStep cfg s nhIndex ev = some e) ↔
        ∃ limit, s.backtrackLimit.getValue = some limit) ∧
      ∀ e, MetaSearch.exploreStep cfg s nhIndex ev = some e →
        s.backtrackLimit.getValue = some e.params.backtrackLimit ∧
        (ev.stats.solutionFound = true → e.state.backtrackLimit = s.backtrackLimit) ∧
        (ev.stats.solutionFound = false →
          e.state.backtrackLimit = s.backtrackLimit.increase ∧
          e.state.backtrackLimit.value =
            (s.backtrackLimit.value.mul s.backtrackLimit.multiplier).add
              s.backtrackLimit.increment)) ∧
    (∀ s initSolutionValue initSolution initialClimb rounds,
      LimitsFollow s.backtrackLimit
        (MetaSearch.runSearches cfg nhc s initSolutionValue initSolution initialClimb rounds) ∧
      ∀ s1,
        MetaSearch.run cfg nhc s initSolutionValue initSolution initialClimb rounds = some s1 →
        s1.backtrackLimit =
          s.backtrackLimit.increaseTimes
            (failedSearches
              (MetaSearch.runSearches cfg nhc s initSolutionValue initSolution initialClimb
                rounds))) ∧
    (∀ v w sol initSolutionValue initSolution initialClimb rounds pre x post v0 m,
      MetaSearch.runSearches cfg nhc (MetaSearch.construct cfg v w sol) initSolutionValue
          initSolution initialClimb rounds = pre ++ x :: post →
      cfg.holePuncherInitialBacktrackLimit.toRat? = some v0 →
      cfg.holePuncherBacktrackLimitMultiplier.toRat? = some m →
      (MetaSearch.construct cfg v w sol).backtrackLimit.ExactFor (failedSearches pre) →
      x.params.backtrackLimit = cppRound (v0 * m ^ failedSearches pre)) := by
  have hrun : ∀ s initSolutionValue initSolution initialClimb rounds,
      LimitsFollow s.backtrackLimit
        (MetaSearch.runSearches cfg nhc s initSolutionValue initSolution initialClimb rounds) ∧
      ∀ s1,
        MetaSearch.run cfg nhc s initSolutionValue initSolution initialClimb rounds = some s1 →
        s1.backtrackLimit =
          s.backtrackLimit.increaseTimes
            (failedSearches
              (MetaSearch.runSearches cfg nhc s initSolutionValue initSolution initialClimb
                rounds)) := by
    intro s initSolutionValue initSolution initialClimb rounds
    exact MetaSearch.outerLoop_searches cfg nhc rounds
      (MetaSearch.enterLoop s (initialClimb initSolutionValue initSolution))
  refine ⟨fun _ _ _ => rfl, ?_, hrun, ?_⟩
  · intro s nhIndex ev
    refine ⟨MetaSearch.exploreStep_defined_iff cfg s nhIndex ev, ?_⟩
    intro e he
    obtain ⟨-, -, -, -, -, hlim⟩ := MetaSearch.exploreStep_spec he
    refine ⟨MetaSearch.exploreStep_params he, ?_, ?_⟩
    · intro hfound
      rw [hlim, hfound]
      rfl
    · intro hfound
      rw [hlim, hfound]
      exact ⟨rfl, rfl⟩
  · intro v w sol initSolutionValue initSolution initialClimb rounds pre x post v0 m htrace hv hm
      hexact
    have hlimit := (hrun (MetaSearch.construct cfg v w sol) initSolutionValue initSolution
      initialClimb rounds).1 pre x post htrace
    have hvalue := ExponentialIncrementer.increaseTimes_pure
      (MetaSearch.construct cfg v w sol).backtrackLimit hv hm toRat?_ofInt_0
      (failedSearches pre) hexact
    obtain ⟨u, hu, hround, -⟩ := getValue_eq_some hlimit
    rw [hvalue] at hu
    cases hu
    exact hround.symm

/-- C11, an instance: initial limit 22, multiplier 3/2, one combination whose
deviation domain is `{1, 2}`.  The first exploratory search of the run is
passed 22 and finds nothing; the product 22 * 1.5 = 33 is not rounded, and the
second exploratory search is passed `22 * (3/2) ^ 1 = 33`; it finds a
solution, and the run ends with the initial incrementer increased once. -/
theorem C11_meta_backtrack_limit_in_double_witness :
    ∃ x1 x2 s1,
      MetaSearch.runSearches sampleConfig twoSizesContainer
          (MetaSearch.construct sampleConfig 0 0 []) 10 [10] idleClimb
          [failedRound, foundRound] = [x1, x2] ∧
      MetaSearch.run sampleConfig twoSizesContainer
          (MetaSearch.construct sampleConfig 0 0 []) 10 [10] idleClimb
          [failedRound, foundRound] = some s1 ∧
      failedSearches [x1] = 1 ∧ failedSearches [x1, x2] = 1 ∧
      (MetaSearch.construct sampleConfig 0 0 []).backtrackLimit.ExactFor 1 ∧
      x1.params.backtrackLimit = 22 ∧
      x2.params.backtrackLimit = cppRound (22 * (3 / 2) ^ failedSearches [x1]) ∧
      x2.params.backtrackLimit = 33 ∧
      s1.backtrackLimit =
        (MetaSearch.construct sampleConfig 0 0 []).backtrackLimit.increaseTimes 1 := by
  have hm1 : (Double.ofInt 22).mul (Double.ofRatio false 3 2) = Double.ofInt 33 := by decide!
  have ha1 : (Double.ofInt 33).add (Double.ofInt 0) = Double.ofInt 33 := by decide!
  have hexact : (MetaSearch.construct sampleConfig 0 0 []).backtrackLimit.ExactFor 1 := by
    intro i hi
    interval_cases i
    refine ⟨22, 3 / 2, 0, toRat?_ofInt_22, toRat?_ofRatio_3_2, toRat?_ofInt_0, ?_, ?_⟩
    · show ((Double.ofInt 22).mul (Double.ofRatio false 3 2)).toRat? = _
      rw [hm1, toRat?_ofInt_33]
      norm_num
    · show (((Double.ofInt 22).mul (Double.ofRatio false 3 2)).add (Double.ofInt 0)).toRat? = _
      rw [hm1, ha1, toRat?_ofInt_33]
      norm_num
  obtain ⟨-, -, hrun, hclosed⟩ := C11_meta_backtrack_limit_in_double sampleConfig twoSizesContainer
  have hdefined : ∃ s1, MetaSearch.run sampleConfig twoSizesContainer
      (MetaSearch.construct sampleConfig 0 0 []) 10 [10] idleClimb
      [failedRound, foundRound] = some s1 := by
    simp [MetaSearch.run, MetaSearch.outerLoop,
      MetaSearch.outerIteration, MetaSearch.exploreRound, MetaSearch.exploreLoop,
      MetaSearch.exploreStep, MetaSearch.runNeighbourhood,
      MetaSearch.findNextNeighbourhoodSizeWithActiveCombinations, MetaSearch.findLoop,
      MetaSearch.scanCombinations, MetaSearch.deviationInDomain, twoSizesContainer,
      MetaSearch.enterLoop, MetaSearch.construct, MetaSearch.resetNeighbourhoodSize,
      MetaSearch.currentNeighbourhoodSize, failedRound, foundRound, exploredNothing,
      exploredFound, idleClimb, gainingClimb, sampleConfig, sample_getValue_22,
      sample_getValue_33, sample_increase_22, List.range_succ]
  obtain ⟨s1, hs1⟩ := hdefined
  have hend := (hrun (MetaSearch.construct sampleConfig 0 0 []) 10 [10] idleClimb
    [failedRound, foundRound]).2 s1 hs1
  rw [sample_runSearches] at hend
  have h33 := hclosed 0 0 [] 10 [10] idleClimb [failedRound, foundRound] [_] _ []
    22 (3 / 2) sample_runSearches toRat?_ofInt_22 toRat?_ofRatio_3_2 hexact
  exact ⟨_, _, s1, sample_runSearches, hs1, rfl, rfl, hexact, rfl, h33, rfl, hend⟩

/-! ### Construction of the strategies -/

theorem constructStrategy_aborted_iff (cfg : NhConfig) :
    ∀ c : StrategyClass,
      (c.needsUnimplemented = true → constructStrategy cfg c = Construction.aborted "todo\n") ∧
      (c.needsUnimplemented = false → ∃ object, constructStrategy cfg c =
        Construction.constructed object) := by
  intro c
  induction c with
  | hillClimbingSearch =>
    exact ⟨fun h => by simp [StrategyClass.needsUnimplemented] at h, fun _ => ⟨_, rfl⟩⟩
  | lateAcceptanceHillClimbingSearch =>
    exact ⟨fun _ => rfl, fun h => by simp [StrategyClass.needsUnimplemented] at h⟩
  | simulatedAnnealingSearch =>
    exact ⟨fun _ => rfl, fun h => by simp [StrategyClass.needsUnimplemented] at h⟩
  | metaSearch inner ih =>
    constructor
    · intro h
      simp only [constructStrategy, ih.1 h]
    · intro h
      obtain ⟨object, hobj⟩ := ih.2 h
      simp only [constructStrategy, hobj]
      exact ⟨_, rfl⟩

/-- C12.  The constructors of `LateAcceptanceHillClimbingSearch` and
`SimulatedAnnealingSearch` abort after printing `todo`, and so does the
constructor of a `MetaSearch` around either (at any depth), while every other
strategy class is built.  `MakeNeighbourhoodSearchHelper` aborts for `LAHC`,
`SIMULATED_ANEALING`, `META_WITH_LAHC`, `META_WITH_SIMULATED_ANEALING` and for
every value that is none of the six enumerators; it returns a manager for
`HILL_CLIMBING` (around a hill-climber) and `META_WITH_HILLCLIMBING` (around a
meta-search of a hill-climber), and for no other value. -/
theorem C12_unimplemented_strategies_abort (cfg : NhConfig) :
    constructStrategy cfg StrategyClass.lateAcceptanceHillClimbingSearch =
        Construction.aborted "todo\n" ∧
    constructStrategy cfg StrategyClass.simulatedAnnealingSearch =
        Construction.aborted "todo\n" ∧
    (∀ c : StrategyClass,
      (c.needsUnimplemented = true → constructStrategy cfg c = Construction.aborted "todo\n") ∧
      (c.needsUnimplemented = false →
        ∃ object, constructStrategy cfg c = Construction.constructed object)) ∧
    MakeNeighbourhoodSearchHelper cfg NeighbourhoodSearchStrategy.LAHC =
        Construction.aborted "todo\n" ∧
    MakeNeighbourhoodSearchHelper cfg NeighbourhoodSearchStrategy.SIMULATED_ANEALING =
        Construction.aborted "todo\n" ∧
    MakeNeighbourhoodSearchHelper cfg NeighbourhoodSearchStrategy.META_WITH_LAHC =
        Construction.aborted "todo\n" ∧
    MakeNeighbourhoodSearchHelper cfg NeighbourhoodSearchStrategy.META_WITH_SIMULATED_ANEALING =
        Construction.aborted "todo\n" ∧
    (∀ value, MakeNeighbourhoodSearchHelper cfg (NeighbourhoodSearchStrategy.other value) =
        Construction.aborted "") ∧
    MakeNeighbourhoodSearchHelper cfg NeighbourhoodSearchStrategy.HILL_CLIMBING =
        Construction.constructed { searchStrategy := StrategyObject.hillClimbingSearch } ∧
    MakeNeighbourhoodSearchHelper cfg NeighbourhoodSearchStrategy.META_WITH_HILLCLIMBING =
        Construction.constructed
          { searchStrategy :=
              StrategyObject.metaSearch StrategyObject.hillClimbingSearch 0 0
                { value := cfg.holePuncherInitialBacktrackLimit
                  multiplier := cfg.holePuncherBacktrackLimitMultiplier
                  increment := Double.ofInt 0 } } ∧
    (∀ strategy manager,
      MakeNeighbourhoodSearchHelper cfg strategy = Construction.constructed manager →
      strategy = NeighbourhoodSearchStrategy.HILL_CLIMBING ∨
        strategy = NeighbourhoodSearchStrategy.META_WITH_HILLCLIMBING) := by
  refine ⟨rfl, rfl, constructStrategy_aborted_iff cfg, rfl, rfl, rfl, rfl, fun _ => rfl, rfl,
    rfl, ?_⟩
  intro strategy manager h
  cases strategy with
  | META_WITH_HILLCLIMBING => exact Or.inr rfl
  | HILL_CLIMBING => exact Or.inl rfl
  | META_WITH_LAHC => exact absurd h (by simp [MakeNeighbourhoodSearchHelper, makeManager,
      constructStrategy, constructHillClimbingSearch])
  | META_WITH_SIMULATED_ANEALING => exact absurd h (by simp [MakeNeighbourhoodSearchHelper,
      makeManager, constructStrategy, constructHillClimbingSearch])
  | LAHC => exact absurd h (by simp [MakeNeighbourhoodSearchHelper, makeManager,
      constructStrategy, constructHillClimbingSearch])
  | SIMULATED_ANEALING => exact absurd h (by simp [MakeNeighbourhoodSearchHelper, makeManager,
      constructStrategy, constructHillClimbingSearch])
  | other value => exact absurd h (by simp [MakeNeighbourhoodSearchHelper])

/-- C12, an instance: the manager built for `HILL_CLIMBING` is a built one,
and the selected strategy is therefore one of the two implemented ones. -/
theorem C12_unimplemented_strategies_abort_witness :
    MakeNeighbourhoodSearchHelper sampleConfig NeighbourhoodSearchStrategy.HILL_CLIMBING =
        Construction.constructed { searchStrategy := StrategyObject.hillClimbingSearch } ∧
    (NeighbourhoodSearchStrategy.HILL_CLIMBING = NeighbourhoodSearchStrategy.HILL_CLIMBING ∨
      NeighbourhoodSearchStrategy.HILL_CLIMBING =
        NeighbourhoodSearchStrategy.META_WITH_HILLCLIMBING) :=
  ⟨rfl, (C12_unimplemented_strategies_abort sampleConfig).2.2.2.2.2.2.2.2.2.2
    NeighbourhoodSearchStrategy.HILL_CLIMBING _ rfl⟩

/-! ### Vectors indexed by an `int` -/

theorem vectorUpdate_spec {α : Type} {v v1 : List α} {i : Int} {f : α → α}
    (h : vectorUpdate v i f = some v1) :
    0 ≤ i ∧ i.toNat < v.length ∧ v1.length = v.length ∧
      ∀ j : Nat, v1[j]? = if j = i.toNat then (v[j]?).map f else v[j]? := by
  unfold vectorUpdate at h
  cases hx : vectorAt? v i with
  | none => simp [hx] at h
  | some x =>
    simp only [hx, Option.some.injEq] at h
    subst h
    unfold vectorAt? at hx
    split at hx
    · rename_i h0
      have hlt : i.toNat < v.length := by
        rcases Nat.lt_or_ge i.toNat v.length with hlt | hge
        · exact hlt
        · rw [List.getElem?_eq_none hge] at hx
          cases hx
      refine ⟨h0, hlt, List.length_set .., ?_⟩
      intro j
      by_cases hj : j = i.toNat
      · subst hj
        simp [hx, hlt]
      · simp [List.getElem?_set, hj, Ne.symm hj]
    · cases hx

theorem vectorUpdate_getD {α : Type} {v v1 : List α} {i : Int} {f : α → α}
    (h : vectorUpdate v i f = some v1) (d : α) (j : Nat) :
    v1.getD j d = if j = i.toNat then f (v.getD j d) else v.getD j d := by
  obtain ⟨-, hlt, -, hget⟩ := vectorUpdate_spec h
  rw [List.getD_eq_getElem?_getD, List.getD_eq_getElem?_getD, hget j]
  by_cases hj : j = i.toNat
  · subst hj
    simp [List.getElem?_eq_getElem hlt]
  · simp [hj]

theorem vectorUpdate_isSome {α : Type} (v : List α) (i : Int) (f : α → α) (h0 : 0 ≤ i)
    (h1 : i < (v.length : Int)) : ∃ v1, vectorUpdate v i f = some v1 := by
  have hlt : i.toNat < v.length := by omega
  unfold vectorUpdate vectorAt?
  rw [if_pos h0, List.getElem?_eq_getElem hlt]
  exact ⟨_, rfl⟩

/-! ### One activated neighbourhood in `reportnewStats` -/

namespace NeighbourhoodSearchStats

theorem countActivation_spec {s s1 : NeighbourhoodSearchStats} {j : Int}
    {st : NeighbourhoodStats} (h : countActivation s j st = some s1) :
    ∃ a t o, vectorUpdate s.numberActivations j (fun x => x + 1) = some a ∧
      vectorUpdate s.totalTime j (fun x => toUInt64 ((x : Int) + st.timeTaken)) = some t ∧
      vectorUpdate s.numberTimeouts j
        (fun x => x + (if st.timeoutReached then 1 else 0)) = some o ∧
      s1 = { s with numberActivations := a, totalTime := t, numberTimeouts := o } := by
  unfold countActivation at h
  split at h
  · rename_i a t o ha ht ho
    exact ⟨a, t, o, ha, ht, ho, (Option.some.inj h).symm⟩
  · cases h

theorem classifyOutcome_spec {s s2 : NeighbourhoodSearchStats} {j : Int}
    {st : NeighbourhoodStats} (h : classifyOutcome s j st = some s2) :
    (st.solutionFound = true ∧ st.newMinValue > s.lastOptVarValue ∧
      ∃ p, vectorUpdate s.numberPositiveSolutions j (fun x => x + 1) = some p ∧
        s2 = { s with numberPositiveSolutions := p, lastOptVarValue := st.newMinValue }) ∨
    (st.solutionFound = true ∧ ¬ st.newMinValue > s.lastOptVarValue ∧
      ∃ n, vectorUpdate s.numberNegativeSolutions j (fun x => x + 1) = some n ∧
        s2 = { s with numberNegativeSolutions := n, lastOptVarValue := st.newMinValue }) ∨
    (st.solutionFound = false ∧
      ∃ o, vectorUpdate s.numberNoSolutions j (fun x => x + 1) = some o ∧
        s2 = { s with numberNoSolutions := o }) := by
  unfold classifyOutcome at h
  cases hf : st.solutionFound with
  | true =>
    simp only [hf, if_true] at h
    by_cases hgt : st.newMinValue > s.lastOptVarValue
    · simp only [hgt, if_true] at h
      split at h
      · rename_i p hp
        exact Or.inl ⟨rfl, hgt, p, hp, (Option.some.inj h).symm⟩
      · cases h
    · simp only [hgt, if_false] at h
      split at h
      · rename_i n hn
        exact Or.inr (Or.inl ⟨rfl, hgt, n, hn, (Option.some.inj h).symm⟩)
      · cases h
  | false =>
    simp only [hf, Bool.false_eq_true, if_false] at h
    split at h
    · rename_i o ho
      exact Or.inr (Or.inr ⟨rfl, o, ho, (Option.some.inj h).symm⟩)
    · cases h

theorem recordBest_spec (s : NeighbourhoodSearchStats) (clock : Clock) :
    (s.lastOptVarValue > s.bestOptVarValue ∧
      ∃ t1 t2, (recordBest s clock).1 =
        { s with
            bestSolutions := s.bestSolutions ++ [(s.lastOptVarValue, t1)]
            bestOptVarValue := s.lastOptVarValue
            totalTimeToBestSolution := t2 }) ∨
    (¬ s.lastOptVarValue > s.bestOptVarValue ∧ (recordBest s clock).1 = s) := by
  by_cases hgt : s.lastOptVarValue > s.bestOptVarValue
  · left
    refine ⟨hgt, (getTotalTimeTaken s clock).1,
      (getTotalTimeTaken s (getTotalTimeTaken s clock).2).1, ?_⟩
    unfold recordBest
    rw [if_pos hgt]
  · right
    refine ⟨hgt, ?_⟩
    unfold recordBest
    rw [if_neg hgt]

/-- The counters after the loop body of `reportnewStats` for the
neighbourhood `j`. -/
theorem reportOne_counters {s s1 : NeighbourhoodSearchStats} {clock clock1 : Clock} {j : Int}
    {st : NeighbourhoodStats} (h : reportOne s clock j st = some (s1, clock1)) :
    0 ≤ j ∧ s1.numberIterations = s.numberIterations ∧
    s1.numberActivations.length = s.numberActivations.length ∧
    s1.numberPositiveSolutions.length = s.numberPositiveSolutions.length ∧
    s1.numberNegativeSolutions.length = s.numberNegativeSolutions.length ∧
    s1.numberNoSolutions.length = s.numberNoSolutions.length ∧
    s1.numberTimeouts.length = s.numberTimeouts.length ∧
    ∀ i : Nat,
      s1.numberActivations.getD i 0 =
        s.numberActivations.getD i 0 + (if i = j.toNat then 1 else 0) ∧
      s1.numberTimeouts.getD i 0 =
        s.numberTimeouts.getD i 0 + (if i = j.toNat ∧ st.timeoutReached = true then 1 else 0) ∧
      s1.numberPositiveSolutions.getD i 0 =
        s.numberPositiveSolutions.getD i 0 +
          (if i = j.toNat ∧ st.solutionFound = true ∧ st.newMinValue > s.lastOptVarValue
            then 1 else 0) ∧
      s1.numberNegativeSolutions.getD i 0 =
        s.numberNegativeSolutions.getD i 0 +
          (if i = j.toNat ∧ st.solutionFound = true ∧ ¬ st.newMinValue > s.lastOptVarValue
            then 1 else 0) ∧
      s1.numberNoSolutions.getD i 0 =
        s.numberNoSolutions.getD i 0 +
          (if i = j.toNat ∧ st.solutionFound = false then 1 else 0) := by
  unfold reportOne at h
  cases hc : countActivation s j st with
  | none => simp [hc] at h
  | some sa =>
    cases hk : classifyOutcome sa j st with
    | none => simp [hc, hk] at h
    | some sb =>
      simp only [hc, hk, Option.some.injEq] at h
      have hs1 : s1 = (recordBest sb clock).1 := by rw [h]
      obtain ⟨a, t, o, ha, -, ho, hsa⟩ := countActivation_spec hc
      have hrec : (recordBest sb clock).1.numberIterations = sb.numberIterations ∧
          (recordBest sb clock).1.numberActivations = sb.numberActivations ∧
          (recordBest sb clock).1.numberPositiveSolutions = sb.numberPositiveSolutions ∧
          (recordBest sb clock).1.numberNegativeSolutions = sb.numberNegativeSolutions ∧
          (recordBest sb clock).1.numberNoSolutions = sb.numberNoSolutions ∧
          (recordBest sb clock).1.numberTimeouts = sb.numberTimeouts := by
        rcases recordBest_spec sb clock with ⟨-, t1, t2, hr⟩ | ⟨-, hr⟩ <;> rw [hr] <;>
          exact ⟨rfl, rfl, rfl, rfl, rfl, rfl⟩
      obtain ⟨r1, r2, r3, r4, r5, r6⟩ := hrec
      have ha0 := (vectorUpdate_spec ha).1
      have hlast : sa.lastOptVarValue = s.lastOptVarValue := by rw [hsa]
      rw [hs1, r1, r2, r3, r4, r5, r6]
      rcases classifyOutcome_spec hk with ⟨hf, hgt, p, hp, hsb⟩ | ⟨hf, hgt, n, hn, hsb⟩ |
          ⟨hf, q, hq, hsb⟩
      · rw [hlast] at hgt
        subst hsb
        subst hsa
        refine ⟨ha0, rfl, (vectorUpdate_spec ha).2.2.1, (vectorUpdate_spec hp).2.2.1, rfl, rfl,
          (vectorUpdate_spec ho).2.2.1, ?_⟩
        intro i
        refine ⟨?_, ?_, ?_, ?_, ?_⟩
        · show a.getD i 0 = _
          rw [vectorUpdate_getD ha]
          split <;> simp
        · show o.getD i 0 = _
          rw [vectorUpdate_getD ho]
          by_cases hi : i = j.toNat <;> cases st.timeoutReached <;> simp [hi]
        · show p.getD i 0 = _
          rw [vectorUpdate_getD hp]
          by_cases hi : i = j.toNat <;> simp [hi, hf, hgt]
        · simp [hf, hgt]
        · simp [hf]
      · rw [hlast] at hgt
        subst hsb
        subst hsa
        refine ⟨ha0, rfl, (vectorUpdate_spec ha).2.2.1, rfl, (vectorUpdate_spec hn).2.2.1, rfl,
          (vectorUpdate_spec ho).2.2.1, ?_⟩
        intro i
        refine ⟨?_, ?_, ?_, ?_, ?_⟩
        · show a.getD i 0 = _
          rw [vectorUpdate_getD ha]
          split <;> simp
        · show o.getD i 0 = _
          rw [vectorUpdate_getD ho]
          by_cases hi : i = j.toNat <;> cases st.timeoutReached <;> simp [hi]
        · simp [hf, hgt]
        · show n.getD i 0 = _
          rw [vectorUpdate_getD hn]
          by_cases hi : i = j.toNat <;> simp [hi, hf, hgt]
        · simp [hf]
      · subst hsb
        subst hsa
        refine ⟨ha0, rfl, (vectorUpdate_spec ha).2.2.1, rfl, rfl, (vectorUpdate_spec hq).2.2.1,
          (vectorUpdate_spec ho).2.2.1, ?_⟩
        intro i
        refine ⟨?_, ?_, ?_, ?_, ?_⟩
        · show a.getD i 0 = _
          rw [vectorUpdate_getD ha]
          split <;> simp
        · show o.getD i 0 = _
          rw [vectorUpdate_getD ho]
          by_cases hi : i = j.toNat <;> cases st.timeoutReached <;> simp [hi]
        · simp [hf]
        · simp [hf]
        · show q.getD i 0 = _
          rw [vectorUpdate_getD hq]
          by_cases hi : i = j.toNat <;> simp [hi, hf]

end NeighbourhoodSearchStats

namespace NeighbourhoodSearchStats

theorem reportOne_totalTime {s s1 : NeighbourhoodSearchStats} {clock clock1 : Clock} {j : Int}
    {st : NeighbourhoodStats} (h : reportOne s clock j st = some (s1, clock1)) :
    s1.totalTime.length = s.totalTime.length ∧
      ∀ i : Nat, i ≠ j.toNat → s1.totalTime.getD i 0 = s.totalTime.getD i 0 := by
  unfold reportOne at h
  cases hc : countActivation s j st with
  | none => simp [hc] at h
  | some sa =>
    cases hk : classifyOutcome sa j st with
    | none => simp [hc, hk] at h
    | some sb =>
      simp only [hc, hk, Option.some.injEq] at h
      have hs1 : s1 = (recordBest sb clock).1 := by rw [h]
      obtain ⟨a, t, o, -, ht, -, hsa⟩ := countActivation_spec hc
      have hrec : (recordBest sb clock).1.totalTime = sb.totalTime := by
        rcases recordBest_spec sb clock with ⟨-, t1, t2, hr⟩ | ⟨-, hr⟩ <;> rw [hr]
      have hsb : sb.totalTime = sa.totalTime := by
        rcases classifyOutcome_spec hk with ⟨-, -, p, -, hsb⟩ | ⟨-, -, n, -, hsb⟩ |
          ⟨-, q, -, hsb⟩ <;> rw [hsb]
      rw [hs1, hrec, hsb, hsa]
      refine ⟨(vectorUpdate_spec ht).2.2.1, ?_⟩
      intro i hi
      show t.getD i 0 = _
      rw [vectorUpdate_getD ht, if_neg hi]

theorem reportOne_isSome (s : NeighbourhoodSearchStats) (clock : Clock) (j : Int)
    (st : NeighbourhoodStats) (k : Nat) (hk : CountersConsistent k s) (h0 : 0 ≤ j)
    (h1 : j < (k : Int)) : ∃ r, reportOne s clock j st = some r := by
  obtain ⟨la, lt, lp, ln, lq, lo, -⟩ := hk
  obtain ⟨a, ha⟩ := vectorUpdate_isSome s.numberActivations j (fun x => x + 1) h0
    (by rw [la]; exact h1)
  obtain ⟨t, ht⟩ := vectorUpdate_isSome s.totalTime j
    (fun x => toUInt64 ((x : Int) + st.timeTaken)) h0 (by rw [lt]; exact h1)
  obtain ⟨o, ho⟩ := vectorUpdate_isSome s.numberTimeouts j
    (fun x => x + (if st.timeoutReached then 1 else 0)) h0 (by rw [lo]; exact h1)
  obtain ⟨p, hp⟩ := vectorUpdate_isSome s.numberPositiveSolutions j (fun x => x + 1) h0
    (by rw [lp]; exact h1)
  obtain ⟨n, hn⟩ := vectorUpdate_isSome s.numberNegativeSolutions j (fun x => x + 1) h0
    (by rw [ln]; exact h1)
  obtain ⟨q, hq⟩ := vectorUpdate_isSome s.numberNoSolutions j (fun x => x + 1) h0
    (by rw [lq]; exact h1)
  have hc : countActivation s j st =
      some { s with numberActivations := a, totalTime := t, numberTimeouts := o } := by
    unfold countActivation
    rw [ha, ht, ho]
  unfold reportOne
  rw [hc]
  simp only [classifyOutcome, hp, hn, hq]
  cases st.solutionFound with
  | false => exact ⟨_, rfl⟩
  | true =>
    by_cases hgt : st.newMinValue > s.lastOptVarValue
    · simp only [if_true, hgt]
      exact ⟨_, rfl⟩
    · simp only [if_true, hgt, if_false]
      exact ⟨_, rfl⟩

theorem reportOne_consistent {s s1 : NeighbourhoodSearchStats} {clock clock1 : Clock} {j : Int}
    {st : NeighbourhoodStats} {k : Nat} (hk : CountersConsistent k s)
    (h : reportOne s clock j st = some (s1, clock1)) : CountersConsistent k s1 := by
  obtain ⟨la, lt, lp, ln, lq, lo, hall⟩ := hk
  obtain ⟨-, -, ma, mp, mn, mq, mo, hcount⟩ := reportOne_counters h
  obtain ⟨mt, -⟩ := reportOne_totalTime h
  refine ⟨ma.trans la, mt.trans lt, mp.trans lp, mn.trans ln, mq.trans lq, mo.trans lo, ?_⟩
  intro i hi
  obtain ⟨c1, c2, c3, c4, c5⟩ := hcount i
  obtain ⟨e1, e2⟩ := hall i hi
  by_cases hij : i = j.toNat
  · have hij1 := eq_true hij
    cases hf : st.solutionFound with
    | false =>
      cases ht : st.timeoutReached <;>
        simp only [hij1, hf, ht, true_and, and_true, and_false, false_and, if_true, if_false,
          Bool.false_eq_true] at c1 c2 c3 c4 c5 <;>
        constructor <;> omega
    | true =>
      by_cases hgt : st.newMinValue > s.lastOptVarValue
      · have hgt1 := eq_true hgt
        cases ht : st.timeoutReached <;>
          simp only [hij1, hf, ht, hgt1, true_and, and_true, and_false, false_and, if_true,
            if_false, Bool.false_eq_true, not_true_eq_false, Bool.true_eq_false] at c1 c2 c3 c4 c5 <;>
          constructor <;> omega
      · have hgt1 := eq_false hgt
        cases ht : st.timeoutReached <;>
          simp only [hij1, hf, ht, hgt1, true_and, and_true, and_false, false_and, if_true,
            if_false, Bool.false_eq_true, not_false_eq_true, Bool.true_eq_false] at c1 c2 c3 c4 c5 <;>
          constructor <;> omega
  · have hij1 := eq_false hij
    simp only [hij1, false_and, if_false] at c1 c2 c3 c4 c5
    constructor <;> omega

theorem reportOne_log {s s1 : NeighbourhoodSearchStats} {clock clock1 : Clock} {j : Int}
    {st : NeighbourhoodStats} {first : Int} (hlog : BestLogOrdered first s)
    (h : reportOne s clock j st = some (s1, clock1)) :
    BestLogOrdered first s1 ∧ s1.lastOptVarValue ≤ s1.bestOptVarValue ∧
      s.bestOptVarValue ≤ s1.bestOptVarValue ∧
      s1.initialOptVarRange = s.initialOptVarRange := by
  unfold reportOne at h
  cases hc : countActivation s j st with
  | none => simp [hc] at h
  | some sa =>
    cases hk : classifyOutcome sa j st with
    | none => simp [hc, hk] at h
    | some sb =>
      simp only [hc, hk, Option.some.injEq] at h
      have hs1 : s1 = (recordBest sb clock).1 := by rw [h]
      obtain ⟨a, t, o, -, -, -, hsa⟩ := countActivation_spec hc
      have hsb : sb.bestSolutions = s.bestSolutions ∧ sb.bestOptVarValue = s.bestOptVarValue ∧
          sb.initialOptVarRange = s.initialOptVarRange := by
        rcases classifyOutcome_spec hk with ⟨-, -, p, -, hsb⟩ | ⟨-, -, n, -, hsb⟩ |
          ⟨-, q, -, hsb⟩ <;> rw [hsb, hsa] <;> exact ⟨rfl, rfl, rfl⟩
      obtain ⟨b1, b2, b3⟩ := hsb
      obtain ⟨hpair, hall, hlast, hfirst⟩ := hlog
      rcases recordBest_spec sb clock with ⟨hgt, t1, t2, hr⟩ | ⟨hgt, hr⟩
      · rw [hs1, hr]
        rw [b2] at hgt
        refine ⟨⟨?_, ?_, ?_, ?_⟩, le_refl _, ?_, b3⟩
        · show (List.map Prod.fst (sb.bestSolutions ++ [(sb.lastOptVarValue, t1)])).Pairwise _
          rw [b1, List.map_append, List.pairwise_append]
          refine ⟨hpair, by simp, ?_⟩
          intro x hx y hy
          simp only [List.map_cons, List.map_nil, List.mem_singleton] at hy
          rw [hy]
          exact lt_of_le_of_lt (hall x hx).2 hgt
        · intro v hv
          change v ∈ List.map Prod.fst (sb.bestSolutions ++ [(sb.lastOptVarValue, t1)]) at hv
          show first < v ∧ v ≤ sb.lastOptVarValue
          rw [b1, List.map_append, List.mem_append] at hv
          rcases hv with hv | hv
          · exact ⟨(hall v hv).1, le_of_lt (lt_of_le_of_lt (hall v hv).2 hgt)⟩
          · simp only [List.map_cons, List.map_nil, List.mem_singleton] at hv
            rw [hv]
            exact ⟨lt_of_le_of_lt hfirst hgt, le_refl _⟩
        · show sb.lastOptVarValue =
            ((List.map Prod.fst (sb.bestSolutions ++ [(sb.lastOptVarValue, t1)])).getLast?).getD
              first
          rw [List.map_append, List.getLast?_append]
          simp
        · show first ≤ sb.lastOptVarValue
          exact le_of_lt (lt_of_le_of_lt hfirst hgt)
        · show s.bestOptVarValue ≤ sb.lastOptVarValue
          exact le_of_lt hgt
      · rw [hs1, hr]
        refine ⟨⟨by rw [b1]; exact hpair, ?_, by rw [b1, b2]; exact hlast,
          by rw [b2]; exact hfirst⟩, not_lt.mp hgt, le_of_eq b2.symm, b3⟩
        intro v hv
        rw [b1] at hv
        rw [b2]
        exact hall v hv

theorem reportLoop_spec (st : NeighbourhoodStats) (k : Nat) (first : Int) :
    ∀ (activated : List Int) (s : NeighbourhoodSearchStats) (clock : Clock),
      CountersConsistent k s → BestLogOrdered first s →
      s.lastOptVarValue ≤ s.bestOptVarValue →
      (∀ j ∈ activated, 0 ≤ j ∧ j < (k : Int)) →
      ∃ s1 clock1, reportLoop st s clock activated = some (s1, clock1) ∧
        CountersConsistent k s1 ∧ BestLogOrdered first s1 ∧
        s1.lastOptVarValue ≤ s1.bestOptVarValue ∧
        s.bestOptVarValue ≤ s1.bestOptVarValue ∧
        s1.numberIterations = s.numberIterations ∧
        s1.initialOptVarRange = s.initialOptVarRange := by
  intro activated
  induction activated with
  | nil =>
    intro s clock hk hlog hle _
    exact ⟨s, clock, rfl, hk, hlog, hle, le_refl _, rfl, rfl⟩
  | cons j more ih =>
    intro s clock hk hlog hle hidx
    obtain ⟨hj0, hj1⟩ := hidx j (List.mem_cons_self _ _)
    obtain ⟨r, hr⟩ := reportOne_isSome s clock j st k hk hj0 hj1
    obtain ⟨sa, ca⟩ := r
    obtain ⟨hlog1, hle1, hmono1, hrange1⟩ := reportOne_log hlog hr
    obtain ⟨s1, clock1, hloop, h1, h2, h3, h4, h5, h6⟩ :=
      ih sa ca (reportOne_consistent hk hr) hlog1 hle1
        (fun i hi => hidx i (List.mem_cons_of_mem _ hi))
    refine ⟨s1, clock1, ?_, h1, h2, h3, le_trans hmono1 h4, ?_, h6.trans hrange1⟩
    · simp [reportLoop, hr, hloop]
    · rw [h5, (reportOne_counters hr).2.1]

theorem reportLoop_frame (st : NeighbourhoodStats) :
    ∀ (activated : List Int) (s s1 : NeighbourhoodSearchStats) (clock clock1 : Clock),
      reportLoop st s clock activated = some (s1, clock1) →
      ∀ i : Nat, (i : Int) ∉ activated →
        s1.numberActivations.getD i 0 = s.numberActivations.getD i 0 ∧
        s1.totalTime.getD i 0 = s.totalTime.getD i 0 ∧
        s1.numberPositiveSolutions.getD i 0 = s.numberPositiveSolutions.getD i 0 ∧
        s1.numberNegativeSolutions.getD i 0 = s.numberNegativeSolutions.getD i 0 ∧
        s1.numberNoSolutions.getD i 0 = s.numberNoSolutions.getD i 0 ∧
        s1.numberTimeouts.getD i 0 = s.numberTimeouts.getD i 0 := by
  intro activated
  induction activated with
  | nil =>
    intro s s1 clock clock1 h i _
    simp only [reportLoop, Option.some.injEq, Prod.mk.injEq] at h
    rw [← h.1]
    exact ⟨rfl, rfl, rfl, rfl, rfl, rfl⟩
  | cons j more ih =>
    intro s s1 clock clock1 h i hi
    unfold reportLoop at h
    cases hr : reportOne s clock j st with
    | none => simp [hr] at h
    | some r =>
      obtain ⟨sa, ca⟩ := r
      simp only [hr] at h
      obtain ⟨f1, f2, f3, f4, f5, f6⟩ := ih sa s1 ca clock1 h i
        (fun hmem => hi (List.mem_cons_of_mem _ hmem))
      obtain ⟨hj0, -, -, -, -, -, -, hcount⟩ := reportOne_counters hr
      obtain ⟨-, htime⟩ := reportOne_totalTime hr
      have hne : i ≠ j.toNat := by
        intro heq
        apply hi
        rw [heq, Int.toNat_of_nonneg hj0]
        exact List.mem_cons_self _ _
      obtain ⟨c1, c2, c3, c4, c5⟩ := hcount i
      have hne1 := eq_false hne
      simp only [hne1, false_and, if_false, add_zero] at c1 c2 c3 c4 c5
      rw [f1, f2, f3, f4, f5, f6, c1, c2, c3, c4, c5, htime i hne]
      exact ⟨rfl, rfl, rfl, rfl, rfl, rfl⟩

end NeighbourhoodSearchStats

/-! ### Claims about `reportnewStats` -/

namespace NeighbourhoodSearchStats

theorem reportLoop_best_mono (st : NeighbourhoodStats) :
    ∀ (activated : List Int) (s s1 : NeighbourhoodSearchStats) (clock clock1 : Clock),
      reportLoop st s clock activated = some (s1, clock1) →
      s.bestOptVarValue ≤ s1.bestOptVarValue := by
  intro activated
  induction activated with
  | nil =>
    intro s s1 clock clock1 h
    simp only [reportLoop, Option.some.injEq, Prod.mk.injEq] at h
    rw [← h.1]
  | cons j more ih =>
    intro s s1 clock clock1 h
    unfold reportLoop at h
    cases hr : reportOne s clock j st with
    | none => simp [hr] at h
    | some r =>
      obtain ⟨sa, ca⟩ := r
      simp only [hr] at h
      refine le_trans ?_ (ih sa s1 ca clock1 h)
      unfold reportOne at hr
      cases hc : countActivation s j st with
      | none => simp [hc] at hr
      | some sb =>
        cases hk : classifyOutcome sb j st with
        | none => simp [hc, hk] at hr
        | some sc =>
          simp only [hc, hk, Option.some.injEq] at hr
          have hsa : sa = (recordBest sc clock).1 := by rw [hr]
          obtain ⟨a, t, o, -, -, -, hsb⟩ := countActivation_spec hc
          have hsc : sc.bestOptVarValue = s.bestOptVarValue := by
            rcases classifyOutcome_spec hk with ⟨-, -, p, -, hsc⟩ | ⟨-, -, n, -, hsc⟩ |
              ⟨-, q, -, hsc⟩ <;> rw [hsc, hsb]
          rw [hsa, ← hsc]
          rcases recordBest_spec sc clock with ⟨hgt, t1, t2, hrec⟩ | ⟨-, hrec⟩
          · rw [hrec]
            exact le_of_lt hgt
          · rw [hrec]

theorem construct_consistent (k : Nat) (range : Int × Int) (maxSize : Nat) (size : Int)
    (time : Nat) : CountersConsistent k (construct k range maxSize size time) := by
  refine ⟨by simp [construct], by simp [construct], by simp [construct], by simp [construct],
    by simp [construct], by simp [construct], ?_⟩
  intro i hi
  simp [construct, List.getD_eq_getElem?_getD, List.getElem?_replicate, hi]

theorem construct_log (k : Nat) (range : Int × Int) (maxSize : Nat) (size : Int)
    (time : Nat) : BestLogOrdered range.1 (construct k range maxSize size time) := by
  refine ⟨?_, ?_, ?_, ?_⟩ <;> simp [construct]

end NeighbourhoodSearchStats

theorem reportAll_spec (k : Nat) (first : Int) :
    ∀ (calls : List ReportCall) (s : NeighbourhoodSearchStats) (clock : Clock),
      CountersConsistent k s → BestLogOrdered first s →
      s.lastOptVarValue ≤ s.bestOptVarValue →
      (∀ call ∈ calls, ∀ j ∈ call.activatedNeighbourhoods, 0 ≤ j ∧ j < (k : Int)) →
      ∃ s1 clock1, reportAll s clock calls = some (s1, clock1) ∧
        CountersConsistent k s1 ∧ BestLogOrdered first s1 ∧
        s1.lastOptVarValue ≤ s1.bestOptVarValue ∧
        s1.numberIterations = s.numberIterations + (calls.length : Int) ∧
        s1.initialOptVarRange = s.initialOptVarRange := by
  intro calls
  induction calls with
  | nil =>
    intro s clock hk hlog hle _
    exact ⟨s, clock, rfl, hk, hlog, hle, by simp, rfl⟩
  | cons call more ih =>
    intro s clock hk hlog hle hidx
    obtain ⟨sa, ca, hloop, h1, h2, h3, -, h5, h6⟩ :=
      NeighbourhoodSearchStats.reportLoop_spec call.stats k first call.activatedNeighbourhoods
        { s with numberIterations := s.numberIterations + 1 } clock hk hlog hle
        (hidx call (List.mem_cons_self _ _))
    obtain ⟨s1, clock1, hall, g1, g2, g3, g4, g5⟩ :=
      ih sa ca h1 h2 h3 (fun c hc => hidx c (List.mem_cons_of_mem _ hc))
    refine ⟨s1, clock1, ?_, g1, g2, g3, ?_, g5.trans h6⟩
    · simp [reportAll, NeighbourhoodSearchStats.reportnewStats, hloop, hall]
    · rw [g4, h5]
      simp only [List.length_cons]
      push_cast
      ring

/-- C13.  Statistics built by the three-argument constructor and changed only
by calls of `reportnewStats` with indices of existing neighbourhoods: every
sequence of calls is defined, and afterwards the values logged in
`bestSolutions` increase strictly, each is greater than
`initialOptVarRange.first`, `bestOptVarValue` is the last logged value (or
`initialOptVarRange.first` when nothing is logged) and is at least
`lastOptVarValue`; a further call never decreases `bestOptVarValue`. -/
theorem C13_best_solutions_log (k : Nat) (range : Int × Int) (maxSize : Nat) (size : Int)
    (time : Nat) (clock : Clock) (calls : List ReportCall)
    (hidx : ∀ call ∈ calls, ∀ j ∈ call.activatedNeighbourhoods, 0 ≤ j ∧ j < (k : Int)) :
    ∃ s clock1,
      reportAll (NeighbourhoodSearchStats.construct k range maxSize size time) clock calls =
        some (s, clock1) ∧
      s.initialOptVarRange = range ∧
      (s.bestSolutions.map Prod.fst).Pairwise (fun a b => a < b) ∧
      (∀ v ∈ s.bestSolutions.map Prod.fst, s.initialOptVarRange.1 < v) ∧
      s.bestOptVarValue =
        ((s.bestSolutions.map Prod.fst).getLast?).getD s.initialOptVarRange.1 ∧
      s.lastOptVarValue ≤ s.bestOptVarValue ∧
      (∀ (clock2 clock3 : Clock) (call : ReportCall) (s2 : NeighbourhoodSearchStats),
        s.reportnewStats clock2 call.activatedNeighbourhoods call.stats = some (s2, clock3) →
        s.bestOptVarValue ≤ s2.bestOptVarValue) := by
  obtain ⟨s, clock1, hall, -, ⟨hpair, hvals, hlast, -⟩, hle, -, hrange⟩ :=
    reportAll_spec k range.1 calls (NeighbourhoodSearchStats.construct k range maxSize size time)
      clock (NeighbourhoodSearchStats.construct_consistent k range maxSize size time)
      (NeighbourhoodSearchStats.construct_log k range maxSize size time) (le_refl _) hidx
  have hr : s.initialOptVarRange = range := hrange
  refine ⟨s, clock1, hall, hr, hpair, ?_, ?_, hle, ?_⟩
  · intro v hv
    rw [hr]
    exact (hvals v hv).1
  · rw [hr]
    exact hlast
  · intro clock2 clock3 call s2 h
    have hmono := NeighbourhoodSearchStats.reportLoop_best_mono call.stats
      call.activatedNeighbourhoods { s with numberIterations := s.numberIterations + 1 } s2
      clock2 clock3 h
    exact hmono

/-- C13, an instance: two neighbourhoods, objective range starting at 0; a
call that found the value 5, a call that found nothing, a call that found the
value 3.  The log holds the single value 5 and `bestOptVarValue` is 5. -/
theorem C13_best_solutions_log_witness :
    ∃ s clock1,
      reportAll (NeighbourhoodSearchStats.construct 2 (0, 100) 3 0 0) sampleClock
          [{ activatedNeighbourhoods := [0, 1], stats := sampleStats true 5 },
           { activatedNeighbourhoods := [1], stats := sampleStats false 0 },
           { activatedNeighbourhoods := [0], stats := sampleStats true 3 }] =
        some (s, clock1) ∧
      (s.bestSolutions.map Prod.fst).Pairwise (fun a b => a < b) ∧
      s.bestOptVarValue =
        ((s.bestSolutions.map Prod.fst).getLast?).getD s.initialOptVarRange.1 ∧
      s.lastOptVarValue ≤ s.bestOptVarValue := by
  obtain ⟨s, clock1, h, -, hpair, -, hlast, hle, -⟩ :=
    C13_best_solutions_log 2 (0, 100) 3 0 0 sampleClock
      [{ activatedNeighbourhoods := [0, 1], stats := sampleStats true 5 },
       { activatedNeighbourhoods := [1], stats := sampleStats false 0 },
       { activatedNeighbourhoods := [0], stats := sampleStats true 3 }]
      (by decide)
  exact ⟨s, clock1, h, hpair, hlast, hle⟩

/-- C15 (the code departs from the claim).  Two neighbourhoods, last value 0;
one call of `reportnewStats` for the combination of both, with a found
solution of value 5.  Neighbourhood 0 is counted positive; the loop body has
then set `lastOptVarValue` to 5, so for neighbourhood 1 the test `5 > 5` fails
and it is counted negative. -/
theorem C15_later_neighbourhoods_counted_negative :
    ((NeighbourhoodSearchStats.construct 2 (0, 100) 3 0 0).reportnewStats sampleClock [0, 1]
        (sampleStats true 5)).map
      (fun r => (r.1.numberPositiveSolutions, r.1.numberNegativeSolutions)) =
      some ([1, 0], [0, 1]) := by
  decide

/-- C17.  Statistics built by the three-argument constructor for `k`
neighbourhoods and changed only by calls of `reportnewStats` with indices
below `k`: every sequence of calls is defined, and afterwards
`numberIterations` is the number of calls, the counter vectors still have `k`
entries, and for every index the activations are the sum of the positive,
negative and no-solution counts and are at least the timeouts; a further call
leaves the counters (and the total time) of every index outside its list as
they were. -/
theorem C17_counters_consistent (k : Nat) (range : Int × Int) (maxSize : Nat) (size : Int)
    (time : Nat) (clock : Clock) (calls : List ReportCall)
    (hidx : ∀ call ∈ calls, ∀ j ∈ call.activatedNeighbourhoods, 0 ≤ j ∧ j < (k : Int)) :
    ∃ s clock1,
      reportAll (NeighbourhoodSearchStats.construct k range maxSize size time) clock calls =
        some (s, clock1) ∧
      s.numberIterations = (calls.length : Int) ∧
      s.numberActivations.length = k ∧ s.numberPositiveSolutions.length = k ∧
      s.numberNegativeSolutions.length = k ∧ s.numberNoSolutions.length = k ∧
      s.numberTimeouts.length = k ∧
      (∀ i, i < k →
        s.numberActivations.getD i 0 =
          s.numberPositiveSolutions.getD i 0 + s.numberNegativeSolutions.getD i 0 +
            s.numberNoSolutions.getD i 0 ∧
        s.numberTimeouts.getD i 0 ≤ s.numberActivations.getD i 0) ∧
      (∀ (clock2 clock3 : Clock) (call : ReportCall) (s2 : NeighbourhoodSearchStats),
        s.reportnewStats clock2 call.activatedNeighbourhoods call.stats = some (s2, clock3) →
        ∀ i : Nat, (i : Int) ∉ call.activatedNeighbourhoods →
          s2.numberActivations.getD i 0 = s.numberActivations.getD i 0 ∧
          s2.totalTime.getD i 0 = s.totalTime.getD i 0 ∧
          s2.numberPositiveSolutions.getD i 0 = s.numberPositiveSolutions.getD i 0 ∧
          s2.numberNegativeSolutions.getD i 0 = s.numberNegativeSolutions.getD i 0 ∧
          s2.numberNoSolutions.getD i 0 = s.numberNoSolutions.getD i 0 ∧
          s2.numberTimeouts.getD i 0 = s.numberTimeouts.getD i 0) := by
  obtain ⟨s, clock1, hall, ⟨la, -, lp, ln, lq, lo, hcount⟩, -, -, hiter, -⟩ :=
    reportAll_spec k range.1 calls (NeighbourhoodSearchStats.construct k range maxSize size time)
      clock (NeighbourhoodSearchStats.construct_consistent k range maxSize size time)
      (NeighbourhoodSearchStats.construct_log k range maxSize size time) (le_refl _) hidx
  refine ⟨s, clock1, hall, ?_, la, lp, ln, lq, lo, hcount, ?_⟩
  · rw [hiter]
    simp [NeighbourhoodSearchStats.construct]
  · intro clock2 clock3 call s2 h i hi
    have hframe := NeighbourhoodSearchStats.reportLoop_frame call.stats
      call.activatedNeighbourhoods { s with numberIterations := s.numberIterations + 1 } s2
      clock2 clock3 h i hi
    exact hframe

/-- C17, an instance: two neighbourhoods and three calls; afterwards
`numberIterations` is 3. -/
theorem C17_counters_consistent_witness :
    ∃ s clock1,
      reportAll (NeighbourhoodSearchStats.construct 2 (0, 100) 3 0 0) sampleClock
          [{ activatedNeighbourhoods := [0, 1], stats := sampleStats true 5 },
           { activatedNeighbourhoods := [1], stats := sampleStats false 0 },
           { activatedNeighbourhoods := [0], stats := sampleStats true 3 }] =
        some (s, clock1) ∧
      s.numberIterations = 3 ∧
      (∀ i, i < 2 →
        s.numberActivations.getD i 0 =
          s.numberPositiveSolutions.getD i 0 + s.numberNegativeSolutions.getD i 0 +
            s.numberNoSolutions.getD i 0 ∧
        s.numberTimeouts.getD i 0 ≤ s.numberActivations.getD i 0) := by
  obtain ⟨s, clock1, h, hiter, -, -, -, -, -, hcount, -⟩ :=
    C17_counters_consistent 2 (0, 100) 3 0 0 sampleClock
      [{ activatedNeighbourhoods := [0, 1], stats := sampleStats true 5 },
       { activatedNeighbourhoods := [1], stats := sampleStats false 0 },
       { activatedNeighbourhoods := [0], stats := sampleStats true 3 }]
      (by decide)
  exact ⟨s, clock1, h, hiter, hcount⟩

/-! ### Exploration phases -/

namespace NeighbourhoodSearchStats

theorem setLastEnd_append (earlier : List ExplorationPhase) (last : ExplorationPhase) (t : Nat) :
    setLastEnd (earlier ++ [last]) t =
      some (earlier ++ [{ last with endExplorationTime := some t }]) := by
  simp [setLastEnd]

theorem setLastEnd_isSome (phases : List ExplorationPhase) (t : Nat) (h : phases ≠ []) :
    ∃ p, setLastEnd phases t = some p ∧ p ≠ [] := by
  obtain ⟨earlier, last, hp⟩ : ∃ earlier last, phases = earlier ++ [last] :=
    ⟨phases.dropLast, phases.getLast h, (List.dropLast_append_getLast h).symm⟩
  rw [hp, setLastEnd_append]
  exact ⟨_, rfl, by simp⟩

theorem foundSolution_idle (s : NeighbourhoodSearchStats) (clock : Clock) (v : Int)
    (h : s.currentlyExploring = false) : s.foundSolution clock v = some (s, clock) := by
  simp [foundSolution, h]

theorem foundSolution_safe (maxSize : Nat) (s : NeighbourhoodSearchStats) (clock : Clock)
    (v : Int) (hs : ExplorationSafe maxSize s) :
    ∃ s1 clock1, s.foundSolution clock v = some (s1, clock1) ∧ ExplorationSafe maxSize s1 := by
  obtain ⟨l1, l2, l3, hopen⟩ := hs
  by_cases hcond : (s.currentlyExploring && decide (v > s.bestOptVarValue)) = true
  · have hexp : s.currentlyExploring = true := by
      cases he : s.currentlyExploring
      · simp [he] at hcond
      · rfl
    obtain ⟨h1, h2, h3⟩ := hopen hexp
    obtain ⟨times, ht⟩ := vectorUpdate_isSome s.neighbourhoodExplorationTimes
      (s.currentNeighbourhoodSize - 1)
      (fun x => toUInt64 ((x : Int) + millisecondsBetween s.startExplorationTime (clock 0)))
      (by omega) (by rw [l3]; omega)
    obtain ⟨succ, hsu⟩ := vectorUpdate_isSome s.totalNeighbourhoodSizeSuccess
      (s.currentNeighbourhoodSize - 1) (fun x => x + 1) (by omega) (by rw [l2]; omega)
    obtain ⟨p, hp, -⟩ := setLastEnd_isSome s.explorationPhases
      (getTotalTimeTaken s clock.advance).1 h3
    have heq : s.foundSolution clock v =
        some ({ s with
                 neighbourhoodExplorationTimes := times
                 currentlyExploring := false
                 totalNeighbourhoodSizeSuccess := succ
                 explorationPhases := p },
              (getTotalTimeTaken s clock.advance).2) := by
      unfold foundSolution
      rw [if_pos hcond]
      simp only [addExplorationTime, ht, hsu, hp]
    refine ⟨_, _, heq, l1, ?_, ?_, ?_⟩
    · exact (vectorUpdate_spec hsu).2.2.1.trans l2
    · exact (vectorUpdate_spec ht).2.2.1.trans l3
    · intro h
      cases h
  · refine ⟨s, clock, ?_, l1, l2, l3, hopen⟩
    unfold foundSolution
    rw [if_neg hcond]

theorem closeExploration_safe (maxSize : Nat) (s : NeighbourhoodSearchStats) (clock : Clock)
    (hs : ExplorationSafe maxSize s) :
    ∃ s1 clock1, closeExploration s clock = some (s1, clock1) ∧
      s1.totalNeighbourhoodSizeExplorations = s.totalNeighbourhoodSizeExplorations ∧
      s1.totalNeighbourhoodSizeSuccess = s.totalNeighbourhoodSizeSuccess ∧
      s1.neighbourhoodExplorationTimes.length = maxSize := by
  obtain ⟨l1, l2, l3, hopen⟩ := hs
  cases hexp : s.currentlyExploring with
  | false =>
    refine ⟨s, clock, ?_, rfl, rfl, l3⟩
    simp [closeExploration, hexp]
  | true =>
    obtain ⟨h1, h2, h3⟩ := hopen hexp
    obtain ⟨times, ht⟩ := vectorUpdate_isSome s.neighbourhoodExplorationTimes
      (s.currentNeighbourhoodSize - 1)
      (fun x => toUInt64 ((x : Int) + millisecondsBetween s.startExplorationTime (clock 0)))
      (by omega) (by rw [l3]; omega)
    obtain ⟨p, hp, -⟩ := setLastEnd_isSome s.explorationPhases
      (getTotalTimeTaken s clock.advance).1 h3
    have heq : closeExploration s clock =
        some ({ s with neighbourhoodExplorationTimes := times, explorationPhases := p },
              (getTotalTimeTaken s clock.advance).2) := by
      unfold closeExploration
      rw [if_pos hexp]
      simp only [addExplorationTime, ht, hp]
    exact ⟨_, _, heq, rfl, rfl, (vectorUpdate_spec ht).2.2.1.trans l3⟩

theorem startExploration_safe (maxSize : Nat) (s : NeighbourhoodSearchStats) (clock : Clock)
    (n : Int) (hs : ExplorationSafe maxSize s) (hn : 1 ≤ n ∧ n ≤ (maxSize : Int)) :
    ∃ s1 clock1, s.startExploration clock n = some (s1, clock1) ∧
      ExplorationSafe maxSize s1 ∧ s1.currentlyExploring = true ∧
      s1.currentNeighbourhoodSize = n := by
  obtain ⟨sc, cc, hclose, e1, e2, e3⟩ := closeExploration_safe maxSize s clock hs
  obtain ⟨l1, l2, l3, -⟩ := hs
  obtain ⟨total, htot⟩ := vectorUpdate_isSome sc.totalNeighbourhoodSizeExplorations (n - 1)
    (fun x => x + 1) (by omega) (by rw [e1, l1]; omega)
  have heq : s.startExploration clock n =
      some ({ sc with
               currentlyExploring := true
               startExplorationTime := cc 0
               totalNeighbourhoodSizeExplorations := total
               currentNeighbourhoodSize := n
               explorationPhases :=
                 sc.explorationPhases ++
                   [{ neighbourhoodSize := n
                      startExplorationTime := toUInt64 (millisecondsBetween sc.startTime (cc 1))
                      endExplorationTime := none }] },
            cc.advance.advance) := by
    unfold startExploration
    rw [hclose]
    simp only [htot]
    rfl
  refine ⟨_, _, heq, ⟨?_, ?_, ?_, ?_⟩, rfl, rfl⟩
  · exact (vectorUpdate_spec htot).2.2.1.trans (by rw [e1, l1])
  · show sc.totalNeighbourhoodSizeSuccess.length = maxSize
    rw [e2, l2]
  · exact e3
  · intro _
    exact ⟨hn.1, hn.2, by simp⟩

end NeighbourhoodSearchStats

theorem exploreAll_safe (maxSize : Nat) :
    ∀ (calls : List ExplorationCall) (s : NeighbourhoodSearchStats) (clock : Clock),
      ExplorationSafe maxSize s →
      (∀ n, ExplorationCall.startExploration n ∈ calls → 1 ≤ n ∧ n ≤ (maxSize : Int)) →
      ∃ s1 clock1, exploreAll s clock calls = some (s1, clock1) ∧
        ExplorationSafe maxSize s1 := by
  intro calls
  induction calls with
  | nil =>
    intro s clock hs _
    exact ⟨s, clock, rfl, hs⟩
  | cons call more ih =>
    intro s clock hs hcalls
    have hmore : ∀ n, ExplorationCall.startExploration n ∈ more →
        1 ≤ n ∧ n ≤ (maxSize : Int) := fun n hn => hcalls n (List.mem_cons_of_mem _ hn)
    cases call with
    | startExploration n =>
      obtain ⟨sa, ca, hstart, hsa, -, -⟩ :=
        NeighbourhoodSearchStats.startExploration_safe maxSize s clock n hs
          (hcalls n (List.mem_cons_self _ _))
      obtain ⟨s1, clock1, hall, hs1⟩ := ih sa ca hsa hmore
      exact ⟨s1, clock1, by simp [exploreAll, hstart, hall], hs1⟩
    | foundSolution v =>
      obtain ⟨sa, ca, hfound, hsa⟩ :=
        NeighbourhoodSearchStats.foundSolution_safe maxSize s clock v hs
      obtain ⟨s1, clock1, hall, hs1⟩ := ih sa ca hsa hmore
      exact ⟨s1, clock1, by simp [exploreAll, hfound, hall], hs1⟩

/-- C14.  `startExploration(n)` called while an exploration is open, with the
current size and `n` within the vectors and a last phase `last` recorded: the
call is defined; the milliseconds from the start of the open exploration to
the first clock reading are added (in `u_int64_t` arithmetic) to
`neighbourhoodExplorationTimes` at the slot `currentNeighbourhoodSize - 1` of
the open exploration and no other slot changes; the last phase keeps its size
and start time and gets its end time; exactly one phase of size `n`, with no
end time yet, is appended; `totalNeighbourhoodSizeExplorations` grows by one
at slot `n - 1` only; `currentNeighbourhoodSize` is `n` and
`currentlyExploring` is still true. -/
theorem C14_restart_closes_open_exploration (s : NeighbourhoodSearchStats) (clock : Clock)
    (n : Int) (earlier : List ExplorationPhase) (last : ExplorationPhase)
    (hexp : s.currentlyExploring = true)
    (hphases : s.explorationPhases = earlier ++ [last])
    (hcur : 1 ≤ s.currentNeighbourhoodSize ∧
      s.currentNeighbourhoodSize ≤ (s.neighbourhoodExplorationTimes.length : Int))
    (hn : 1 ≤ n ∧ n ≤ (s.totalNeighbourhoodSizeExplorations.length : Int)) :
    ∃ s1 clock1, s.startExploration clock n = some (s1, clock1) ∧
      (∀ i : Nat, s1.neighbourhoodExplorationTimes.getD i 0 =
        if (i : Int) = s.currentNeighbourhoodSize - 1 then
          toUInt64 ((s.neighbourhoodExplorationTimes.getD i 0 : Int) +
            millisecondsBetween s.startExplorationTime (clock 0))
        else s.neighbourhoodExplorationTimes.getD i 0) ∧
      s1.explorationPhases =
        earlier ++
          [{ neighbourhoodSize := last.neighbourhoodSize
             startExplorationTime := last.startExplorationTime
             endExplorationTime := some (toUInt64 (millisecondsBetween s.startTime (clock 1))) },
           { neighbourhoodSize := n
             startExplorationTime := toUInt64 (millisecondsBetween s.startTime (clock 3))
             endExplorationTime := none }] ∧
      (∀ i : Nat, s1.totalNeighbourhoodSizeExplorations.getD i 0 =
        s.totalNeighbourhoodSizeExplorations.getD i 0 + (if (i : Int) = n - 1 then 1 else 0)) ∧
      s1.currentNeighbourhoodSize = n ∧ s1.currentlyExploring = true ∧
      s1.startExplorationTime = clock 2 ∧
      s1.totalNeighbourhoodSizeSuccess = s.totalNeighbourhoodSizeSuccess := by
  obtain ⟨times, ht⟩ := vectorUpdate_isSome s.neighbourhoodExplorationTimes
    (s.currentNeighbourhoodSize - 1)
    (fun x => toUInt64 ((x : Int) + millisecondsBetween s.startExplorationTime (clock 0)))
    (by omega) (by omega)
  obtain ⟨total, htot⟩ := vectorUpdate_isSome s.totalNeighbourhoodSizeExplorations (n - 1)
    (fun x => x + 1) (by omega) (by omega)
  have hclose : NeighbourhoodSearchStats.closeExploration s clock =
      some ({ s with
               neighbourhoodExplorationTimes := times
               explorationPhases :=
                 earlier ++
                   [{ last with
                       endExplorationTime :=
                         some (toUInt64 (millisecondsBetween s.startTime (clock 1))) }] },
            clock.advance.advance) := by
    unfold NeighbourhoodSearchStats.closeExploration
    rw [if_pos hexp]
    simp only [NeighbourhoodSearchStats.addExplorationTime, ht, hphases,
      NeighbourhoodSearchStats.setLastEnd_append]
    rfl
  have heq : s.startExploration clock n =
      some ({ s with
               neighbourhoodExplorationTimes := times
               currentlyExploring := true
               startExplorationTime := clock 2
               totalNeighbourhoodSizeExplorations := total
               currentNeighbourhoodSize := n
               explorationPhases :=
                 earlier ++
                   [{ neighbourhoodSize := last.neighbourhoodSize
                      startExplorationTime := last.startExplorationTime
                      endExplorationTime :=
                        some (toUInt64 (millisecondsBetween s.startTime (clock 1))) },
                    { neighbourhoodSize := n
                      startExplorationTime :=
                        toUInt64 (millisecondsBetween s.startTime (clock 3))
                      endExplorationTime := none }] },
            clock.advance.advance.advance.advance) := by
    unfold NeighbourhoodSearchStats.startExploration
    rw [hclose]
    simp only [htot, List.append_assoc, List.singleton_append]
    rfl
  refine ⟨_, _, heq, ?_, rfl, ?_, rfl, rfl, rfl, rfl⟩
  · intro i
    show times.getD i 0 = _
    rw [vectorUpdate_getD ht]
    have hiff : (i = (s.currentNeighbourhoodSize - 1).toNat) ↔
        ((i : Int) = s.currentNeighbourhoodSize - 1) := by omega
    by_cases hi : (i : Int) = s.currentNeighbourhoodSize - 1
    · rw [if_pos hi, if_pos (hiff.mpr hi)]
    · rw [if_neg hi, if_neg (fun h => hi (hiff.mp h))]
  · intro i
    show total.getD i 0 = _
    rw [vectorUpdate_getD htot]
    have hiff : (i = (n - 1).toNat) ↔ ((i : Int) = n - 1) := by omega
    by_cases hi : (i : Int) = n - 1
    · rw [if_pos hi, if_pos (hiff.mpr hi)]
    · rw [if_neg hi, if_neg (fun h => hi (hiff.mp h)), add_zero]

/-- C14, an instance: an exploration of size 2 is open since time 0; the
clock reads 5 ms when `startExploration(3)` is called.  The 5 ms go to slot 1
(size 2), not to slot 2; the phase of size 2 is closed at 6 ms and a phase of
size 3 is opened. -/
theorem C14_restart_closes_open_exploration_witness :
    ∃ s1 clock1, exploringStats.startExploration laterClock 3 = some (s1, clock1) ∧
      s1.neighbourhoodExplorationTimes = [0, 5, 0] ∧
      s1.explorationPhases =
        [{ neighbourhoodSize := 2, startExplorationTime := 0, endExplorationTime := some 6 },
         { neighbourhoodSize := 3, startExplorationTime := 8, endExplorationTime := none }] ∧
      s1.totalNeighbourhoodSizeExplorations = [0, 1, 1] ∧
      s1.currentNeighbourhoodSize = 3 ∧ s1.currentlyExploring = true := by
  obtain ⟨s1, clock1, h, -, hphases, -, hcur, hexp, -, -⟩ :=
    C14_restart_closes_open_exploration exploringStats laterClock 3 []
      { neighbourhoodSize := 2, startExplorationTime := 0, endExplorationTime := none }
      rfl rfl (by decide) (by decide)
  have htimes : (exploringStats.startExploration laterClock 3).map
      (fun r => (r.1.neighbourhoodExplorationTimes, r.1.totalNeighbourhoodSizeExplorations)) =
      some ([0, 5, 0], [0, 1, 1]) := by decide
  rw [h] at htimes
  simp only [Option.map_some', Option.some.injEq, Prod.mk.injEq] at htimes
  refine ⟨s1, clock1, h, htimes.1, ?_, htimes.2, hcur, hexp⟩
  rw [hphases]
  decide

theorem NeighbourhoodSearchStats.construct_safe (k : Nat) (range : Int × Int) (maxSize : Nat)
    (size : Int) (time : Nat) :
    ExplorationSafe maxSize (NeighbourhoodSearchStats.construct k range maxSize size time) := by
  refine ⟨by simp [NeighbourhoodSearchStats.construct],
    by simp [NeighbourhoodSearchStats.construct],
    by simp [NeighbourhoodSearchStats.construct], ?_⟩
  intro h
  simp [NeighbourhoodSearchStats.construct] at h

/-- C16.  Statistics built with `maxNeighbourhoodSize = M` and changed by
calls of `startExploration(n)` with `1 ≤ n ≤ M` and by arbitrary calls of
`foundSolution`: every such sequence of calls is defined, that is, every
index used into the three vectors is within them and `explorationPhases` is
non-empty whenever its last element is accessed.  In the state reached the
three vectors have `M` entries and, while `currentlyExploring` is true, the
current size is between 1 and `M` and a phase is recorded.  `foundSolution`
changes nothing while `currentlyExploring` is false, as it is after
construction. -/
theorem C16_exploration_indices_in_range (k : Nat) (range : Int × Int) (maxSize : Nat)
    (size : Int) (time : Nat) (clock : Clock) (calls : List ExplorationCall)
    (hcalls : ∀ n, ExplorationCall.startExploration n ∈ calls →
      1 ≤ n ∧ n ≤ (maxSize : Int)) :
    ∃ s clock1,
      exploreAll (NeighbourhoodSearchStats.construct k range maxSize size time) clock calls =
        some (s, clock1) ∧
      s.totalNeighbourhoodSizeExplorations.length = maxSize ∧
      s.totalNeighbourhoodSizeSuccess.length = maxSize ∧
      s.neighbourhoodExplorationTimes.length = maxSize ∧
      (s.currentlyExploring = true →
        1 ≤ s.currentNeighbourhoodSize ∧ s.currentNeighbourhoodSize ≤ (maxSize : Int) ∧
          s.explorationPhases ≠ []) ∧
      (∀ (clock2 : Clock) (v : Int), s.currentlyExploring = false →
        s.foundSolution clock2 v = some (s, clock2)) ∧
      (NeighbourhoodSearchStats.construct k range maxSize size time).currentlyExploring =
        false := by
  obtain ⟨s, clock1, hall, l1, l2, l3, hopen⟩ :=
    exploreAll_safe maxSize calls _ clock
      (NeighbourhoodSearchStats.construct_safe k range maxSize size time) hcalls
  exact ⟨s, clock1, hall, l1, l2, l3, hopen,
    fun clock2 v h => NeighbourhoodSearchStats.foundSolution_idle s clock2 v h, rfl⟩

/-- C16, an instance: sizes up to 3; a find before any exploration, two
explorations, two finds. -/
theorem C16_exploration_indices_in_range_witness :
    ∃ s clock1,
      exploreAll (NeighbourhoodSearchStats.construct 2 (0, 100) 3 0 0) sampleClock
          [ExplorationCall.foundSolution 7, ExplorationCall.startExploration 2,
           ExplorationCall.startExploration 3, ExplorationCall.foundSolution 7,
           ExplorationCall.foundSolution 9] = some (s, clock1) ∧
      s.neighbourhoodExplorationTimes.length = 3 := by
  obtain ⟨s, clock1, h, -, -, l3, -⟩ :=
    C16_exploration_indices_in_range 2 (0, 100) 3 0 0 sampleClock
      [ExplorationCall.foundSolution 7, ExplorationCall.startExploration 2,
       ExplorationCall.startExploration 3, ExplorationCall.foundSolution 7,
       ExplorationCall.foundSolution 9]
      (by
        intro n hn
        simp only [List.mem_cons, reduceCtorEq, ExplorationCall.startExploration.injEq,
          List.mem_singleton, false_or, or_false, List.not_mem_nil] at hn
        omega)
  exact ⟨s, clock1, h, l3⟩

/-! ### The wrapper `AnyVarRef` -/

/-- C18.  For every handle `d` wrapped by `AnyVarRef(d)`: each query of the
wrapper returns what `d` returns (`popOneMapper` the handle `d` returns,
wrapped in turn), each mutator has the effect of the mutator of `d` on the
solver state; `isAssignedValue(i)` is `d.isAssigned() && d.assignedValue() ==
i`, which is `d.isAssignedValue(i)` whenever `d` satisfies that equivalence
(the inner `AnyVarRef_Concrete` forwards to `d.isAssignedValue`); `==`, `!=`
and `<` on two wrappers are the comparisons of their base variables, and
wrappers that compare `==` have the same hash. -/
theorem C18_anyvarref_transparent {σ Var Mapper DomainDelta D : Type} [DecidableEq Var]
    (ops : VarRefOps σ Var Mapper DomainDelta D) (d d2 : D) (st : σ) (i : Int)
    (delta : DomainDelta) :
    (AnyVarRef.ofVarRef d).isBound ops = some (ops.isBound d) ∧
    (AnyVarRef.ofVarRef d).isAssigned ops st = some (ops.isAssigned d st) ∧
    (AnyVarRef.ofVarRef d).assignedValue ops st = some (ops.assignedValue d st) ∧
    (AnyVarRef.ofVarRef d).inDomain ops i st = some (ops.inDomain d i st) ∧
    (AnyVarRef.ofVarRef d).inDomain_noBoundCheck ops i st =
      some (ops.inDomain_noBoundCheck d i st) ∧
    (AnyVarRef.ofVarRef d).domSize ops st = some (ops.domSize d st) ∧
    (AnyVarRef.ofVarRef d).min ops st = some (ops.min d st) ∧
    (AnyVarRef.ofVarRef d).max ops st = some (ops.max d st) ∧
    (AnyVarRef.ofVarRef d).initialMin ops st = some (ops.initialMin d st) ∧
    (AnyVarRef.ofVarRef d).initialMax ops st = some (ops.initialMax d st) ∧
    (AnyVarRef.ofVarRef d).getBaseVal ops i = some (ops.getBaseVal d i) ∧
    (AnyVarRef.ofVarRef d).getBaseVar ops = some (ops.getBaseVar d) ∧
    (AnyVarRef.ofVarRef d).getMapperStack ops = some (ops.getMapperStack d) ∧
    (AnyVarRef.ofVarRef d).getDomainChange ops delta st =
      some (ops.getDomainChange d delta st) ∧
    (AnyVarRef.ofVarRef d).popOneMapper ops =
      some (AnyVarRef.ofVarRef (ops.popOneMapper d)) ∧
    (AnyVarRef.ofVarRef d).setMin ops i st = some (ops.setMin d i st) ∧
    (AnyVarRef.ofVarRef d).setMax ops i st = some (ops.setMax d i st) ∧
    (AnyVarRef.ofVarRef d).assign ops i st = some (ops.assign d i st) ∧
    (AnyVarRef.ofVarRef d).uncheckedAssign ops i st = some (ops.uncheckedAssign d i st) ∧
    (AnyVarRef.ofVarRef d).removeFromDomain ops i st = some (ops.removeFromDomain d i st) ∧
    (AnyVarRef.ofVarRef d).isAssignedValue ops i st =
      some (ops.isAssigned d st && decide (ops.assignedValue d st = i)) ∧
    (ops.isAssignedValue d i st =
        (ops.isAssigned d st && decide (ops.assignedValue d st = i)) →
      (AnyVarRef.ofVarRef d).isAssignedValue ops i st = some (ops.isAssignedValue d i st)) ∧
    AnyVarRef_Concrete.isAssignedValue ops { data := d } i st = ops.isAssignedValue d i st ∧
    AnyVarRef.eq ops (AnyVarRef.ofVarRef d) (AnyVarRef.ofVarRef d2) =
      some (decide (ops.getBaseVar d = ops.getBaseVar d2)) ∧
    AnyVarRef.ne ops (AnyVarRef.ofVarRef d) (AnyVarRef.ofVarRef d2) =
      some (decide (ops.getBaseVar d ≠ ops.getBaseVar d2)) ∧
    AnyVarRef.less ops (AnyVarRef.ofVarRef d) (AnyVarRef.ofVarRef d2) =
      some (ops.varLess (ops.getBaseVar d) (ops.getBaseVar d2)) ∧
    (AnyVarRef.ofVarRef d).hash ops = some (ops.getHash (ops.getBaseVar d)) ∧
    (AnyVarRef.eq ops (AnyVarRef.ofVarRef d) (AnyVarRef.ofVarRef d2) = some true →
      (AnyVarRef.ofVarRef d).hash ops = (AnyVarRef.ofVarRef d2).hash ops) := by
  refine ⟨rfl, rfl, rfl, rfl, rfl, rfl, rfl, rfl, rfl, rfl, rfl, rfl, rfl, rfl, rfl, rfl, rfl,
    rfl, rfl, rfl, rfl, ?_, rfl, rfl, rfl, rfl, rfl, ?_⟩
  · intro h
    rw [h]
    rfl
  · intro h
    have hvar : ops.getBaseVar d = ops.getBaseVar d2 := by
      have h1 : AnyVarRef.eq ops (AnyVarRef.ofVarRef d) (AnyVarRef.ofVarRef d2) =
          some (decide (ops.getBaseVar d = ops.getBaseVar d2)) := rfl
      rw [h1] at h
      exact of_decide_eq_true (Option.some.inj h)
    show some (ops.getHash (ops.getBaseVar d)) = some (ops.getHash (ops.getBaseVar d2))
    rw [hvar]

/-- C18, an instance: in the sample solver the handles 2 and 3 stand for the
same base variable 1, so their wrappers compare `==` and have the same hash;
and the wrapper of handle 2 answers `isAssignedValue(4)` as the handle
does. -/
theorem C18_anyvarref_transparent_witness :
    AnyVarRef.eq boundsOps (AnyVarRef.ofVarRef 2) (AnyVarRef.ofVarRef 3) = some true ∧
    (AnyVarRef.ofVarRef 2).hash boundsOps = (AnyVarRef.ofVarRef 3).hash boundsOps ∧
    (AnyVarRef.ofVarRef 2).isAssignedValue boundsOps 4 (fun _ => (4, 4)) =
      some (boundsOps.isAssignedValue 2 4 (fun _ => (4, 4))) ∧
    (AnyVarRef.ofVarRef 2).isAssignedValue boundsOps 4 (fun _ => (4, 4)) = some true := by
  have h := C18_anyvarref_transparent boundsOps 2 3 (fun _ => (4, 4)) 4 0
  have heq : AnyVarRef.eq boundsOps (AnyVarRef.ofVarRef 2) (AnyVarRef.ofVarRef 3) =
      some true := by decide
  have hval := h.2.2.2.2.2.2.2.2.2.2.2.2.2.2.2.2.2.2.2.2.2.1 rfl
  refine ⟨heq, h.2.2.2.2.2.2.2.2.2.2.2.2.2.2.2.2.2.2.2.2.2.2.2.2.2.2.2 heq, hval, ?_⟩
  rw [hval]
  decide

end Minion
